import Mathlib

/-!
# Stixel tracker: cost matrix, graph correspondence and track store

A shallow embedding of `StixelsTracker` (src/src/stixelstracker.cpp):

* `compute_motion_cost_matrix` (lines 183-444),
* `computeMotionWithGraphs` (lines 880-940),
* `updateTracker` (lines 942-1003).

Conventions of the embedding.

* `float` values live in an arbitrary type `F`; the arithmetic the code performs on them is
  supplied by a `FloatOps F` record, so every statement holds for whatever the machine
  operations do (rounding, infinities and NaN included).
* `int` values are `Int`; the places where the code mixes `int` with `unsigned int` are
  reduced modulo `2 ^ 32` explicitly.
* Containers are lists or index functions.  An access outside a container (undefined
  behaviour in C++) makes the embedded function return `none`, and so does a failing
  `assert`.
* Everything declared in headers that are not part of src/ (the `Stixel` and `Stixel3d`
  types, the base class `DummyStixelMotionEstimator`, the camera, the polar calibration, the
  dense tracker, the matcher) is a parameter.
-/

set_option autoImplicit false

namespace StixelWorld

/-! ## Data model -/

/-- Modelled from the spec: the type tag of a stixel (`Stixel::Types`, declared in a header
outside src/).  The code only ever tests for `Occluded`. -/
inductive StixelType where
  | Solid
  | Occluded
  | Other
  deriving DecidableEq, Repr

/-- Modelled from the spec: the `Stixel` record (declared in a header outside src/), with
the fields that `StixelsTracker` reads. -/
structure Stixel (F : Type) where
  x : Int
  top_y : Int
  bottom_y : Int
  width : Int
  disparity : F
  type : StixelType
  deriving DecidableEq

/-- Modelled from the spec: the `Stixel3d` record (declared in a header outside src/): a
stixel enriched with a 3D bottom point, a direction, the static flag and the two links. -/
structure Stixel3d (F : Type) where
  stixel : Stixel F
  bottom3d : F × F × F
  direction : F × F
  isStatic : Bool
  forward_delta_x : Int
  valid_forward_delta_x : Bool
  backward_delta_x : Int
  valid_backward_delta_x : Bool
  deriving DecidableEq

/-- The machine operations on `float` that the tracker uses. -/
structure FloatOps (F : Type) where
  /-- the `float` denoted by a decimal literal of the source, given as the fraction
  `num / den`: `lit 8 10` is `0.8f` -/
  lit : Nat → Nat → F
  add : F → F → F
  sub : F → F → F
  mul : F → F → F
  /-- the product of a `float` with a `double` literal of the source, the literal given as
  the fraction `num / den`: the product is computed in `double` and converted to `float`
  once; `mulLit 12 10 x` is what `1.2 * x` leaves in a `float` (line 427) -/
  mulLit : Nat → Nat → F → F
  div : F → F → F
  /-- `fabs` -/
  fabs : F → F
  /-- `operator<` -/
  lt : F → F → Bool
  /-- `operator==` -/
  eq : F → F → Bool

/-- `std::max(a, b)`: returns `b` when `a < b`, else `a`. -/
def stdMax {F : Type} (ops : FloatOps F) (a b : F) : F :=
  if ops.lt a b then b else a

/-- `std::min(a, b)`: returns `b` when `b < a`, else `a`. -/
def stdMin {F : Type} (ops : FloatOps F) (a b : F) : F :=
  if ops.lt b a then b else a

/-- Conversion `int(u)` of a 32-bit unsigned value to a 32-bit signed one. -/
def toInt32 (u : Nat) : Int :=
  if u % 2 ^ 32 < 2 ^ 31 then ((u % 2 ^ 32 : Nat) : Int) else ((u % 2 ^ 32 : Nat) : Int) - 2 ^ 32

/-- Conversion of an `int` to `unsigned int` (reduction modulo `2 ^ 32`). -/
def toUInt32 (i : Int) : Nat :=
  (i % 2 ^ 32).toNat

/-- `MIN_FLOAT_DISPARITY = 0.8f` (line 44). -/
def MIN_FLOAT_DISPARITY {F : Type} (ops : FloatOps F) : F :=
  ops.lit 8 10

/-- Everything `compute_motion_cost_matrix` and `computeMotionWithGraphs` take from the
base class, the camera, the calibration and the dense tracker, together with the
configuration fields of the tracker. -/
structure Env (F : Type) where
  ops : FloatOps F
  /-- `motion_cost_matrix.rows()`; every cost matrix has these dimensions (lines 53-55) -/
  rows : Nat
  /-- `motion_cost_matrix.cols()` -/
  cols : Nat
  maximum_possible_motion_in_pixels : Nat
  maximum_pixel_value : F
  /-- `current_image_view.width()` -/
  current_image_width : Nat
  /-- `previous_image_view.width()` -/
  previous_image_width : Nat
  /-- returns `unsigned int` -/
  compute_stixel_horizontal_padding : Stixel F → Nat
  /-- `stereo_camera.disparity_to_depth` -/
  disparity_to_depth : F → F
  compute_stixel_real_height : Stixel F → F
  /-- the lookup `m_maximal_pixelwise_motion_by_disp(disparity, 0)`, read as `uint32_t` -/
  m_maximal_pixelwise_motion_by_disp : F → Nat
  /-- `compute_pixelwise_sad(current, previous, views, padding)` -/
  compute_pixelwise_sad : Stixel F → Stixel F → Nat → F
  /-- `cv::norm(previous_polar - current_polar)` for the pair (current, previous) -/
  polar_norm : Stixel F → Stixel F → F
  /-- `compute_polar_SAD(current, previous)` -/
  compute_polar_SAD : Stixel F → Stixel F → F
  /-- `compute_dense_tracking_score(current, previous)` -/
  compute_dense_tracking_score : Stixel F → Stixel F → F
  m_sad_factor : F
  m_height_factor : F
  m_polar_dist_factor : F
  m_polar_sad_factor : F
  m_dense_tracking_factor : F

/-- The matrices and vectors that `compute_motion_cost_matrix` fills. -/
structure CostState (F : Type) where
  motion_cost_matrix : Nat → Nat → F
  pixelwise_sad_matrix : Nat → Nat → F
  real_height_differences_matrix : Nat → Nat → F
  m_stixelsPolarDistMatrix : Nat → Nat → F
  m_polarSADMatrix : Nat → Nat → F
  m_denseTrackingMatrix : Nat → Nat → F
  motion_cost_assignment_matrix : Nat → Nat → Bool
  current_stixel_depths : Nat → F
  current_stixel_real_heights : Nat → F
  insertion_cost_dp : F
  deletion_cost_dp : F

/-! ## compute_motion_cost_matrix -/

section CostMatrix

variable {F : Type}

/-- Assignment `M(r, c) = v` on a matrix held as an index function. -/
def setAt {α : Type} (M : Nat → Nat → α) (r c : Nat) (v : α) : Nat → Nat → α :=
  fun i j => if i = r ∧ j = c then v else M i j

/-- Assignment `v(c) = a` on a vector held as an index function. -/
def setVec {α : Type} (v : Nat → α) (c : Nat) (a : α) : Nat → α :=
  fun j => if j = c then a else v j

/-- `compute_maximum_pixelwise_motion_for_stixel` (lines 465-469). -/
def compute_maximum_pixelwise_motion_for_stixel (env : Env F) (stixel : Stixel F) : Nat :=
  env.m_maximal_pixelwise_motion_by_disp stixel.disparity

/-- The horizontal-bounds test of lines 232-233 (current stixel) and 251-252 (previous
stixel).  `padding` is an `unsigned int`, so both sums are computed modulo `2 ^ 32` and the
first comparison is between an unsigned value and `0`. -/
def horizontalPaddingOk (s : Stixel F) (padding : Nat) (imageWidth : Nat) : Bool :=
  decide (0 ≤ toUInt32 (s.x - Int.tdiv (s.width - 1) 2 - (padding : Int))) &&
  decide (toUInt32 (s.x + Int.tdiv (s.width - 1) 2 + (padding : Int)) < imageWidth)

/-- The depth the code attaches to a stixel (lines 236-237 and 254-255). -/
def stixelDepth (env : Env F) (s : Stixel F) : F :=
  env.disparity_to_depth (stdMax env.ops (MIN_FLOAT_DISPARITY env.ops) s.disparity)

/-- The depth gate of line 257, with `maximum_depth_difference = 1.0`. -/
def depthGate (env : Env F) (current_stixel_depth previous_stixel_depth : F) : Bool :=
  env.ops.lt (env.ops.fabs (env.ops.sub current_stixel_depth previous_stixel_depth))
    (env.ops.lit 1 1)

/-- The motion gate of lines 263-264. -/
def motionGate (env : Env F) (current_stixel previous_stixel : Stixel F) : Bool :=
  decide (-(toInt32 (compute_maximum_pixelwise_motion_for_stixel env current_stixel))
            ≤ previous_stixel.x - current_stixel.x) &&
  decide (previous_stixel.x - current_stixel.x
            ≤ toInt32 (compute_maximum_pixelwise_motion_for_stixel env current_stixel))

/-- The three gates of lines 251-264 that a pair passes before it is written: bounds of the
previous stixel (with the padding of the current one), depth difference, motion. -/
def pairGates (env : Env F) (current_stixel : Stixel F) (padding : Nat)
    (current_stixel_depth : F) (previous_stixel : Stixel F) : Bool :=
  horizontalPaddingOk previous_stixel padding env.previous_image_width &&
  depthGate env current_stixel_depth (stixelDepth env previous_stixel) &&
  motionGate env current_stixel previous_stixel

/-- The five cue values of a pair (lines 266-288), in the order pixelwise SAD, real height
difference, polar distance, polar SAD, dense tracking score. -/
def cueValues (env : Env F) (current_stixel previous_stixel : Stixel F) (padding : Nat)
    (current_stixel_real_height : F) : F × F × F × F × F :=
  if current_stixel.type ≠ StixelType.Occluded ∧ previous_stixel.type ≠ StixelType.Occluded then
    ( (if env.ops.eq env.m_sad_factor (env.ops.lit 0 1) then env.ops.lit 0 1
        else env.compute_pixelwise_sad current_stixel previous_stixel padding),
      (if env.ops.eq env.m_height_factor (env.ops.lit 0 1) then env.ops.lit 0 1
        else env.ops.fabs (env.ops.sub current_stixel_real_height
               (env.compute_stixel_real_height previous_stixel))),
      (if env.ops.eq env.m_polar_dist_factor (env.ops.lit 0 1) then env.ops.lit 0 1
        else env.polar_norm current_stixel previous_stixel),
      (if env.ops.eq env.m_polar_sad_factor (env.ops.lit 0 1) then env.ops.lit 0 1
        else env.compute_polar_SAD current_stixel previous_stixel),
      (if env.ops.eq env.m_dense_tracking_factor (env.ops.lit 0 1) then env.ops.lit 0 1
        else env.compute_dense_tracking_score current_stixel previous_stixel) )
  else
    ( env.maximum_pixel_value, env.ops.lit 1 2, env.ops.lit 50 1,
      env.maximum_pixel_value, env.maximum_pixel_value )

/-- The writes of lines 290-301 at `(row, s_current)`. -/
def writePair (env : Env F) (row s_current : Nat) (cues : F × F × F × F × F)
    (st : CostState F) : CostState F :=
  { st with
    pixelwise_sad_matrix := setAt st.pixelwise_sad_matrix row s_current cues.1
    real_height_differences_matrix :=
      setAt st.real_height_differences_matrix row s_current
        (stdMin env.ops (env.ops.lit 1 1) (env.ops.div cues.2.1 (env.ops.lit 1 2)))
    m_stixelsPolarDistMatrix :=
      setAt st.m_stixelsPolarDistMatrix row s_current
        (env.ops.sub (env.ops.lit 1 1)
          (stdMin env.ops (env.ops.lit 1 1) (env.ops.div cues.2.2.1 (env.ops.lit 50 1))))
    m_polarSADMatrix :=
      setAt st.m_polarSADMatrix row s_current (env.ops.sub env.maximum_pixel_value cues.2.2.2.1)
    m_denseTrackingMatrix := setAt st.m_denseTrackingMatrix row s_current cues.2.2.2.2
    motion_cost_assignment_matrix := setAt st.motion_cost_assignment_matrix row s_current true }

/-- One iteration of the loop over previous stixels (lines 245-309).  The matrix element
accessed is `(pixelwise_motion + maximum_possible_motion_in_pixels, s_current)`; outside
the matrix the result is `none`. -/
def pairStep (env : Env F) (s_current : Nat) (current_stixel : Stixel F) (padding : Nat)
    (current_stixel_depth current_stixel_real_height : F) (previous_stixel : Stixel F)
    (st : CostState F) : Option (CostState F) :=
  if horizontalPaddingOk previous_stixel padding env.previous_image_width then
    if depthGate env current_stixel_depth (stixelDepth env previous_stixel) then
      if motionGate env current_stixel previous_stixel then
        let pixelwise_motion : Int := previous_stixel.x - current_stixel.x
        let row : Int := pixelwise_motion + (env.maximum_possible_motion_in_pixels : Int)
        if 0 ≤ row ∧ row < (env.rows : Int) ∧ s_current < env.cols then
          some (writePair env row.toNat s_current
                  (cueValues env current_stixel previous_stixel padding
                     current_stixel_real_height) st)
        else none
      else some st
    else some st
  else some st

/-- The loop over previous stixels for one current stixel (lines 245-309). -/
def prevLoop (env : Env F) (s_current : Nat) (current_stixel : Stixel F) (padding : Nat)
    (current_stixel_depth current_stixel_real_height : F) :
    List (Stixel F) → CostState F → Option (CostState F)
  | [], st => some st
  | previous_stixel :: rest, st =>
    (pairStep env s_current current_stixel padding current_stixel_depth
        current_stixel_real_height previous_stixel st).bind
      (prevLoop env s_current current_stixel padding current_stixel_depth
        current_stixel_real_height rest)

/-- The body of the loop over current stixels for index `s_current` (lines 225-310).  The
vectors `current_stixel_depths` and `current_stixel_real_heights` have one entry per matrix
column. -/
def currStep (env : Env F) (previous_stixels : List (Stixel F)) (s_current : Nat)
    (current_stixel : Stixel F) (st : CostState F) : Option (CostState F) :=
  let stixel_horizontal_padding := env.compute_stixel_horizontal_padding current_stixel
  if horizontalPaddingOk current_stixel stixel_horizontal_padding env.current_image_width then
    let current_stixel_depth := stixelDepth env current_stixel
    let current_stixel_real_height := env.compute_stixel_real_height current_stixel
    if s_current < env.cols then
      prevLoop env s_current current_stixel stixel_horizontal_padding current_stixel_depth
        current_stixel_real_height previous_stixels
        { st with
          current_stixel_depths := setVec st.current_stixel_depths s_current current_stixel_depth
          current_stixel_real_heights :=
            setVec st.current_stixel_real_heights s_current current_stixel_real_height }
    else none
  else some st

/-- The loop over current stixels (lines 223-312), started at index `s_current`. -/
def currLoop (env : Env F) (previous_stixels : List (Stixel F)) :
    Nat → List (Stixel F) → CostState F → Option (CostState F)
  | _, [], st => some st
  | s_current, current_stixel :: rest, st =>
    (currStep env previous_stixels s_current current_stixel st).bind
      (currLoop env previous_stixels (s_current + 1) rest)

/-- The state after the `fill` calls of lines 209-218; the two cost fields that are only
assigned later keep the value they had. -/
def resetState (env : Env F) (st : CostState F) : CostState F :=
  { motion_cost_matrix := fun _ _ => env.ops.lit 0 1
    pixelwise_sad_matrix := fun _ _ => env.ops.lit 0 1
    real_height_differences_matrix := fun _ _ => env.ops.lit 0 1
    m_stixelsPolarDistMatrix := fun _ _ => env.ops.lit 0 1
    m_polarSADMatrix := fun _ _ => env.ops.lit 0 1
    m_denseTrackingMatrix := fun _ _ => env.ops.lit 0 1
    motion_cost_assignment_matrix := fun _ _ => false
    current_stixel_depths := fun _ => env.ops.lit 0 1
    current_stixel_real_heights := fun _ => env.ops.lit 0 1
    insertion_cost_dp := st.insertion_cost_dp
    deletion_cost_dp := st.deletion_cost_dp }

/-- The coefficients of a `rows x cols` matrix in storage (column-major) order. -/
def coefficients (rows cols : Nat) (M : Nat → Nat → F) : List F :=
  (List.range cols).flatMap (fun j => (List.range rows).map (fun i => M i j))

/-- `maxCoeff()`: the reduction of the coefficients with `std::max`, seeded with the first
coefficient. -/
def maxCoeff (ops : FloatOps F) (rows cols : Nat) (M : Nat → Nat → F) : F :=
  ((coefficients rows cols M).drop 1).foldl (stdMax ops) (M 0 0)

/-- Coefficient-wise product of a matrix with a scalar (lines 318, 321, 329). -/
def scaleMatrix (ops : FloatOps F) (M : Nat → Nat → F) (k : F) : Nat → Nat → F :=
  fun i j => ops.mul (M i j) k

/-- The inversion loop of lines 322-326 over all `(i, j)` of the matrix. -/
def invertLoop (env : Env F) (M : Nat → Nat → F) : Nat → Nat → F :=
  (List.range env.rows).foldl
    (fun acc i =>
      (List.range env.cols).foldl
        (fun acc2 j => setAt acc2 i j (env.ops.sub env.maximum_pixel_value (acc2 i j))) acc) M

/-- The weighted sum of lines 333-337, coefficient by coefficient. -/
def combineCosts (env : Env F) (st : CostState F) : Nat → Nat → F :=
  fun i j =>
    env.ops.add
      (env.ops.add
        (env.ops.add
          (env.ops.add (env.ops.mul env.m_sad_factor (st.pixelwise_sad_matrix i j))
            (env.ops.mul env.m_height_factor (st.real_height_differences_matrix i j)))
          (env.ops.mul env.m_polar_dist_factor (st.m_stixelsPolarDistMatrix i j)))
        (env.ops.mul env.m_polar_sad_factor (st.m_polarSADMatrix i j)))
      (env.ops.mul env.m_dense_tracking_factor (st.m_denseTrackingMatrix i j))

/-- Lines 314-337: rescaling of three component matrices, inversion of the dense tracking
matrix and the weighted sum. -/
def rescaleAndCombine (env : Env F) (st : CostState F) : CostState F :=
  let maximum_real_height_difference :=
    maxCoeff env.ops env.rows env.cols st.real_height_differences_matrix
  let st1 := { st with
    real_height_differences_matrix :=
      scaleMatrix env.ops st.real_height_differences_matrix
        (env.ops.div env.maximum_pixel_value maximum_real_height_difference) }
  let maximum_dense_tracking_value :=
    maxCoeff env.ops env.rows env.cols st1.m_denseTrackingMatrix
  let st2 := { st1 with
    m_denseTrackingMatrix :=
      invertLoop env
        (scaleMatrix env.ops st1.m_denseTrackingMatrix
          (env.ops.div env.maximum_pixel_value maximum_dense_tracking_value)) }
  let maximum_polar_dist_value :=
    maxCoeff env.ops env.rows env.cols st2.m_stixelsPolarDistMatrix
  let st3 := { st2 with
    m_stixelsPolarDistMatrix :=
      scaleMatrix env.ops st2.m_stixelsPolarDistMatrix
        (env.ops.div env.maximum_pixel_value maximum_polar_dist_value) }
  { st3 with motion_cost_matrix := combineCosts env st3 }

/-- Lines 405-413: the last row receives the deletion cost and is marked feasible.  The
source nests two loops over the same column range. -/
def fillLastRow (env : Env F) (st : CostState F) : CostState F :=
  let largest_row_index := env.rows - 1
  (List.range env.cols).foldl
    (fun acc _ =>
      (List.range env.cols).foldl
        (fun acc2 j =>
          { acc2 with
            motion_cost_matrix :=
              setAt acc2.motion_cost_matrix largest_row_index j acc2.deletion_cost_dp
            motion_cost_assignment_matrix :=
              setAt acc2.motion_cost_assignment_matrix largest_row_index j true }) acc) st

/-- Lines 419-431: every entry not marked feasible receives `1.2 * maximum`; `1.2` is a
`double` literal, so the product is taken in `double` and stored as a `float` (`mulLit`). -/
def fillInfeasible (env : Env F) (maximum_cost_matrix_element : F) (st : CostState F) :
    CostState F :=
  (List.range env.rows).foldl
    (fun acc i =>
      (List.range env.cols).foldl
        (fun acc2 j =>
          if acc2.motion_cost_assignment_matrix i j = false then
            { acc2 with
              motion_cost_matrix :=
                setAt acc2.motion_cost_matrix i j
                  (env.ops.mulLit 12 10 maximum_cost_matrix_element) }
          else acc2) acc) st

/-- Lines 394-432: maximum of the combined matrix, insertion and deletion cost, last row,
penalty of the entries that are not feasible. -/
def finishCosts (env : Env F) (st : CostState F) : CostState F :=
  let maximum_cost_matrix_element := maxCoeff env.ops env.rows env.cols st.motion_cost_matrix
  let st1 := { st with
    insertion_cost_dp := env.ops.mul env.maximum_pixel_value (env.ops.lit 6 10) }
  let st2 := { st1 with deletion_cost_dp := st1.insertion_cost_dp }
  fillInfeasible env maximum_cost_matrix_element (fillLastRow env st2)

/-- The condition of the `assert` of line 193: the five weights add up to `1.0f`. -/
def weightsAssertion (env : Env F) : Bool :=
  env.ops.eq
    (env.ops.add
      (env.ops.add
        (env.ops.add (env.ops.add env.m_sad_factor env.m_height_factor) env.m_polar_dist_factor)
        env.m_polar_sad_factor)
      env.m_dense_tracking_factor)
    (env.ops.lit 1 1)

/-- `StixelsTracker::compute_motion_cost_matrix` (lines 183-444).  A failing `assert` and
`maxCoeff` on a matrix without rows or columns end the function without a result (`none`). -/
def compute_motion_cost_matrix (env : Env F) (previous_stixels current_stixels : List (Stixel F))
    (st : CostState F) : Option (CostState F) :=
  if weightsAssertion env then
    (currLoop env previous_stixels 0 current_stixels (resetState env st)).bind
      (fun filled =>
        if 0 < env.rows ∧ 0 < env.cols then
          some (finishCosts env (rescaleAndCombine env filled))
        else none)
  else none

/-- The condition under which the code marks `(r, c)` for current stixel `c`: the stixel
passes its bounds test and some previous stixel passes the three gates at shift row `r`. -/
def MarkedBy (env : Env F) (previous_stixels : List (Stixel F)) (current_stixel : Stixel F)
    (r : Nat) : Prop :=
  horizontalPaddingOk current_stixel (env.compute_stixel_horizontal_padding current_stixel)
      env.current_image_width = true ∧
  ∃ p ∈ previous_stixels,
    pairGates env current_stixel (env.compute_stixel_horizontal_padding current_stixel)
      (stixelDepth env current_stixel) p = true ∧
    p.x - current_stixel.x + (env.maximum_possible_motion_in_pixels : Int) = (r : Int)

end CostMatrix

/-! ## computeMotionWithGraphs -/

section Graphs

variable {F : Type}

/-- An edge of the bipartite graph built in lines 882-921.  Node ids follow the order of
`addNode`: previous stixel `p` is node `p`, current stixel `c` is node `c + P` where `P` is
the number of previous stixels. -/
structure GraphEdge (F : Type) where
  u : Nat
  v : Nat
  cost : F
  deriving DecidableEq

/-- The body of the inner loop of lines 896-920 for the pair `(prevIdx, currIdx)`: the
edges so far, extended by the edge of this pair when its tests pass.  The matrices are read
at `(rowIndex, currIdx)` with `rowIndex` a `uint32_t`; a read outside them gives `none`. -/
def edgeStep (env : Env F) (st : CostState F) (maxCost : F) (numPrev : Nat)
    (prevIdx : Nat) (prevStixel : Stixel F) (currIdx : Nat) (currStixel : Stixel F)
    (edges : List (GraphEdge F)) : Option (List (GraphEdge F)) :=
  let pixelwise_motion : Int := prevStixel.x - currStixel.x
  let maximum_motion := toInt32 (compute_maximum_pixelwise_motion_for_stixel env currStixel)
  let pixelwise_motionY : Int := ((prevStixel.bottom_y - currStixel.bottom_y).natAbs : Int)
  let rowIndex : Nat := toUInt32 (pixelwise_motion + (env.maximum_possible_motion_in_pixels : Int))
  if -maximum_motion ≤ pixelwise_motion ∧ pixelwise_motion ≤ maximum_motion ∧
      pixelwise_motionY ≤ maximum_motion then
    if rowIndex < env.rows ∧ currIdx < env.cols then
      if st.motion_cost_assignment_matrix rowIndex currIdx then
        if env.ops.lt (env.ops.lit 1 1) (st.m_stixelsPolarDistMatrix rowIndex currIdx) then
          some (edges ++
            [{ u := prevIdx, v := currIdx + numPrev,
               cost := env.ops.sub maxCost (st.motion_cost_matrix rowIndex currIdx) }])
        else some edges
      else some edges
    else none
  else some edges

/-- The loop over current stixels for one previous stixel (lines 896-920). -/
def edgeCurrLoop (env : Env F) (st : CostState F) (maxCost : F) (numPrev : Nat)
    (prevIdx : Nat) (prevStixel : Stixel F) :
    Nat → List (Stixel F) → List (GraphEdge F) → Option (List (GraphEdge F))
  | _, [], edges => some edges
  | currIdx, currStixel :: rest, edges =>
    (edgeStep env st maxCost numPrev prevIdx prevStixel currIdx currStixel edges).bind
      (edgeCurrLoop env st maxCost numPrev prevIdx prevStixel (currIdx + 1) rest)

/-- The loop over previous stixels (lines 894-921). -/
def edgePrevLoop (env : Env F) (st : CostState F) (maxCost : F) (numPrev : Nat)
    (current_stixels : List (Stixel F)) :
    Nat → List (Stixel F) → List (GraphEdge F) → Option (List (GraphEdge F))
  | _, [], edges => some edges
  | prevIdx, prevStixel :: rest, edges =>
    (edgeCurrLoop env st maxCost numPrev prevIdx prevStixel 0 current_stixels edges).bind
      (edgePrevLoop env st maxCost numPrev current_stixels (prevIdx + 1) rest)

/-- The edges added to the graph by lines 893-921, in the order of `addEdge`.  `maxCoeff`
(line 893) needs a matrix with at least one row and one column. -/
def buildGraph (env : Env F) (st : CostState F)
    (previous_stixels current_stixels : List (Stixel F)) : Option (List (GraphEdge F)) :=
  if 0 < env.rows ∧ 0 < env.cols then
    edgePrevLoop env st (maxCoeff env.ops env.rows env.cols st.motion_cost_matrix)
      previous_stixels.length current_stixels 0 previous_stixels []
  else none

/-- The value `matchingMap[n]` of the matcher for a matching given as a list of edges: the
arc `(source, target)` of the matching that leaves node `n`, its target being the mate of
`n`; `none` stands for `INVALID` (node not covered). -/
def matchingArc (matching : List (GraphEdge F)) (n : Nat) : Option (Nat × Nat) :=
  match matching.find? (fun e => decide (e.u = n) || decide (e.v = n)) with
  | some e => some (if e.u = n then (n, e.v) else (n, e.u))
  | none => none

/-- The loop of lines 932-937 over the previous node ids still to be visited.  The index
`graph.id(graph.target(arc)) - previous_stixels_p->size()` is computed in `size_t`; an
index outside `stixels_motion` gives `none`. -/
def motionLoop (matching : List (GraphEdge F)) (numPrev : Nat) :
    List Nat → List Int → Option (List Int)
  | [], stixels_motion => some stixels_motion
  | i :: rest, stixels_motion =>
    match matchingArc matching i with
    | none => motionLoop matching numPrev rest stixels_motion
    | some arc =>
      if numPrev ≤ arc.2 ∧ arc.2 - numPrev < stixels_motion.length then
        motionLoop matching numPrev rest (stixels_motion.set (arc.2 - numPrev) (arc.1 : Int))
      else none

/-- `StixelsTracker::computeMotionWithGraphs` (lines 880-940).  `matcher` is the external
maximum weighted matching: it maps the edges of the graph to the edges of the matching it
found.  The result is the new content of `stixels_motion`. -/
def computeMotionWithGraphs (env : Env F) (matcher : List (GraphEdge F) → List (GraphEdge F))
    (st : CostState F) (previous_stixels current_stixels : List (Stixel F))
    (stixels_motion : List Int) : Option (List Int) :=
  (buildGraph env st previous_stixels current_stixels).bind
    (fun graph =>
      motionLoop (matcher graph) previous_stixels.length (List.range previous_stixels.length)
        (stixels_motion.map (fun _ => (-1 : Int))))

/-- A matching of the graph: a selection of its edges no two of which share a node. -/
def IsMatching (graph matching : List (GraphEdge F)) : Prop :=
  (∀ e ∈ matching, e ∈ graph) ∧
  matching.Pairwise (fun e1 e2 => e1.u ≠ e2.u ∧ e1.u ≠ e2.v ∧ e1.v ≠ e2.u ∧ e1.v ≠ e2.v)

/-- An edge joins a previous node with a current node. -/
def EdgeInRange (numPrev numCurr : Nat) (e : GraphEdge F) : Prop :=
  e.u < numPrev ∧ numPrev ≤ e.v ∧ e.v < numPrev + numCurr

/-- The tests of lines 906-913 for the pair (previous stixel, current stixel at column
`currIdx`), as the code evaluates them: horizontal and vertical shift within the lookup
value of the current stixel, entry `(rowIndex, currIdx)` marked feasible, polar distance
entry above `1.0f`. -/
def EdgeTests (env : Env F) (st : CostState F) (prevStixel currStixel : Stixel F)
    (currIdx : Nat) : Prop :=
  (-(toInt32 (compute_maximum_pixelwise_motion_for_stixel env currStixel))
      ≤ prevStixel.x - currStixel.x ∧
    prevStixel.x - currStixel.x
      ≤ toInt32 (compute_maximum_pixelwise_motion_for_stixel env currStixel) ∧
    (((prevStixel.bottom_y - currStixel.bottom_y).natAbs : Int)
      ≤ toInt32 (compute_maximum_pixelwise_motion_for_stixel env currStixel))) ∧
  st.motion_cost_assignment_matrix
    (toUInt32 (prevStixel.x - currStixel.x + (env.maximum_possible_motion_in_pixels : Int)))
    currIdx = true ∧
  env.ops.lt (env.ops.lit 1 1)
    (st.m_stixelsPolarDistMatrix
      (toUInt32 (prevStixel.x - currStixel.x + (env.maximum_possible_motion_in_pixels : Int)))
      currIdx) = true

/-- The edge that lines 914-917 add for the pair `(prevIdx, currIdx)`. -/
def edgeOf (env : Env F) (st : CostState F) (maxCost : F) (numPrev : Nat) (prevIdx : Nat)
    (prevStixel : Stixel F) (currIdx : Nat) (currStixel : Stixel F) : GraphEdge F :=
  { u := prevIdx
    v := currIdx + numPrev
    cost := env.ops.sub maxCost
      (st.motion_cost_matrix
        (toUInt32 (prevStixel.x - currStixel.x + (env.maximum_possible_motion_in_pixels : Int)))
        currIdx) }

end Graphs

/-! ## updateTracker -/

section Tracker

variable {F : Type}

/-- The two containers `updateTracker` maintains: `m_tracker` (one track per column) and the
deque `m_stixelsHistoric` (newest snapshot at the front). -/
structure TrackerState (F : Type) where
  m_tracker : List (List (Stixel3d F))
  m_stixelsHistoric : List (List (Stixel3d F))
  deriving DecidableEq

/-- `tracks[i].push_back(a)`. -/
def pushBackAt {α : Type} (tracks : List (List α)) (i : Nat) (a : α) : Option (List (List α)) :=
  match tracks[i]? with
  | some t => some (tracks.set i (t ++ [a]))
  | none => none

/-- The loop of lines 951-960 (first frame), from index `i` on.  `make3d` is the
constructor `Stixel3d(stixel)` followed by `update3dcoords(stereo_camera)`. -/
def firstFrameLoop (make3d : Stixel F → Stixel3d F) :
    Nat → List (Stixel F) → List (List (Stixel3d F)) × List (Stixel3d F) →
    Option (List (List (Stixel3d F)) × List (Stixel3d F))
  | _, [], acc => some acc
  | i, stixel :: rest, (m_tracker, newStixels3d) =>
    let currStixel3d := { make3d stixel with isStatic := false }
    (pushBackAt m_tracker i currStixel3d).bind
      (fun m_tracker2 =>
        let currStixel3d2 := { currStixel3d with valid_forward_delta_x := false }
        firstFrameLoop make3d (i + 1) rest (m_tracker2, newStixels3d ++ [currStixel3d2]))

/-- Line 980: `m_tracker[i] = tmpTracker[corresp_i]`. -/
def copyTrack (tmpTracker m_tracker : List (List (Stixel3d F))) (i : Nat) (corresp_i : Int) :
    Option (List (List (Stixel3d F))) :=
  match tmpTracker[corresp_i.toNat]? with
  | some t => if i < m_tracker.length then some (m_tracker.set i t) else none
  | none => none

/-- Lines 992-993: the forward link of `lastStixels3d[corresp_i]` is set to `i`. -/
def setForwardLink (lastStixels3d : List (Stixel3d F)) (i : Nat) (corresp_i : Int) :
    Option (List (Stixel3d F)) :=
  match lastStixels3d[corresp_i.toNat]? with
  | some r =>
    some (lastStixels3d.set corresp_i.toNat
      { r with forward_delta_x := (i : Int), valid_forward_delta_x := true })
  | none => none

/-- The loop of lines 978-1001 (later frames), from index `i` on.  Its state is
`(m_tracker, lastStixels3d, newStixels3d)`. -/
def nextFrameLoop (make3d : Stixel F → Stixel3d F) (tmpTracker : List (List (Stixel3d F)))
    (corresp : List Int) :
    Nat → List (Stixel F) →
    List (List (Stixel3d F)) × List (Stixel3d F) × List (Stixel3d F) →
    Option (List (List (Stixel3d F)) × List (Stixel3d F) × List (Stixel3d F))
  | _, [], acc => some acc
  | i, stixel :: rest, (m_tracker, lastStixels3d, newStixels3d) =>
    match corresp[i]? with
    | none => none
    | some corresp_i =>
      (if 0 ≤ corresp_i then copyTrack tmpTracker m_tracker i corresp_i else some m_tracker).bind
        (fun m_tracker2 =>
          let currStixel3d :=
            { make3d stixel with valid_backward_delta_x := false, valid_forward_delta_x := false }
          (if 0 ≤ corresp_i then
              (setForwardLink lastStixels3d i corresp_i).map
                (fun last2 =>
                  (last2, { currStixel3d with
                              backward_delta_x := corresp_i, valid_backward_delta_x := true }))
            else some (lastStixels3d, currStixel3d)).bind
            (fun linked =>
              (pushBackAt m_tracker2 i linked.2).bind
                (fun m_tracker3 =>
                  nextFrameLoop make3d tmpTracker corresp (i + 1) rest
                    (m_tracker3, linked.1, newStixels3d ++ [linked.2]))))

/-- Lines 965-967: `pop_back` on the deque when it holds more than `MAX_ITERATIONS_STORED`
snapshots. -/
def evictOldest {α : Type} (MAX_ITERATIONS_STORED : Nat) (m_stixelsHistoric : List α) :
    List α :=
  if m_stixelsHistoric.length > MAX_ITERATIONS_STORED then m_stixelsHistoric.dropLast
  else m_stixelsHistoric

/-- `StixelsTracker::updateTracker` (lines 942-1003).  `MAX_ITERATIONS_STORED` is a
constant of a header outside src/; `currStixels` is `*current_stixels_p` and `corresp` is
the copy of `stixels_motion`. -/
def updateTracker (MAX_ITERATIONS_STORED : Nat) (make3d : Stixel F → Stixel3d F)
    (currStixels : List (Stixel F)) (corresp : List Int) (s : TrackerState F) :
    Option (TrackerState F) :=
  if s.m_tracker.length = 0 then
    (firstFrameLoop make3d 0 currStixels (List.replicate currStixels.length [], [])).map
      (fun r =>
        { m_tracker := r.1, m_stixelsHistoric := r.2 :: s.m_stixelsHistoric })
  else
    let tmpTracker := s.m_tracker
    match evictOldest MAX_ITERATIONS_STORED s.m_stixelsHistoric with
    | [] => none
    | lastStixels3d :: older =>
      (nextFrameLoop make3d tmpTracker corresp 0 currStixels
          (List.replicate currStixels.length [], lastStixels3d, [])).map
        (fun r =>
          { m_tracker := r.1, m_stixelsHistoric := r.2.2 :: r.2.1 :: older })

/-- The state of a freshly constructed tracker: no track, no snapshot. -/
def initialTracker : TrackerState F :=
  { m_tracker := [], m_stixelsHistoric := [] }

/-- The states reached from the initial one by calls of `updateTracker` that return. -/
inductive Reachable (MAX_ITERATIONS_STORED : Nat) (make3d : Stixel F → Stixel3d F) :
    TrackerState F → Prop where
  | init : Reachable MAX_ITERATIONS_STORED make3d initialTracker
  | step (s s2 : TrackerState F) (currStixels : List (Stixel F)) (corresp : List Int) :
      Reachable MAX_ITERATIONS_STORED make3d s →
      updateTracker MAX_ITERATIONS_STORED make3d currStixels corresp s = some s2 →
      Reachable MAX_ITERATIONS_STORED make3d s2

/-- The correspondence array is one-to-one on its valid entries. -/
def InjectiveOnValid (corresp : List Int) : Prop :=
  ∀ i j : Nat, ∀ a b : Int, corresp[i]? = some a → corresp[j]? = some b →
    0 ≤ a → a = b → i = j

/-- The record the first-frame loop pushes onto track `i` (lines 952-956). -/
def firstFrameTrackRecord (make3d : Stixel F → Stixel3d F) (stixel : Stixel F) : Stixel3d F :=
  { make3d stixel with isStatic := false }

/-- The record the first-frame loop pushes onto the snapshot (lines 958-959). -/
def firstFrameSnapshotRecord (make3d : Stixel F → Stixel3d F) (stixel : Stixel F) :
    Stixel3d F :=
  { firstFrameTrackRecord make3d stixel with valid_forward_delta_x := false }

/-- The record the later-frame loop builds for a current stixel whose correspondence entry
is `corresp_i` (lines 982-997). -/
def nextFrameRecord (make3d : Stixel F → Stixel3d F) (stixel : Stixel F) (corresp_i : Int) :
    Stixel3d F :=
  if 0 ≤ corresp_i then
    { make3d stixel with
      valid_forward_delta_x := false
      backward_delta_x := corresp_i
      valid_backward_delta_x := true }
  else
    { make3d stixel with valid_backward_delta_x := false, valid_forward_delta_x := false }

/-- The track of a current column after the later-frame loop: the track of the matched
previous column, or nothing, followed by the new record (lines 979-999). -/
def nextFrameTrack (make3d : Stixel F → Stixel3d F) (tmpTracker : List (List (Stixel3d F)))
    (stixel : Stixel F) (corresp_i : Int) : List (Stixel3d F) :=
  (if 0 ≤ corresp_i then (tmpTracker[corresp_i.toNat]?).getD [] else []) ++
    [nextFrameRecord make3d stixel corresp_i]

/-- The states reached from the initial one by exactly `k` calls of `updateTracker`. -/
inductive ReachableIn (MAX_ITERATIONS_STORED : Nat) (make3d : Stixel F → Stixel3d F) :
    Nat → TrackerState F → Prop where
  | init : ReachableIn MAX_ITERATIONS_STORED make3d 0 initialTracker
  | step (k : Nat) (s s2 : TrackerState F) (currStixels : List (Stixel F))
      (corresp : List Int) :
      ReachableIn MAX_ITERATIONS_STORED make3d k s →
      updateTracker MAX_ITERATIONS_STORED make3d currStixels corresp s = some s2 →
      ReachableIn MAX_ITERATIONS_STORED make3d (k + 1) s2

/-- The invariant of the track store: either there is no track, or the newest snapshot has
one record per track and none of its forward links has been set yet. -/
def TrackerInv (s : TrackerState F) : Prop :=
  s.m_tracker = [] ∨
  ∃ last older, s.m_stixelsHistoric = last :: older ∧ last.length = s.m_tracker.length ∧
    ∀ r ∈ last, r.valid_forward_delta_x = false

end Tracker

/-! ## The tracker object, its constructor and set_motion_cost_factors -/

section Configuration

variable {F : Type}

/-- The members of a `StixelsTracker` object that the functions embedded here read or
write.  `env` holds what the object inherits from `DummyStixelMotionEstimator` and gets from
the camera, the calibration and the dense tracker, together with the lookup table and the
five weights; `costs` holds the cost matrices and `tracks` the track store. -/
structure StixelsTracker (F : Type) where
  env : Env F
  costs : CostState F
  stixels_motion : List Int
  tracks : TrackerState F
  m_minAllowedObjectWidth : F
  m_minDistBetweenClusters : F
  m_minPolarSADForBeingStatic : F
  m_useGraphs : Bool
  m_clusters : List Int
  m_objects : List (List Int)

/-- The constructor `StixelsTracker::StixelsTracker` (lines 45-72), applied to what the
constructor of the base class has built (`env`, `costs`, `stixels_motion`).  The three
matrices of lines 51-53 are zero matrices, the lookup table that line 54 fills from the
camera is the one `env` holds, and the containers that the constructor does not mention are
empty. -/
def StixelsTracker.StixelsTracker (env : Env F) (costs : CostState F) (stixels_motion : List Int) :
    StixelsTracker F :=
  { env :=
      { env with
        m_sad_factor := env.ops.lit 3 10
        m_height_factor := env.ops.lit 0 1
        m_polar_dist_factor := env.ops.lit 0 1
        m_polar_sad_factor := env.ops.lit 0 1
        m_dense_tracking_factor := env.ops.lit 7 10 }
    costs :=
      { costs with
        m_stixelsPolarDistMatrix := fun _ _ => env.ops.lit 0 1
        m_polarSADMatrix := fun _ _ => env.ops.lit 0 1
        m_denseTrackingMatrix := fun _ _ => env.ops.lit 0 1 }
    stixels_motion := stixels_motion
    tracks := initialTracker
    m_minAllowedObjectWidth := env.ops.lit 3 10
    m_minDistBetweenClusters := env.ops.lit 3 10
    m_minPolarSADForBeingStatic := env.ops.lit 10 1
    m_useGraphs := true
    m_clusters := []
    m_objects := [] }

/-- `StixelsTracker::set_motion_cost_factors` (lines 74-89).  The message that the `else`
branch writes to `cerr` is not part of the object. -/
def set_motion_cost_factors (t : StixelsTracker F)
    (sad_factor height_factor polar_dist_factor polar_sad_factor dense_tracking_factor : F)
    (useGraphs : Bool) : StixelsTracker F :=
  let t1 :=
    if t.env.ops.eq
        (t.env.ops.add
          (t.env.ops.add
            (t.env.ops.add (t.env.ops.add sad_factor height_factor) polar_dist_factor)
            polar_sad_factor)
          dense_tracking_factor)
        (t.env.ops.lit 1 1) then
      { t with
        env :=
          { t.env with
            m_sad_factor := sad_factor
            m_height_factor := height_factor
            m_polar_dist_factor := polar_dist_factor
            m_polar_sad_factor := polar_sad_factor
            m_dense_tracking_factor := dense_tracking_factor } }
    else t
  { t1 with m_useGraphs := useGraphs }

/-- The objects reached from a freshly constructed one by calls of
`set_motion_cost_factors`. -/
inductive ConfigReachable (env : Env F) (costs : CostState F) (stixels_motion : List Int) :
    StixelsTracker F → Prop where
  | init : ConfigReachable env costs stixels_motion (StixelsTracker.StixelsTracker env costs stixels_motion)
  | step (t : StixelsTracker F)
      (sad_factor height_factor polar_dist_factor polar_sad_factor dense_tracking_factor : F)
      (useGraphs : Bool) :
      ConfigReachable env costs stixels_motion t →
      ConfigReachable env costs stixels_motion
        (set_motion_cost_factors t sad_factor height_factor polar_dist_factor polar_sad_factor
          dense_tracking_factor useGraphs)

end Configuration

/-! ## getClusters -/

section Clusters

variable {F : Type}

/-- A point of the cloud, `pcl::PointXYZL`. -/
structure PointXYZL (F : Type) where
  x : F
  y : F
  z : F
  label : Nat
  deriving DecidableEq

/-- What `getClusters` takes from the point cloud library, which is outside src/. -/
structure ClusterLib (F : Type) where
  /-- the point that the default constructor of `pcl::PointXYZL` builds -/
  defaultPoint : PointXYZL F
  /-- `EuclideanClusterExtraction::extract`, given the cluster tolerance, the minimal and
  the maximal cluster size and the cloud: the `indices` of every cluster found -/
  extract : F → Nat → Nat → List (PointXYZL F) → List (List Int)

/-- The point that the body of the loop of lines 1010-1020 pushes for a column: the
default point, or the bottom of the latest record of the track (`m_tracker[i][size - 1]`,
which an empty track does not have) with label 1 when the column is matched. -/
def cloudPoint (ops : FloatOps F) (lib : ClusterLib F) (track : List (Stixel3d F))
    (motion : Int) : Option (PointXYZL F) :=
  if 0 ≤ motion then
    match track.getLast? with
    | some r =>
      some { lib.defaultPoint with
             x := r.bottom3d.1, y := ops.lit 0 1, z := r.bottom3d.2.2, label := 1 }
    | none => none
  else some lib.defaultPoint

/-- The loop of lines 1010-1020 from column `i` on; `stixels_motion[i]` outside the
container gives `none`. -/
def cloudLoop (ops : FloatOps F) (lib : ClusterLib F) (stixels_motion : List Int) :
    Nat → List (List (Stixel3d F)) → List (PointXYZL F) → Option (List (PointXYZL F))
  | _, [], cloud => some cloud
  | i, track :: rest, cloud =>
    match stixels_motion[i]? with
    | none => none
    | some motion =>
      (cloudPoint ops lib track motion).bind
        (fun pointPCL => cloudLoop ops lib stixels_motion (i + 1) rest (cloud ++ [pointPCL]))

/-- The record `m_tracker[idx][m_tracker[idx].size() - 1]` of lines 1046-1047; there is
none when `idx` is not the index of a track or the track is empty. -/
def latestRecord (m_tracker : List (List (Stixel3d F))) (idx : Int) : Option (Stixel3d F) :=
  if 0 ≤ idx then (m_tracker[idx.toNat]?).bind List.getLast? else none

/-- The body of the loop of lines 1052-1060 for the member `pit` of a cluster; its state is
`(m_clusters, trackLenght)`.  `cloud->at` outside the cloud throws, and so does the model
return `none`. -/
def memberStep (ops : FloatOps F) (cloud : List (PointXYZL F))
    (m_tracker : List (List (Stixel3d F))) (m_minAllowedObjectWidth clusterWidth : F)
    (clusterIdx : Nat) (pit : Int) (acc : List Int × Nat) : Option (List Int × Nat) :=
  if 0 ≤ pit then
    match cloud[pit.toNat]? with
    | none => none
    | some point =>
      if pit.toNat < acc.1.length then
        if point.label = 0 ∨ ops.lt clusterWidth m_minAllowedObjectWidth = true then
          some (acc.1.set pit.toNat (-1), acc.2)
        else
          match m_tracker[pit.toNat]? with
          | none => none
          | some track =>
            some (acc.1.set pit.toNat (clusterIdx : Int),
              if acc.2 < track.length then track.length else acc.2)
      else none
  else none

/-- The loop of lines 1052-1060 over the members of a cluster. -/
def memberLoop (ops : FloatOps F) (cloud : List (PointXYZL F))
    (m_tracker : List (List (Stixel3d F))) (m_minAllowedObjectWidth clusterWidth : F)
    (clusterIdx : Nat) : List Int → List Int × Nat → Option (List Int × Nat)
  | [], acc => some acc
  | pit :: rest, acc =>
    (memberStep ops cloud m_tracker m_minAllowedObjectWidth clusterWidth clusterIdx pit acc).bind
      (memberLoop ops cloud m_tracker m_minAllowedObjectWidth clusterWidth clusterIdx rest)

/-- `clusterWidth` of line 1049 for a cluster with the given `indices`: the difference of
the `x` coordinates of the latest records of its last and its first member. -/
def clusterWidth (ops : FloatOps F) (m_tracker : List (List (Stixel3d F)))
    (indices : List Int) : Option F :=
  match indices.head?, indices.getLast? with
  | some idxBegin, some idxEnd =>
    match latestRecord m_tracker idxBegin, latestRecord m_tracker idxEnd with
    | some stixelBegin, some stixelEnd =>
      some (ops.sub stixelEnd.bottom3d.1 stixelBegin.bottom3d.1)
    | _, _ => none
  | _, _ => none

/-- The body of the loop of lines 1042-1069 for the cluster of index `clusterIdx`; its
state is `(m_clusters, m_objects)`. -/
def clusterStep (ops : FloatOps F) (cloud : List (PointXYZL F))
    (m_tracker : List (List (Stixel3d F))) (m_minAllowedObjectWidth : F) (clusterIdx : Nat)
    (indices : List Int) (st : List Int × List (List Int)) :
    Option (List Int × List (List Int)) :=
  match clusterWidth ops m_tracker indices with
  | none => none
  | some width =>
    (memberLoop ops cloud m_tracker m_minAllowedObjectWidth width clusterIdx indices
        (st.1, 0)).bind
      (fun r =>
        if ops.lt m_minAllowedObjectWidth width = true then
          match indices.head?.bind (fun idx => if 0 ≤ idx then cloud[idx.toNat]? else none) with
          | none => none
          | some point =>
            if point.label ≠ 0 ∧ 2 < r.2 then some (r.1, st.2 ++ [indices])
            else some (r.1, st.2)
        else some (r.1, st.2))

/-- The loop of lines 1041-1069 over the clusters, from the index `clusterIdx` on. -/
def clusterLoop (ops : FloatOps F) (cloud : List (PointXYZL F))
    (m_tracker : List (List (Stixel3d F))) (m_minAllowedObjectWidth : F) :
    Nat → List (List Int) → List Int × List (List Int) → Option (List Int × List (List Int))
  | _, [], st => some st
  | clusterIdx, indices :: rest, st =>
    (clusterStep ops cloud m_tracker m_minAllowedObjectWidth clusterIdx indices st).bind
      (clusterLoop ops cloud m_tracker m_minAllowedObjectWidth (clusterIdx + 1) rest)

/-- The cloud that lines 1007-1020 build. -/
def buildCloud (lib : ClusterLib F) (t : StixelsTracker F) : Option (List (PointXYZL F)) :=
  cloudLoop t.env.ops lib t.stixels_motion 0 t.tracks.m_tracker []

/-- The clusters that lines 1026-1033 obtain from the library for a cloud. -/
def clusterIndices (lib : ClusterLib F) (t : StixelsTracker F) (cloud : List (PointXYZL F)) :
    List (List Int) :=
  lib.extract t.m_minDistBetweenClusters 3 t.tracks.m_tracker.length cloud

/-- `StixelsTracker::getClusters` (lines 1005-1070).  Track lengths and cluster indices are
taken as natural numbers: the 32-bit counters of the source do not wrap below `2 ^ 31`
clusters and `2 ^ 32` frames. -/
def getClusters (lib : ClusterLib F) (t : StixelsTracker F) : Option (StixelsTracker F) :=
  (buildCloud lib t).bind
    (fun cloud =>
      (clusterLoop t.env.ops cloud t.tracks.m_tracker t.m_minAllowedObjectWidth 0
          (clusterIndices lib t cloud)
          (List.replicate t.tracks.m_tracker.length 0, [])).map
        (fun r => { t with m_clusters := r.1, m_objects := r.2 }))

/-- The value that the member loop writes into `m_clusters` for a member of the cluster of
index `clusterIdx` whose width is `width`, given the label of the member's point. -/
def memberValue (ops : FloatOps F) (m_minAllowedObjectWidth width : F) (clusterIdx : Nat)
    (label : Nat) : Int :=
  if label = 0 ∨ ops.lt width m_minAllowedObjectWidth = true then -1 else (clusterIdx : Int)

/-- The test of line 1053, negated: a member with this label of a cluster of this width is
given the index of the cluster. -/
def Accepted (ops : FloatOps F) (m_minAllowedObjectWidth width : F) (label : Nat) : Prop :=
  ¬ (label = 0 ∨ ops.lt width m_minAllowedObjectWidth = true)

/-- The test of lines 1062-1063 on a cluster with the given `indices`, `trackLenght` being
written out: the width is greater than the minimum, the point of the first member has a
label other than 0, and some accepted member has a track of more than two records. -/
def EmitsObject (ops : FloatOps F) (cloud : List (PointXYZL F))
    (m_tracker : List (List (Stixel3d F))) (m_minAllowedObjectWidth : F)
    (indices : List Int) : Prop :=
  ∃ (width : F) (idxBegin : Int) (firstPoint : PointXYZL F),
    clusterWidth ops m_tracker indices = some width ∧ indices.head? = some idxBegin ∧
    cloud[idxBegin.toNat]? = some firstPoint ∧
    ops.lt m_minAllowedObjectWidth width = true ∧ firstPoint.label ≠ 0 ∧
    ∃ pit ∈ indices, ∃ (point : PointXYZL F) (track : List (Stixel3d F)),
      cloud[pit.toNat]? = some point ∧ m_tracker[pit.toNat]? = some track ∧
      Accepted ops m_minAllowedObjectWidth width point.label ∧ 2 < track.length

end Clusters

/-! ## Invariants of the tracks -/

section TrackInvariants

variable {F : Type}

/-- Every record of a track but the first one has a valid backward link. -/
def BackwardLinked (s : TrackerState F) : Prop :=
  ∀ track ∈ s.m_tracker, ∀ (k : Nat) (r : Stixel3d F), 1 ≤ k → track[k]? = some r →
    r.valid_backward_delta_x = true

/-- No record of a track has a forward link, except possibly the first record of a track
when it is the record that the first-frame branch pushed (which keeps the flag of the
`Stixel3d` constructor). -/
def ForwardUnset (make3d : Stixel F → Stixel3d F) (s : TrackerState F) : Prop :=
  ∀ track ∈ s.m_tracker, ∀ (k : Nat) (r : Stixel3d F), track[k]? = some r →
    r.valid_forward_delta_x = false ∨
      (k = 0 ∧ ∃ stixel, r = firstFrameTrackRecord make3d stixel)

end TrackInvariants

/-! ## Concrete inputs

A fixed-point arithmetic on `Int` (three decimals) and small inputs on which the embedded
functions are evaluated. -/

section Examples

/-- Fixed-point arithmetic with three decimals: the integer `n` stands for `n / 1000`. -/
def fixedOps : FloatOps Int :=
  { lit := fun num den => (1000 * (num : Int)) / (den : Int)
    add := fun a b => a + b
    sub := fun a b => a - b
    mul := fun a b => (a * b) / 1000
    mulLit := fun num den a => (((1000 * (num : Int)) / (den : Int)) * a) / 1000
    div := fun a b => (a * 1000) / b
    fabs := fun a => (a.natAbs : Int)
    lt := fun a b => decide (a < b)
    eq := fun a b => decide (a = b) }

/-- A tracker configuration for two columns and shifts in `[-1, 1]`: four rows (three
shift rows and the synthetic one), images ten pixels wide, only the SAD weight set. -/
def exEnv : Env Int :=
  { ops := fixedOps
    rows := 4
    cols := 2
    maximum_possible_motion_in_pixels := 1
    maximum_pixel_value := 255000
    current_image_width := 10
    previous_image_width := 10
    compute_stixel_horizontal_padding := fun _ => 0
    disparity_to_depth := fun d => (100000 * 1000) / d
    compute_stixel_real_height := fun s => 1000 * (s.bottom_y - s.top_y)
    m_maximal_pixelwise_motion_by_disp := fun _ => 1
    compute_pixelwise_sad := fun c p _ => 1000 * ((c.x - p.x).natAbs : Int)
    polar_norm := fun c p => 1000 * ((c.x - p.x).natAbs : Int)
    compute_polar_SAD := fun _ _ => 0
    compute_dense_tracking_score := fun _ _ => 1000
    m_sad_factor := 1000
    m_height_factor := 0
    m_polar_dist_factor := 0
    m_polar_sad_factor := 0
    m_dense_tracking_factor := 0 }

/-- A solid stixel of width 1 in column `x`, rows 2 to 6, disparity 5. -/
def exStixel (x : Int) : Stixel Int :=
  { x := x, top_y := 2, bottom_y := 6, width := 1, disparity := 5000, type := StixelType.Solid }

/-- Matrices with arbitrary old content. -/
def exOldState : CostState Int :=
  { motion_cost_matrix := fun _ _ => 7
    pixelwise_sad_matrix := fun _ _ => 7
    real_height_differences_matrix := fun _ _ => 7
    m_stixelsPolarDistMatrix := fun _ _ => 7
    m_polarSADMatrix := fun _ _ => 7
    m_denseTrackingMatrix := fun _ _ => 7
    motion_cost_assignment_matrix := fun _ _ => true
    current_stixel_depths := fun _ => 7
    current_stixel_real_heights := fun _ => 7
    insertion_cost_dp := 7
    deletion_cost_dp := 7 }

/-- Two stixels, in columns 3 and 4. -/
def exStixels : List (Stixel Int) :=
  [exStixel 3, exStixel 4]

/-- The matrices `compute_motion_cost_matrix` leaves for `exStixels` against itself. -/
def exCostState : CostState Int :=
  (compute_motion_cost_matrix exEnv exStixels exStixels exOldState).getD exOldState

/-- The graph `computeMotionWithGraphs` builds from `exCostState`: all four pairs. -/
def exGraph : List (GraphEdge Int) :=
  [{ u := 0, v := 2, cost := 153000 }, { u := 0, v := 3, cost := 152000 },
   { u := 1, v := 2, cost := 152000 }, { u := 1, v := 3, cost := 153000 }]

/-- A matcher that keeps the edges joining previous `p` with current `p`. -/
def exMatcher (graph : List (GraphEdge Int)) : List (GraphEdge Int) :=
  graph.filter (fun e => decide (e.v = e.u + 2))

/-- A `Stixel3d` constructor that leaves both link flags and the static flag set: whatever
is false in a stored record has been cleared by `updateTracker` itself. -/
def exMake3d (s : Stixel Int) : Stixel3d Int :=
  { stixel := s
    bottom3d := (1000 * s.x, 0, 20000)
    direction := (0, 0)
    isStatic := true
    forward_delta_x := 0
    valid_forward_delta_x := true
    backward_delta_x := 0
    valid_backward_delta_x := true }

/-- The track store after the first frame, `exStixels`, with a history window of 3. -/
def exTracker1 : TrackerState Int :=
  (updateTracker 3 exMake3d exStixels [-1, -1] initialTracker).getD initialTracker

/-- The track store after a second frame in which both columns claim previous column 0. -/
def exTracker2 : TrackerState Int :=
  (updateTracker 3 exMake3d exStixels [0, 0] exTracker1).getD initialTracker

/-- The configuration `exEnv` with a horizontal padding of one pixel for every stixel. -/
def exEnvPadded : Env Int :=
  { exEnv with compute_stixel_horizontal_padding := fun _ => 1 }

/-- Exact arithmetic on the rationals.  A quotient by zero is `0` here, which no machine
does: statements made with `exactOps` are about runs without a zero denominator, or about
values that no quotient enters. -/
def exactOps : FloatOps ℚ :=
  { lit := fun num den => (num : ℚ) / (den : ℚ)
    add := fun a b => a + b
    sub := fun a b => a - b
    mul := fun a b => a * b
    mulLit := fun num den a => (num : ℚ) / (den : ℚ) * a
    div := fun a b => a / b
    fabs := fun a => |a|
    lt := fun a b => decide (a < b)
    eq := fun a b => decide (a = b) }

/-- The configuration of `exEnv` in exact rational arithmetic. -/
def exEnvQ : Env ℚ :=
  { ops := exactOps
    rows := 4
    cols := 2
    maximum_possible_motion_in_pixels := 1
    maximum_pixel_value := 255
    current_image_width := 10
    previous_image_width := 10
    compute_stixel_horizontal_padding := fun _ => 0
    disparity_to_depth := fun d => 100 / d
    compute_stixel_real_height := fun s => ((s.bottom_y - s.top_y : Int) : ℚ)
    m_maximal_pixelwise_motion_by_disp := fun _ => 1
    compute_pixelwise_sad := fun c p _ => (((c.x - p.x).natAbs : Int) : ℚ)
    polar_norm := fun c p => (((c.x - p.x).natAbs : Int) : ℚ)
    compute_polar_SAD := fun _ _ => 0
    compute_dense_tracking_score := fun _ _ => 1
    m_sad_factor := 1
    m_height_factor := 0
    m_polar_dist_factor := 0
    m_polar_sad_factor := 0
    m_dense_tracking_factor := 0 }

/-- Matrices with arbitrary old content, in exact arithmetic. -/
def exOldStateQ : CostState ℚ :=
  { motion_cost_matrix := fun _ _ => 7
    pixelwise_sad_matrix := fun _ _ => 7
    real_height_differences_matrix := fun _ _ => 7
    m_stixelsPolarDistMatrix := fun _ _ => 7
    m_polarSADMatrix := fun _ _ => 7
    m_denseTrackingMatrix := fun _ _ => 7
    motion_cost_assignment_matrix := fun _ _ => true
    current_stixel_depths := fun _ => 7
    current_stixel_real_heights := fun _ => 7
    insertion_cost_dp := 7
    deletion_cost_dp := 7 }

/-- Values of an arithmetic with the special values of IEEE 754: finite values (fixed point,
`fin n` stands for `n / 1000`), the two infinities and NaN.  Signed zeros and rounding are
left out. -/
inductive XFloat where
  | fin (n : Int)
  | pinf
  | ninf
  | nan
  deriving DecidableEq, Repr

/-- Sum with the IEEE rules for the special values. -/
def XFloat.add : XFloat → XFloat → XFloat
  | XFloat.nan, _ => XFloat.nan
  | _, XFloat.nan => XFloat.nan
  | XFloat.fin a, XFloat.fin b => XFloat.fin (a + b)
  | XFloat.pinf, XFloat.ninf => XFloat.nan
  | XFloat.ninf, XFloat.pinf => XFloat.nan
  | XFloat.pinf, _ => XFloat.pinf
  | _, XFloat.pinf => XFloat.pinf
  | XFloat.ninf, _ => XFloat.ninf
  | _, XFloat.ninf => XFloat.ninf

/-- Sign change. -/
def XFloat.neg : XFloat → XFloat
  | XFloat.fin a => XFloat.fin (-a)
  | XFloat.pinf => XFloat.ninf
  | XFloat.ninf => XFloat.pinf
  | XFloat.nan => XFloat.nan

/-- An infinity with the sign of `n`, NaN for `n = 0`. -/
def XFloat.signedInf (n : Int) : XFloat :=
  if 0 < n then XFloat.pinf else if n < 0 then XFloat.ninf else XFloat.nan

/-- Product with the IEEE rules: zero times an infinity is NaN. -/
def XFloat.mul : XFloat → XFloat → XFloat
  | XFloat.nan, _ => XFloat.nan
  | _, XFloat.nan => XFloat.nan
  | XFloat.fin a, XFloat.fin b => XFloat.fin ((a * b) / 1000)
  | XFloat.fin a, XFloat.pinf => XFloat.signedInf a
  | XFloat.fin a, XFloat.ninf => XFloat.signedInf (-a)
  | XFloat.pinf, XFloat.fin b => XFloat.signedInf b
  | XFloat.ninf, XFloat.fin b => XFloat.signedInf (-b)
  | XFloat.pinf, XFloat.pinf => XFloat.pinf
  | XFloat.ninf, XFloat.ninf => XFloat.pinf
  | XFloat.pinf, XFloat.ninf => XFloat.ninf
  | XFloat.ninf, XFloat.pinf => XFloat.ninf

/-- Quotient with the IEEE rules: a nonzero value over zero is an infinity, zero over zero
and infinity over infinity are NaN. -/
def XFloat.div : XFloat → XFloat → XFloat
  | XFloat.nan, _ => XFloat.nan
  | _, XFloat.nan => XFloat.nan
  | XFloat.fin a, XFloat.fin b =>
    if b = 0 then XFloat.signedInf a else XFloat.fin ((a * 1000) / b)
  | XFloat.fin _, XFloat.pinf => XFloat.fin 0
  | XFloat.fin _, XFloat.ninf => XFloat.fin 0
  | XFloat.pinf, XFloat.fin b => if 0 ≤ b then XFloat.pinf else XFloat.ninf
  | XFloat.ninf, XFloat.fin b => if 0 ≤ b then XFloat.ninf else XFloat.pinf
  | XFloat.pinf, XFloat.pinf => XFloat.nan
  | XFloat.pinf, XFloat.ninf => XFloat.nan
  | XFloat.ninf, XFloat.pinf => XFloat.nan
  | XFloat.ninf, XFloat.ninf => XFloat.nan

/-- Absolute value. -/
def XFloat.abs : XFloat → XFloat
  | XFloat.fin a => XFloat.fin (a.natAbs : Int)
  | XFloat.pinf => XFloat.pinf
  | XFloat.ninf => XFloat.pinf
  | XFloat.nan => XFloat.nan

/-- Comparison `<`: false as soon as one side is NaN. -/
def XFloat.lt : XFloat → XFloat → Bool
  | XFloat.nan, _ => false
  | _, XFloat.nan => false
  | XFloat.fin a, XFloat.fin b => decide (a < b)
  | XFloat.ninf, XFloat.ninf => false
  | XFloat.ninf, _ => true
  | XFloat.pinf, _ => false
  | XFloat.fin _, XFloat.pinf => true
  | XFloat.fin _, XFloat.ninf => false

/-- Comparison `==`: false as soon as one side is NaN. -/
def XFloat.beq : XFloat → XFloat → Bool
  | XFloat.nan, _ => false
  | _, XFloat.nan => false
  | a, b => decide (a = b)

/-- The operations of `XFloat` as the arithmetic of the tracker. -/
def xOps : FloatOps XFloat :=
  { lit := fun num den => XFloat.fin ((1000 * (num : Int)) / (den : Int))
    add := XFloat.add
    sub := fun a b => XFloat.add a (XFloat.neg b)
    mul := XFloat.mul
    mulLit := fun num den a => XFloat.mul (XFloat.fin ((1000 * (num : Int)) / (den : Int))) a
    div := XFloat.div
    fabs := XFloat.abs
    lt := XFloat.lt
    eq := XFloat.beq }

/-- The configuration of `exEnv` in the arithmetic `xOps`, with the five weights (SAD,
height, polar distance, polar SAD, dense tracking) given in thousandths.  The pixelwise SAD
of a pair is 5 per column of shift, its polar distance 10 per column of shift, its polar SAD
10 and its dense tracking score 3. -/
def exEnvX (w_sad w_height w_polar_dist w_polar_sad w_dense : Int) : Env XFloat :=
  { ops := xOps
    rows := 4
    cols := 2
    maximum_possible_motion_in_pixels := 1
    maximum_pixel_value := XFloat.fin 255000
    current_image_width := 10
    previous_image_width := 10
    compute_stixel_horizontal_padding := fun _ => 0
    disparity_to_depth := fun d => XFloat.div (XFloat.fin 100000) d
    compute_stixel_real_height := fun s => XFloat.fin (1000 * (s.bottom_y - s.top_y))
    m_maximal_pixelwise_motion_by_disp := fun _ => 1
    compute_pixelwise_sad := fun c p _ => XFloat.fin (5000 * ((c.x - p.x).natAbs : Int))
    polar_norm := fun c p => XFloat.fin (10000 * ((c.x - p.x).natAbs : Int))
    compute_polar_SAD := fun _ _ => XFloat.fin 10000
    compute_dense_tracking_score := fun _ _ => XFloat.fin 3000
    m_sad_factor := XFloat.fin w_sad
    m_height_factor := XFloat.fin w_height
    m_polar_dist_factor := XFloat.fin w_polar_dist
    m_polar_sad_factor := XFloat.fin w_polar_sad
    m_dense_tracking_factor := XFloat.fin w_dense }

/-- A stixel of width 1 in column `x`, rows `top_y` to 6, disparity 5. -/
def exStixelX (x top_y : Int) (type : StixelType) : Stixel XFloat :=
  { x := x, top_y := top_y, bottom_y := 6, width := 1, disparity := XFloat.fin 5000,
    type := type }

/-- Matrices with arbitrary old content. -/
def exOldStateX : CostState XFloat :=
  { motion_cost_matrix := fun _ _ => XFloat.fin 7
    pixelwise_sad_matrix := fun _ _ => XFloat.fin 7
    real_height_differences_matrix := fun _ _ => XFloat.fin 7
    m_stixelsPolarDistMatrix := fun _ _ => XFloat.fin 7
    m_polarSADMatrix := fun _ _ => XFloat.fin 7
    m_denseTrackingMatrix := fun _ _ => XFloat.fin 7
    motion_cost_assignment_matrix := fun _ _ => true
    current_stixel_depths := fun _ => XFloat.fin 7
    current_stixel_real_heights := fun _ => XFloat.fin 7
    insertion_cost_dp := XFloat.fin 7
    deletion_cost_dp := XFloat.fin 7 }

/-- Two solid stixels of the same height, in columns 3 and 4. -/
def exSolidX : List (Stixel XFloat) :=
  [exStixelX 3 2 StixelType.Solid, exStixelX 4 2 StixelType.Solid]

/-- A solid stixel in column 3 and an occluded one in column 4. -/
def exMixedX : List (Stixel XFloat) :=
  [exStixelX 3 2 StixelType.Solid, exStixelX 4 2 StixelType.Occluded]

/-- Two solid stixels in columns 3 and 4, the second one a row shorter. -/
def exUnevenX : List (Stixel XFloat) :=
  [exStixelX 3 2 StixelType.Solid, exStixelX 4 3 StixelType.Solid]

/-- Finite values of the binary floating-point format of `float` (IEEE 754 binary32,
significand of 24 bits, without its exponent limits): `m * 2 ^ e`, kept with `m` odd, or
`m = 0` and `e = 0`.  Infinities and NaN are left out (they are the subject of `XFloat`). -/
structure F32 where
  m : Int
  e : Int
  deriving DecidableEq, Repr

/-- Number of binary digits of `n`, counted by at most `fuel` halvings. -/
def bitLength : Nat → Nat → Nat
  | 0, _ => 0
  | fuel + 1, n => if n = 0 then 0 else bitLength fuel (n / 2) + 1

/-- Number of trailing zero bits of `n`, counted by at most `fuel` halvings. -/
def trailingZeros : Nat → Nat → Nat
  | 0, _ => 0
  | fuel + 1, n => if n = 0 ∨ n % 2 = 1 then 0 else trailingZeros fuel (n / 2) + 1

/-- The quotient `n / 2 ^ k` rounded to the nearest integer, ties to the even one. -/
def roundShift (n k : Nat) : Nat :=
  let q := n / 2 ^ k
  let r := n % 2 ^ k
  if 2 * r < 2 ^ k then q
  else if 2 ^ k < 2 * r then q + 1
  else if q % 2 = 0 then q else q + 1

/-- The value `m * 2 ^ e` rounded to 24 significant bits, to nearest and ties to even. -/
def F32.round (m e : Int) : F32 :=
  let n := m.natAbs
  let k := bitLength n n - 24
  let q := roundShift n k
  let z := trailingZeros q q
  if q = 0 then { m := 0, e := 0 }
  else { m := (if m < 0 then -1 else 1) * ((q / 2 ^ z : Nat) : Int), e := e + (k : Int) + (z : Int) }

/-- The significand of `x` at the exponent `e ≤ x.e`. -/
def F32.scaled (x : F32) (e : Int) : Int :=
  x.m * 2 ^ (x.e - e).toNat

/-- Sum, rounded. -/
def F32.add (x y : F32) : F32 :=
  F32.round (x.scaled (min x.e y.e) + y.scaled (min x.e y.e)) (min x.e y.e)

/-- Difference, rounded. -/
def F32.sub (x y : F32) : F32 :=
  F32.round (x.scaled (min x.e y.e) - y.scaled (min x.e y.e)) (min x.e y.e)

/-- Product, rounded. -/
def F32.mul (x y : F32) : F32 :=
  F32.round (x.m * y.m) (x.e + y.e)

/-- The quotient `(n / d) * 2 ^ e`, rounded; the last bit of the intermediate quotient
records whether the division left a remainder.  A zero divisor is outside this format (the
quotient is an infinity or NaN) and gives 0 here. -/
def F32.ratio (negative : Bool) (n d : Nat) (e : Int) : F32 :=
  if d = 0 then { m := 0, e := 0 }
  else
    let q : Nat := 2 * ((n * 2 ^ 64) / d) + (if (n * 2 ^ 64) % d = 0 then 0 else 1)
    F32.round ((if negative then -1 else 1) * (q : Int)) (e - 65)

/-- The value `m * 2 ^ e` rounded to `p` significant bits, to nearest and ties to even; with
`p = 53` the result is a `double`, held in the same record. -/
def F32.roundTo (p : Nat) (m e : Int) : F32 :=
  let n := m.natAbs
  let k := bitLength n n - p
  let q := roundShift n k
  let z := trailingZeros q q
  if q = 0 then { m := 0, e := 0 }
  else { m := (if m < 0 then -1 else 1) * ((q / 2 ^ z : Nat) : Int), e := e + (k : Int) + (z : Int) }

/-- The literal `num / den` rounded to `p` significant bits (the denominators of the
literals of the source are far below `2 ^ 64`); the last bit of the intermediate quotient
records whether the division left a remainder. -/
def F32.literalTo (p : Nat) (num den : Nat) : F32 :=
  if den = 0 then { m := 0, e := 0 }
  else
    F32.roundTo p
      ((2 * ((num * 2 ^ 128) / den) + (if (num * 2 ^ 128) % den = 0 then 0 else 1) : Nat) : Int)
      (-129)

/-- The product of the `double` literal `num / den` with the `float` `x`: the literal is
rounded to 53 bits, the product of the literal with `x` is rounded to 53 bits (the `double`
product) and that is rounded to 24 bits (the conversion to `float`). -/
def F32.mulLit (num den : Nat) (x : F32) : F32 :=
  F32.roundTo 24
    (F32.roundTo 53 ((F32.literalTo 53 num den).m * x.m) ((F32.literalTo 53 num den).e + x.e)).m
    (F32.roundTo 53 ((F32.literalTo 53 num den).m * x.m) ((F32.literalTo 53 num den).e + x.e)).e

/-- The rational number that a record stands for. -/
def F32.val (x : F32) : ℚ :=
  (x.m : ℚ) * (2 : ℚ) ^ x.e

/-- Quotient, rounded. -/
def F32.div (x y : F32) : F32 :=
  F32.ratio (decide (x.m < 0) != decide (y.m < 0)) x.m.natAbs y.m.natAbs (x.e - y.e)

/-- Comparison `<`. -/
def F32.lt (x y : F32) : Bool :=
  decide (x.scaled (min x.e y.e) < y.scaled (min x.e y.e))

/-- Comparison `==`. -/
def F32.beq (x y : F32) : Bool :=
  decide (x.scaled (min x.e y.e) = y.scaled (min x.e y.e))

/-- The operations of `F32` as the arithmetic of the tracker; a literal is the fraction it
denotes, rounded. -/
def f32Ops : FloatOps F32 :=
  { lit := fun num den => F32.ratio false num den 0
    add := F32.add
    sub := F32.sub
    mul := F32.mul
    mulLit := F32.mulLit
    div := F32.div
    fabs := fun x => { m := (x.m.natAbs : Int), e := x.e }
    lt := F32.lt
    eq := F32.beq }



/-- A configuration in the arithmetic `f32Ops`: weights 0.5 (SAD), 0.25 (height) and 0.25
(dense tracking); the pixelwise SAD of a pair is 10 in the same column and `10 + 2 ^ (-20)`
otherwise, its dense tracking score 3. -/
def exEnvF : Env F32 :=
  { ops := f32Ops
    rows := 4
    cols := 2
    maximum_possible_motion_in_pixels := 1
    maximum_pixel_value := f32Ops.lit 255 1
    current_image_width := 10
    previous_image_width := 10
    compute_stixel_horizontal_padding := fun _ => 0
    disparity_to_depth := fun d => F32.div (f32Ops.lit 100 1) d
    compute_stixel_real_height := fun s => F32.round (s.bottom_y - s.top_y) 0
    m_maximal_pixelwise_motion_by_disp := fun _ => 1
    compute_pixelwise_sad := fun c p _ =>
      if c.x = p.x then f32Ops.lit 10 1 else F32.round 10485761 (-20)
    polar_norm := fun _ _ => f32Ops.lit 10 1
    compute_polar_SAD := fun _ _ => f32Ops.lit 10 1
    compute_dense_tracking_score := fun _ _ => f32Ops.lit 3 1
    m_sad_factor := f32Ops.lit 1 2
    m_height_factor := f32Ops.lit 1 4
    m_polar_dist_factor := f32Ops.lit 0 1
    m_polar_sad_factor := f32Ops.lit 0 1
    m_dense_tracking_factor := f32Ops.lit 1 4 }

/-- A solid stixel of width 1 in column `x`, rows `top_y` to 6, disparity 5. -/
def exStixelF (x top_y : Int) : Stixel F32 :=
  { x := x, top_y := top_y, bottom_y := 6, width := 1, disparity := f32Ops.lit 5 1,
    type := StixelType.Solid }

/-- Matrices with arbitrary old content. -/
def exOldStateF : CostState F32 :=
  { motion_cost_matrix := fun _ _ => f32Ops.lit 7 1
    pixelwise_sad_matrix := fun _ _ => f32Ops.lit 7 1
    real_height_differences_matrix := fun _ _ => f32Ops.lit 7 1
    m_stixelsPolarDistMatrix := fun _ _ => f32Ops.lit 7 1
    m_polarSADMatrix := fun _ _ => f32Ops.lit 7 1
    m_denseTrackingMatrix := fun _ _ => f32Ops.lit 7 1
    motion_cost_assignment_matrix := fun _ _ => true
    current_stixel_depths := fun _ => f32Ops.lit 7 1
    current_stixel_real_heights := fun _ => f32Ops.lit 7 1
    insertion_cost_dp := f32Ops.lit 7 1
    deletion_cost_dp := f32Ops.lit 7 1 }

/-- Previous stixels in columns 3 and 4, the second one a row shorter. -/
def exPrevF : List (Stixel F32) :=
  [exStixelF 3 2, exStixelF 4 3]

/-- Current stixels in columns 3 and 4, of the same height. -/
def exCurrF : List (Stixel F32) :=
  [exStixelF 3 2, exStixelF 4 2]

/-- A `Stixel3d` constructor that places the bottom of column `x` at `0.15 * x` metres. -/
def exMake3dNear (s : Stixel Int) : Stixel3d Int :=
  { exMake3d s with bottom3d := (150 * s.x, 0, 20000) }

/-- Four stixels, in columns 0, 1, 2 and 6. -/
def exStixels4 : List (Stixel Int) :=
  [exStixel 0, exStixel 1, exStixel 2, exStixel 6]

/-- The track store after a first frame of `exStixels4`. -/
def exTracks1 : TrackerState Int :=
  (updateTracker 3 exMake3dNear exStixels4 [-1, -1, -1, -1] initialTracker).getD initialTracker

/-- The track store after a second frame in which every column is matched with itself. -/
def exTracks2 : TrackerState Int :=
  (updateTracker 3 exMake3dNear exStixels4 [0, 1, 2, 3] exTracks1).getD initialTracker

/-- The track store after a third frame of the same kind: four tracks of three records. -/
def exTracks3 : TrackerState Int :=
  (updateTracker 3 exMake3dNear exStixels4 [0, 1, 2, 3] exTracks2).getD initialTracker

/-- The track store after `exTracker1` and a second frame in which column 0 is matched with
the previous column 1 and column 1 is not matched. -/
def exTrackerUnmatched : TrackerState Int :=
  (updateTracker 3 exMake3d exStixels [1, -1] exTracker1).getD initialTracker

/-- A library that finds the one cluster of the columns 0, 1 and 2 and whose default point
has the label 0. -/
def exLib : ClusterLib Int :=
  { defaultPoint := { x := 0, y := 0, z := 0, label := 0 }
    extract := fun _ _ _ _ => [[0, 1, 2]] }

/-- A freshly constructed tracker whose track store is `exTracks3` and whose motion array
matches every column. -/
def exClusterTracker : StixelsTracker Int :=
  { StixelsTracker.StixelsTracker exEnv exOldState [0, 1, 2, 3] with tracks := exTracks3 }

end Examples

/-! ## Properties of computeMotionWithGraphs -/

section GraphTheorems

variable {F : Type}

theorem edgeStep_inRange (env : Env F) (st : CostState F) (maxCost : F) (numPrev numCurr : Nat)
    (prevIdx : Nat) (prevStixel : Stixel F) (currIdx : Nat) (currStixel : Stixel F)
    (edges out : List (GraphEdge F)) (hp : prevIdx < numPrev) (hc : currIdx < numCurr)
    (hin : ∀ e ∈ edges, EdgeInRange numPrev numCurr e)
    (h : edgeStep env st maxCost numPrev prevIdx prevStixel currIdx currStixel edges = some out) :
    ∀ e ∈ out, EdgeInRange numPrev numCurr e := by
  unfold edgeStep at h
  simp only at h
  split_ifs at h <;> simp only [Option.some.injEq, reduceCtorEq] at h
  all_goals try (subst h; exact hin)
  subst h
  intro e he
  rcases List.mem_append.mp he with he | he
  · exact hin e he
  · simp only [List.mem_singleton] at he
    subst he
    exact ⟨hp, Nat.le_add_left _ _, by simp only; omega⟩

theorem edgeCurrLoop_inRange (env : Env F) (st : CostState F) (maxCost : F)
    (numPrev numCurr : Nat) (prevIdx : Nat) (prevStixel : Stixel F) (hp : prevIdx < numPrev) :
    ∀ (rest : List (Stixel F)) (currIdx : Nat) (edges out : List (GraphEdge F)),
      currIdx + rest.length ≤ numCurr →
      (∀ e ∈ edges, EdgeInRange numPrev numCurr e) →
      edgeCurrLoop env st maxCost numPrev prevIdx prevStixel currIdx rest edges = some out →
      ∀ e ∈ out, EdgeInRange numPrev numCurr e := by
  intro rest
  induction rest with
  | nil =>
    intro currIdx edges out _ hin h
    simp only [edgeCurrLoop, Option.some.injEq] at h
    subst h
    exact hin
  | cons currStixel rest ih =>
    intro currIdx edges out hlen hin h
    simp only [edgeCurrLoop] at h
    cases hstep : edgeStep env st maxCost numPrev prevIdx prevStixel currIdx currStixel edges with
    | none => simp [hstep] at h
    | some mid =>
      rw [hstep] at h
      simp only [Option.some_bind] at h
      simp only [List.length_cons] at hlen
      exact ih (currIdx + 1) mid out (by omega)
        (edgeStep_inRange env st maxCost numPrev numCurr prevIdx prevStixel currIdx currStixel
          edges mid hp (by omega) hin hstep) h

theorem edgePrevLoop_inRange (env : Env F) (st : CostState F) (maxCost : F)
    (numPrev : Nat) (current_stixels : List (Stixel F)) :
    ∀ (rest : List (Stixel F)) (prevIdx : Nat) (edges out : List (GraphEdge F)),
      prevIdx + rest.length ≤ numPrev →
      (∀ e ∈ edges, EdgeInRange numPrev current_stixels.length e) →
      edgePrevLoop env st maxCost numPrev current_stixels prevIdx rest edges = some out →
      ∀ e ∈ out, EdgeInRange numPrev current_stixels.length e := by
  intro rest
  induction rest with
  | nil =>
    intro prevIdx edges out _ hin h
    simp only [edgePrevLoop, Option.some.injEq] at h
    subst h
    exact hin
  | cons prevStixel rest ih =>
    intro prevIdx edges out hlen hin h
    simp only [edgePrevLoop] at h
    simp only [List.length_cons] at hlen
    cases hstep : edgeCurrLoop env st maxCost numPrev prevIdx prevStixel 0 current_stixels
        edges with
    | none => simp [hstep] at h
    | some mid =>
      rw [hstep] at h
      simp only [Option.some_bind] at h
      exact ih (prevIdx + 1) mid out (by omega)
        (edgeCurrLoop_inRange env st maxCost numPrev current_stixels.length prevIdx prevStixel
          (by omega) current_stixels 0 edges mid (by omega) hin hstep) h

/-- Every edge of the graph joins a previous node `p` with a current node `c + P`. -/
theorem buildGraph_inRange (env : Env F) (st : CostState F)
    (previous_stixels current_stixels : List (Stixel F)) (graph : List (GraphEdge F))
    (h : buildGraph env st previous_stixels current_stixels = some graph) :
    ∀ e ∈ graph, EdgeInRange previous_stixels.length current_stixels.length e := by
  unfold buildGraph at h
  split_ifs at h
  exact edgePrevLoop_inRange env st _ previous_stixels.length current_stixels previous_stixels 0
    [] graph (by omega) (by intro e he; cases he) h

/-- For a node `i` of the previous side, the arc the matcher reports leaves `i` along an
edge of the matching. -/
theorem matchingArc_prev (matching : List (GraphEdge F)) (numPrev numCurr i : Nat)
    (hi : i < numPrev) (hin : ∀ e ∈ matching, EdgeInRange numPrev numCurr e)
    (arc : Nat × Nat) (h : matchingArc matching i = some arc) :
    arc.1 = i ∧ ∃ e ∈ matching, e.u = i ∧ e.v = arc.2 := by
  unfold matchingArc at h
  cases hf : matching.find? (fun e => decide (e.u = i) || decide (e.v = i)) with
  | none => simp [hf] at h
  | some e =>
    rw [hf] at h
    have hmem : e ∈ matching := List.mem_of_find?_eq_some hf
    have hprop := List.find?_some hf
    have hr := hin e hmem
    have hu : e.u = i := by
      simp only [Bool.or_eq_true, decide_eq_true_eq] at hprop
      rcases hprop with h1 | h1
      · exact h1
      · exfalso
        have := hr.2.1
        omega
    simp only [hu, if_true, Option.some.injEq] at h
    subst h
    exact ⟨rfl, e, hmem, hu, rfl⟩

/-- The loop of lines 932-937 returns, keeps the length of `stixels_motion`, and every entry
it leaves is either the old one or the previous end of a matching edge whose current end is
that entry's index. -/
theorem motionLoop_spec (matching : List (GraphEdge F)) (numPrev numCurr : Nat)
    (hin : ∀ e ∈ matching, EdgeInRange numPrev numCurr e) :
    ∀ (nodes : List Nat) (stixels_motion : List Int),
      (∀ i ∈ nodes, i < numPrev) → stixels_motion.length = numCurr →
      ∃ res, motionLoop matching numPrev nodes stixels_motion = some res ∧
        res.length = numCurr ∧
        ∀ (c : Nat) (a : Int), res[c]? = some a →
          stixels_motion[c]? = some a ∨
          ∃ e ∈ matching, (e.u : Int) = a ∧ e.v = c + numPrev := by
  intro nodes
  induction nodes with
  | nil =>
    intro sm _ hlen
    exact ⟨sm, rfl, hlen, fun c a h => Or.inl h⟩
  | cons i rest ih =>
    intro sm hnodes hlen
    have hi : i < numPrev := hnodes i (List.mem_cons_self _ _)
    have hrest : ∀ j ∈ rest, j < numPrev := fun j hj => hnodes j (List.mem_cons_of_mem _ hj)
    cases harc : matchingArc matching i with
    | none =>
      obtain ⟨res, h1, h2, h3⟩ := ih sm hrest hlen
      exact ⟨res, by simp only [motionLoop, harc]; exact h1, h2, h3⟩
    | some arc =>
      obtain ⟨ha1, e, he, heu, hev⟩ := matchingArc_prev matching numPrev numCurr i hi hin arc harc
      have hr := hin e he
      have hidx : numPrev ≤ arc.2 ∧ arc.2 - numPrev < sm.length := by
        rw [← hev, hlen]
        exact ⟨hr.2.1, by have := hr.2.1; have := hr.2.2; omega⟩
      obtain ⟨res, h1, h2, h3⟩ :=
        ih (sm.set (arc.2 - numPrev) (arc.1 : Int)) hrest (by rw [List.length_set]; exact hlen)
      refine ⟨res, ?_, h2, ?_⟩
      · simp only [motionLoop, harc, hidx, and_self, if_true]
        exact h1
      · intro c a hca
        rcases h3 c a hca with h4 | h4
        · rw [List.getElem?_set] at h4
          by_cases hk : arc.2 - numPrev = c
          · right
            rw [if_pos hk] at h4
            split_ifs at h4
            · simp only [Option.some.injEq] at h4
              refine ⟨e, he, ?_, ?_⟩
              · rw [← h4, ha1, heu]
              · rw [hev]; omega
          · rw [if_neg hk] at h4
            exact Or.inl h4
        · exact Or.inr h4

/-- Two edges of a matching that leave the same node are the same edge. -/
theorem matching_same_source (graph matching : List (GraphEdge F))
    (hm : IsMatching graph matching) (e1 e2 : GraphEdge F) (h1 : e1 ∈ matching)
    (h2 : e2 ∈ matching) (hu : e1.u = e2.u) : e1 = e2 := by
  by_contra hne
  have hsymm : Symmetric (fun e1 e2 : GraphEdge F =>
      e1.u ≠ e2.u ∧ e1.u ≠ e2.v ∧ e1.v ≠ e2.u ∧ e1.v ≠ e2.v) := by
    intro a b hab
    exact ⟨fun h => hab.1 h.symm, fun h => hab.2.2.1 h.symm, fun h => hab.2.1 h.symm,
      fun h => hab.2.2.2 h.symm⟩
  exact (hm.2.forall hsymm h1 h2 hne).1 hu

/-- C1: whenever the matcher answers with a matching of the graph that
`computeMotionWithGraphs` built (edges of that graph, no two sharing a node), the function
returns a correspondence array of the length of the current stixel set that is one-to-one
on its valid entries: two distinct current indices never hold the same value unless that
value is negative. -/
theorem computeMotionWithGraphs_one_to_one (env : Env F)
    (matcher : List (GraphEdge F) → List (GraphEdge F)) (st : CostState F)
    (previous_stixels current_stixels : List (Stixel F)) (stixels_motion : List Int)
    (graph : List (GraphEdge F))
    (hgraph : buildGraph env st previous_stixels current_stixels = some graph)
    (hmatch : IsMatching graph (matcher graph))
    (hlen : stixels_motion.length = current_stixels.length) :
    ∃ res, computeMotionWithGraphs env matcher st previous_stixels current_stixels
        stixels_motion = some res ∧
      res.length = current_stixels.length ∧
      ∀ (c1 c2 : Nat) (a : Int), c1 ≠ c2 → res[c1]? = some a → res[c2]? = some a → a < 0 := by
  have hin : ∀ e ∈ matcher graph,
      EdgeInRange previous_stixels.length current_stixels.length e :=
    fun e he => buildGraph_inRange env st previous_stixels current_stixels graph hgraph e
      (hmatch.1 e he)
  obtain ⟨res, h1, h2, h3⟩ :=
    motionLoop_spec (matcher graph) previous_stixels.length current_stixels.length hin
      (List.range previous_stixels.length) (stixels_motion.map (fun _ => (-1 : Int)))
      (fun i hi => List.mem_range.mp hi) (by rw [List.length_map]; exact hlen)
  refine ⟨res, ?_, h2, ?_⟩
  · simp only [computeMotionWithGraphs, hgraph, Option.some_bind]
    exact h1
  · intro c1 c2 a hne hc1 hc2
    by_contra hneg
    have hinit : ∀ c : Nat, (stixels_motion.map (fun _ => (-1 : Int)))[c]? ≠ some a := by
      intro c hc
      rw [List.getElem?_map] at hc
      cases hsm : stixels_motion[c]? with
      | none => simp [hsm] at hc
      | some b =>
        simp only [hsm, Option.map_some', Option.some.injEq] at hc
        omega
    rcases h3 c1 a hc1 with h4 | ⟨e1, he1, hu1, hv1⟩
    · exact hinit c1 h4
    rcases h3 c2 a hc2 with h5 | ⟨e2, he2, hu2, hv2⟩
    · exact hinit c2 h5
    have hu : e1.u = e2.u := by
      have : (e1.u : Int) = (e2.u : Int) := by rw [hu1, hu2]
      exact_mod_cast this
    have heq := matching_same_source graph (matcher graph) hmatch e1 e2 he1 he2 hu
    rw [heq] at hv1
    omega

/-- Witness of C1: two stixels in columns 3 and 4 matched against themselves; the graph has
all four pairs as edges, the matcher keeps the two straight ones. -/
theorem computeMotionWithGraphs_one_to_one_witness :
    buildGraph exEnv exCostState exStixels exStixels = some exGraph ∧
    IsMatching exGraph (exMatcher exGraph) ∧
    ([7, 7] : List Int).length = exStixels.length ∧
    ∃ res, computeMotionWithGraphs exEnv exMatcher exCostState exStixels exStixels
        [7, 7] = some res ∧
      res.length = exStixels.length ∧
      ∀ (c1 c2 : Nat) (a : Int), c1 ≠ c2 → res[c1]? = some a → res[c2]? = some a → a < 0 :=
  ⟨by decide, by unfold IsMatching; decide, by decide,
    computeMotionWithGraphs_one_to_one exEnv exMatcher exCostState exStixels exStixels [7, 7]
      exGraph (by decide) (by unfold IsMatching; decide) (by decide)⟩

end GraphTheorems

/-! ## Properties of updateTracker -/

section TrackerTheorems

variable {F : Type}

theorem getElem?_append_cons_self {α : Type} (pre : List α) (a : α) (post : List α) :
    (pre ++ a :: post)[pre.length]? = some a := by
  induction pre with
  | nil => simp
  | cons x xs ih => simpa using ih

theorem set_append_cons_self {α : Type} (pre : List α) (a b : α) (post : List α) :
    (pre ++ a :: post).set pre.length b = pre ++ b :: post := by
  induction pre with
  | nil => rfl
  | cons x xs ih => simp [ih]

theorem pushBackAt_append {α : Type} (pre : List (List α)) (t : List α) (post : List (List α))
    (a : α) : pushBackAt (pre ++ t :: post) pre.length a = some (pre ++ (t ++ [a]) :: post) := by
  simp only [pushBackAt, getElem?_append_cons_self, set_append_cons_self]

theorem firstFrameLoop_eq (make3d : Stixel F → Stixel3d F) :
    ∀ (rest : List (Stixel F)) (i : Nat) (pre : List (List (Stixel3d F)))
      (newStixels3d : List (Stixel3d F)), pre.length = i →
      firstFrameLoop make3d i rest (pre ++ List.replicate rest.length [], newStixels3d) =
        some (pre ++ rest.map (fun s => [firstFrameTrackRecord make3d s]),
              newStixels3d ++ rest.map (firstFrameSnapshotRecord make3d)) := by
  intro rest
  induction rest with
  | nil =>
    intro i pre new _
    simp [firstFrameLoop]
  | cons stixel rest ih =>
    intro i pre new hpre
    subst hpre
    simp only [firstFrameLoop, List.length_cons, List.replicate_succ, pushBackAt_append,
      Option.some_bind, List.nil_append]
    have := ih (pre.length + 1) (pre ++ [[{ make3d stixel with isStatic := false }]])
      (new ++ [firstFrameSnapshotRecord make3d stixel]) (by simp)
    simp only [List.append_assoc, List.singleton_append] at this
    rw [firstFrameSnapshotRecord, firstFrameTrackRecord] at this
    rw [this]
    simp [firstFrameTrackRecord, firstFrameSnapshotRecord]

theorem updateTracker_first (MAX : Nat) (make3d : Stixel F → Stixel3d F)
    (currStixels : List (Stixel F)) (corresp : List Int) (s : TrackerState F)
    (h : s.m_tracker = []) :
    updateTracker MAX make3d currStixels corresp s =
      some { m_tracker := currStixels.map (fun st => [firstFrameTrackRecord make3d st]),
             m_stixelsHistoric :=
               currStixels.map (firstFrameSnapshotRecord make3d) :: s.m_stixelsHistoric } := by
  have := firstFrameLoop_eq make3d currStixels 0 [] [] rfl
  simp only [List.nil_append] at this
  simp [updateTracker, h, this]

theorem nextFrameLoop_cons (make3d : Stixel F → Stixel3d F)
    (tmpTracker : List (List (Stixel3d F))) (corresp : List Int) (stixel : Stixel F)
    (rest : List (Stixel F)) (pre : List (List (Stixel3d F)))
    (lastStixels3d newStixels3d : List (Stixel3d F)) (ci : Int)
    (hci : corresp[pre.length]? = some ci) :
    nextFrameLoop make3d tmpTracker corresp pre.length (stixel :: rest)
        (pre ++ List.replicate (stixel :: rest).length [], lastStixels3d, newStixels3d) =
      if 0 ≤ ci then
        if ci.toNat < tmpTracker.length then
          (setForwardLink lastStixels3d pre.length ci).bind (fun last2 =>
            nextFrameLoop make3d tmpTracker corresp (pre.length + 1) rest
              ((pre ++ [nextFrameTrack make3d tmpTracker stixel ci]) ++
                  List.replicate rest.length [],
                last2, newStixels3d ++ [nextFrameRecord make3d stixel ci]))
        else none
      else
        nextFrameLoop make3d tmpTracker corresp (pre.length + 1) rest
          ((pre ++ [nextFrameTrack make3d tmpTracker stixel ci]) ++
              List.replicate rest.length [],
            lastStixels3d, newStixels3d ++ [nextFrameRecord make3d stixel ci]) := by
  simp only [nextFrameLoop, hci, List.length_cons, List.replicate_succ]
  by_cases h0 : 0 ≤ ci
  · simp only [h0, if_true]
    by_cases ht : ci.toNat < tmpTracker.length
    · simp only [ht, if_true]
      have hget : tmpTracker[ci.toNat]? = some tmpTracker[ci.toNat] := List.getElem?_eq_getElem ht
      have hlen : pre.length < (pre ++ ([] : List (Stixel3d F)) :: List.replicate rest.length []).length := by
        simp
      simp only [copyTrack, hget, hlen, if_true, set_append_cons_self, Option.some_bind]
      cases hs : setForwardLink lastStixels3d pre.length ci with
      | none => simp
      | some last2 =>
        simp only [Option.map_some', Option.some_bind, pushBackAt_append]
        simp [nextFrameTrack, nextFrameRecord, h0, hget]
    · simp only [ht, if_false]
      have hget : tmpTracker[ci.toNat]? = none := List.getElem?_eq_none (by omega)
      simp [copyTrack, hget]
  · simp only [h0, if_false, Option.some_bind, pushBackAt_append]
    simp [nextFrameTrack, nextFrameRecord, h0]

theorem setForwardLink_eq_some (lastStixels3d last2 : List (Stixel3d F)) (i : Nat) (ci : Int)
    (h : setForwardLink lastStixels3d i ci = some last2) :
    ∃ r, lastStixels3d[ci.toNat]? = some r ∧ ci.toNat < lastStixels3d.length ∧
      last2 = lastStixels3d.set ci.toNat
        { r with forward_delta_x := (i : Int), valid_forward_delta_x := true } := by
  unfold setForwardLink at h
  cases hr : lastStixels3d[ci.toNat]? with
  | none => simp [hr] at h
  | some r =>
    simp only [hr, Option.some.injEq] at h
    have hlt : ci.toNat < lastStixels3d.length := by
      by_contra hge
      rw [List.getElem?_eq_none (by omega)] at hr
      cases hr
    exact ⟨r, rfl, hlt, h.symm⟩

theorem drop_of_getElem? {α : Type} (l : List α) (i : Nat) (a : α) (h : l[i]? = some a) :
    l.drop i = a :: l.drop (i + 1) := by
  have hlt : i < l.length := by
    by_contra hge
    rw [List.getElem?_eq_none (by omega)] at h
    cases h
  rw [List.getElem?_eq_getElem hlt] at h
  simp only [Option.some.injEq] at h
  rw [← h]
  exact List.drop_eq_getElem_cons hlt

theorem nextFrameLoop_eq_some (make3d : Stixel F → Stixel3d F)
    (tmpTracker : List (List (Stixel3d F))) (corresp : List Int) :
    ∀ (rest : List (Stixel F)) (i : Nat) (pre : List (List (Stixel3d F)))
      (lastStixels3d newStixels3d : List (Stixel3d F))
      (out : List (List (Stixel3d F)) × List (Stixel3d F) × List (Stixel3d F)),
      pre.length = i →
      nextFrameLoop make3d tmpTracker corresp i rest
        (pre ++ List.replicate rest.length [], lastStixels3d, newStixels3d) = some out →
      out.1 = pre ++ List.zipWith (nextFrameTrack make3d tmpTracker) rest (corresp.drop i) ∧
      out.2.2 = newStixels3d ++ List.zipWith (nextFrameRecord make3d) rest (corresp.drop i) ∧
      out.2.1.length = lastStixels3d.length ∧
      rest.length ≤ (corresp.drop i).length ∧
      (∀ (k : Nat) (ck : Int), i ≤ k → k < i + rest.length → corresp[k]? = some ck → 0 ≤ ck →
        ck.toNat < tmpTracker.length ∧ ck.toNat < lastStixels3d.length) ∧
      (∀ p : Nat,
        (∀ (k : Nat) (ck : Int), i ≤ k → k < i + rest.length → corresp[k]? = some ck →
          0 ≤ ck → ck.toNat ≠ p) →
        out.2.1[p]? = lastStixels3d[p]?) ∧
      (∀ (k : Nat) (ck : Int), i ≤ k → k < i + rest.length → corresp[k]? = some ck → 0 ≤ ck →
        (∀ (k2 : Nat) (c2 : Int), k < k2 → k2 < i + rest.length → corresp[k2]? = some c2 →
          0 ≤ c2 → c2.toNat ≠ ck.toNat) →
        ∃ r0, lastStixels3d[ck.toNat]? = some r0 ∧
          out.2.1[ck.toNat]? =
            some { r0 with forward_delta_x := (k : Int), valid_forward_delta_x := true }) := by
  intro rest
  induction rest with
  | nil =>
    intro i pre last new out hpre h
    simp only [nextFrameLoop, List.length_nil, List.replicate_zero, List.append_nil,
      Option.some.injEq] at h
    subst h
    refine ⟨by simp, by simp, rfl, by simp, ?_, fun p _ => rfl, ?_⟩
    · intro k ck h1 h2
      simp only [List.length_nil, Nat.add_zero] at h2
      omega
    · intro k ck h1 h2
      simp only [List.length_nil, Nat.add_zero] at h2
      omega
  | cons stixel rest ih =>
    intro i pre last new out hpre h
    subst hpre
    cases hc : corresp[pre.length]? with
    | none => simp [nextFrameLoop, hc] at h
    | some ci =>
      rw [nextFrameLoop_cons make3d tmpTracker corresp stixel rest pre last new ci hc] at h
      have hdrop := drop_of_getElem? corresp pre.length ci hc
      have hpre2 : (pre ++ [nextFrameTrack make3d tmpTracker stixel ci]).length = pre.length + 1 := by
        simp
      -- every index of the range is either the head or an index of the tail
      by_cases h0 : 0 ≤ ci
      · rw [if_pos h0] at h
        by_cases ht : ci.toNat < tmpTracker.length
        · rw [if_pos ht] at h
          cases hs : setForwardLink last pre.length ci with
          | none => simp [hs] at h
          | some last2 =>
            rw [hs, Option.some_bind] at h
            obtain ⟨r, hr, hrlt, hlast2⟩ := setForwardLink_eq_some last last2 pre.length ci hs
            obtain ⟨g1, g2, g3, g4, g5, g6, g7⟩ :=
              ih (pre.length + 1) (pre ++ [nextFrameTrack make3d tmpTracker stixel ci]) last2
                (new ++ [nextFrameRecord make3d stixel ci]) out hpre2 h
            have hl2 : last2.length = last.length := by rw [hlast2, List.length_set]
            refine ⟨?_, ?_, ?_, ?_, ?_, ?_, ?_⟩
            · rw [g1, hdrop]; simp
            · rw [g2, hdrop]; simp
            · rw [g3, hl2]
            · rw [hdrop]; simp only [List.length_cons]; omega
            · intro k ck hk1 hk2 hck hck0
              simp only [List.length_cons] at hk2
              by_cases hk : k = pre.length
              · subst hk
                rw [hc] at hck
                simp only [Option.some.injEq] at hck
                subst hck
                exact ⟨ht, hrlt⟩
              · have := g5 k ck (by omega) (by omega) hck hck0
                rw [hl2] at this
                exact this
            · intro p hp
              rw [g6 p (fun k ck hk1 hk2 hck hck0 =>
                hp k ck (by omega) (by simp only [List.length_cons]; omega) hck hck0)]
              rw [hlast2, List.getElem?_set]
              have hne : ci.toNat ≠ p :=
                hp pre.length ci (le_refl _) (by simp only [List.length_cons]; omega) hc h0
              rw [if_neg hne]
            · intro k ck hk1 hk2 hck hck0 hlater
              simp only [List.length_cons] at hk2
              by_cases hk : k = pre.length
              · subst hk
                rw [hc] at hck
                simp only [Option.some.injEq] at hck
                subst hck
                refine ⟨r, hr, ?_⟩
                rw [g6 ci.toNat (fun k2 c2 hk1 hk2 hc2 hc20 =>
                  hlater k2 c2 (by omega) (by simp only [List.length_cons]; omega) hc2 hc20)]
                rw [hlast2, List.getElem?_set]
                simp [hrlt]
              · obtain ⟨r1, hr1, hout⟩ := g7 k ck (by omega) (by omega) hck hck0
                  (fun k2 c2 hk1 hk2 hc2 hc20 =>
                    hlater k2 c2 hk1 (by simp only [List.length_cons]; omega) hc2 hc20)
                rw [hlast2, List.getElem?_set] at hr1
                by_cases hsame : ci.toNat = ck.toNat
                · rw [if_pos hsame] at hr1
                  simp only [hrlt, if_true, Option.some.injEq] at hr1
                  refine ⟨r, by rw [← hsame]; exact hr, ?_⟩
                  rw [hout, ← hr1]
                · rw [if_neg hsame] at hr1
                  exact ⟨r1, hr1, hout⟩
        · rw [if_neg ht] at h
          cases h
      · rw [if_neg h0] at h
        obtain ⟨g1, g2, g3, g4, g5, g6, g7⟩ :=
          ih (pre.length + 1) (pre ++ [nextFrameTrack make3d tmpTracker stixel ci]) last
            (new ++ [nextFrameRecord make3d stixel ci]) out hpre2 h
        refine ⟨?_, ?_, g3, ?_, ?_, ?_, ?_⟩
        · rw [g1, hdrop]; simp
        · rw [g2, hdrop]; simp
        · rw [hdrop]; simp only [List.length_cons]; omega
        · intro k ck hk1 hk2 hck hck0
          simp only [List.length_cons] at hk2
          by_cases hk : k = pre.length
          · subst hk
            rw [hc] at hck
            simp only [Option.some.injEq] at hck
            subst hck
            exact absurd hck0 h0
          · exact g5 k ck (by omega) (by omega) hck hck0
        · intro p hp
          exact g6 p (fun k ck hk1 hk2 hck hck0 =>
            hp k ck (by omega) (by simp only [List.length_cons]; omega) hck hck0)
        · intro k ck hk1 hk2 hck hck0 hlater
          simp only [List.length_cons] at hk2
          by_cases hk : k = pre.length
          · subst hk
            rw [hc] at hck
            simp only [Option.some.injEq] at hck
            subst hck
            exact absurd hck0 h0
          · exact g7 k ck (by omega) (by omega) hck hck0
              (fun k2 c2 hk1 hk2 hc2 hc20 =>
                hlater k2 c2 hk1 (by simp only [List.length_cons]; omega) hc2 hc20)

theorem setForwardLink_isSome (lastStixels3d : List (Stixel3d F)) (i : Nat) (ci : Int)
    (h : ci.toNat < lastStixels3d.length) :
    ∃ last2, setForwardLink lastStixels3d i ci = some last2 ∧
      last2.length = lastStixels3d.length := by
  unfold setForwardLink
  rw [List.getElem?_eq_getElem h]
  exact ⟨_, rfl, by rw [List.length_set]⟩

theorem nextFrameLoop_isSome (make3d : Stixel F → Stixel3d F)
    (tmpTracker : List (List (Stixel3d F))) (corresp : List Int) :
    ∀ (rest : List (Stixel F)) (i : Nat) (pre : List (List (Stixel3d F)))
      (lastStixels3d newStixels3d : List (Stixel3d F)),
      pre.length = i →
      (∀ k : Nat, i ≤ k → k < i + rest.length →
        ∃ ck, corresp[k]? = some ck ∧
          (0 ≤ ck → ck.toNat < tmpTracker.length ∧ ck.toNat < lastStixels3d.length)) →
      ∃ out, nextFrameLoop make3d tmpTracker corresp i rest
        (pre ++ List.replicate rest.length [], lastStixels3d, newStixels3d) = some out := by
  intro rest
  induction rest with
  | nil =>
    intro i pre last new _ _
    exact ⟨_, rfl⟩
  | cons stixel rest ih =>
    intro i pre last new hpre hok
    subst hpre
    obtain ⟨ci, hc, hci⟩ := hok pre.length (le_refl _) (by simp only [List.length_cons]; omega)
    rw [nextFrameLoop_cons make3d tmpTracker corresp stixel rest pre last new ci hc]
    have hpre2 : (pre ++ [nextFrameTrack make3d tmpTracker stixel ci]).length = pre.length + 1 := by
      simp
    by_cases h0 : 0 ≤ ci
    · obtain ⟨ht, hl⟩ := hci h0
      obtain ⟨last2, hs, hl2⟩ := setForwardLink_isSome last pre.length ci hl
      rw [if_pos h0, if_pos ht, hs, Option.some_bind]
      apply ih (pre.length + 1) _ last2 _ hpre2
      intro k hk1 hk2
      obtain ⟨ck, hck, hck2⟩ := hok k (by omega) (by simp only [List.length_cons]; omega)
      exact ⟨ck, hck, fun h => by rw [hl2]; exact hck2 h⟩
    · rw [if_neg h0]
      apply ih (pre.length + 1) _ last _ hpre2
      intro k hk1 hk2
      exact hok k (by omega) (by simp only [List.length_cons]; omega)

/-- What a later-frame call that returns has done. -/
theorem updateTracker_next_eq_some (MAX : Nat) (make3d : Stixel F → Stixel3d F)
    (currStixels : List (Stixel F)) (corresp : List Int) (s s2 : TrackerState F)
    (hne : s.m_tracker ≠ [])
    (h : updateTracker MAX make3d currStixels corresp s = some s2) :
    ∃ last older last2,
      evictOldest MAX s.m_stixelsHistoric = last :: older ∧
      s2.m_tracker = List.zipWith (nextFrameTrack make3d s.m_tracker) currStixels corresp ∧
      s2.m_stixelsHistoric =
        List.zipWith (nextFrameRecord make3d) currStixels corresp :: last2 :: older ∧
      currStixels.length ≤ corresp.length ∧
      last2.length = last.length ∧
      (∀ (k : Nat) (ck : Int), k < currStixels.length → corresp[k]? = some ck → 0 ≤ ck →
        ck.toNat < s.m_tracker.length ∧ ck.toNat < last.length) ∧
      (∀ p : Nat,
        (∀ (k : Nat) (ck : Int), k < currStixels.length → corresp[k]? = some ck →
          0 ≤ ck → ck.toNat ≠ p) →
        last2[p]? = last[p]?) ∧
      (∀ (k : Nat) (ck : Int), k < currStixels.length → corresp[k]? = some ck → 0 ≤ ck →
        (∀ (k2 : Nat) (c2 : Int), k < k2 → k2 < currStixels.length → corresp[k2]? = some c2 →
          0 ≤ c2 → c2.toNat ≠ ck.toNat) →
        ∃ r0, last[ck.toNat]? = some r0 ∧
          last2[ck.toNat]? =
            some { r0 with forward_delta_x := (k : Int), valid_forward_delta_x := true }) := by
  have hlen : ¬ s.m_tracker.length = 0 := by
    intro h0
    exact hne (List.length_eq_zero.mp h0)
  unfold updateTracker at h
  rw [if_neg hlen] at h
  simp only at h
  cases hev : evictOldest MAX s.m_stixelsHistoric with
  | nil => simp [hev] at h
  | cons last older =>
    rw [hev] at h
    simp only at h
    cases hloop : nextFrameLoop make3d s.m_tracker corresp 0 currStixels
        (List.replicate currStixels.length [], last, []) with
    | none => simp [hloop] at h
    | some out =>
      rw [hloop] at h
      simp only [Option.map_some', Option.some.injEq] at h
      have hloop2 : nextFrameLoop make3d s.m_tracker corresp 0 currStixels
          ([] ++ List.replicate currStixels.length [], last, []) = some out := by
        simpa using hloop
      obtain ⟨g1, g2, g3, g4, g5, g6, g7⟩ :=
        nextFrameLoop_eq_some make3d s.m_tracker corresp currStixels 0 [] last [] out rfl hloop2
      simp only [List.nil_append, List.drop_zero, Nat.zero_add] at g1 g2 g4 g5 g6 g7
      subst h
      refine ⟨last, older, out.2.1, rfl, g1, by simp only [g2], g4, g3, ?_, ?_, ?_⟩
      · intro k ck hk
        exact g5 k ck (Nat.zero_le _) hk
      · intro p hp
        exact g6 p (fun k ck _ hk => hp k ck hk)
      · intro k ck hk hck h0 hlater
        exact g7 k ck (Nat.zero_le _) hk hck h0 (fun k2 c2 hk1 hk2 => hlater k2 c2 hk1 hk2)

/-- A later-frame call returns when the deque is not empty after the eviction and every
valid correspondence entry indexes a track and a record of the newest snapshot. -/
theorem updateTracker_next_isSome (MAX : Nat) (make3d : Stixel F → Stixel3d F)
    (currStixels : List (Stixel F)) (corresp : List Int) (s : TrackerState F)
    (last : List (Stixel3d F)) (older : List (List (Stixel3d F)))
    (hne : s.m_tracker ≠ [])
    (hev : evictOldest MAX s.m_stixelsHistoric = last :: older)
    (hok : ∀ k : Nat, k < currStixels.length →
      ∃ ck, corresp[k]? = some ck ∧
        (0 ≤ ck → ck.toNat < s.m_tracker.length ∧ ck.toNat < last.length)) :
    ∃ s2, updateTracker MAX make3d currStixels corresp s = some s2 := by
  have hlen : ¬ s.m_tracker.length = 0 := by
    intro h0
    exact hne (List.length_eq_zero.mp h0)
  obtain ⟨out, hout⟩ :=
    nextFrameLoop_isSome make3d s.m_tracker corresp currStixels 0 [] last [] rfl
      (fun k _ hk => hok k (by omega))
  simp only [List.nil_append] at hout
  unfold updateTracker
  rw [if_neg hlen]
  simp only [hev, hout, Option.map_some']
  exact ⟨_, rfl⟩

theorem evictOldest_cons {α : Type} (MAX : Nat) (hMAX : 1 ≤ MAX) (last : α) (older : List α) :
    ∃ older2, evictOldest MAX (last :: older) = last :: older2 ∧
      older2.length = if MAX < older.length + 1 then older.length - 1 else older.length := by
  unfold evictOldest
  by_cases h : (last :: older).length > MAX
  · rw [if_pos h]
    have hne : older ≠ [] := by
      intro h0
      subst h0
      simp only [List.length_singleton] at h
      omega
    rw [List.dropLast_cons_of_ne_nil hne]
    refine ⟨older.dropLast, rfl, ?_⟩
    simp only [List.length_cons] at h
    rw [List.length_dropLast, if_pos (by omega)]
  · rw [if_neg h]
    refine ⟨older, rfl, ?_⟩
    simp only [List.length_cons] at h
    rw [if_neg (by omega)]

/-- Every call that returns establishes the invariant of the track store. -/
theorem updateTracker_inv (MAX : Nat) (make3d : Stixel F → Stixel3d F)
    (currStixels : List (Stixel F)) (corresp : List Int) (s s2 : TrackerState F)
    (h : updateTracker MAX make3d currStixels corresp s = some s2) : TrackerInv s2 := by
  by_cases hne : s.m_tracker = []
  · rw [updateTracker_first MAX make3d currStixels corresp s hne] at h
    simp only [Option.some.injEq] at h
    subst h
    right
    refine ⟨_, _, rfl, by simp, ?_⟩
    intro r hr
    obtain ⟨st, _, hst⟩ := List.mem_map.mp hr
    rw [← hst]
    rfl
  · obtain ⟨last, older, last2, _, g1, g2, g3, _⟩ :=
      updateTracker_next_eq_some MAX make3d currStixels corresp s s2 hne h
    right
    refine ⟨_, _, g2, by rw [g1]; simp, ?_⟩
    intro r hr
    obtain ⟨n, hn⟩ := List.mem_iff_getElem?.mp hr
    rw [List.getElem?_zipWith] at hn
    cases ha : currStixels[n]? with
    | none => simp [ha] at hn
    | some a =>
      cases hb : corresp[n]? with
      | none => simp [ha, hb] at hn
      | some b =>
        simp only [ha, hb, Option.some.injEq] at hn
        rw [← hn]
        unfold nextFrameRecord
        split_ifs <;> rfl

theorem reachable_inv (MAX : Nat) (make3d : Stixel F → Stixel3d F) (s : TrackerState F)
    (h : Reachable MAX make3d s) : TrackerInv s := by
  cases h with
  | init => exact Or.inl rfl
  | step s0 _ currStixels corresp _ hstep =>
    exact updateTracker_inv MAX make3d currStixels corresp s0 s hstep

theorem reachableIn_reachable (MAX : Nat) (make3d : Stixel F → Stixel3d F) (k : Nat)
    (s : TrackerState F) (h : ReachableIn MAX make3d k s) : Reachable MAX make3d s := by
  induction h with
  | init => exact Reachable.init
  | step k s s2 currStixels corresp _ hstep ih =>
    exact Reachable.step s s2 currStixels corresp ih hstep

/-- A reachable state with tracks accepts every frame whose correspondence array has one
entry per current stixel, each valid entry indexing a track. -/
theorem updateTracker_next_returns (MAX : Nat) (make3d : Stixel F → Stixel3d F)
    (currStixels : List (Stixel F)) (corresp : List Int) (s : TrackerState F)
    (hreach : Reachable MAX make3d s) (hMAX : 1 ≤ MAX) (hne : s.m_tracker ≠ [])
    (hlen : corresp.length = currStixels.length)
    (hvalid : ∀ (i : Nat) (ci : Int), corresp[i]? = some ci → 0 ≤ ci →
      ci.toNat < s.m_tracker.length) :
    ∃ s2 last older, updateTracker MAX make3d currStixels corresp s = some s2 ∧
      s.m_stixelsHistoric = last :: older ∧ last.length = s.m_tracker.length ∧
      (∀ r ∈ last, r.valid_forward_delta_x = false) ∧
      ∃ older2, evictOldest MAX s.m_stixelsHistoric = last :: older2 := by
  rcases reachable_inv MAX make3d s hreach with h0 | ⟨last, older, hh, hl, hf⟩
  · exact absurd h0 hne
  · obtain ⟨older2, hev, _⟩ := evictOldest_cons MAX hMAX last older
    rw [← hh] at hev
    obtain ⟨s2, hs2⟩ := updateTracker_next_isSome MAX make3d currStixels corresp s last older2
      hne hev (by
        intro k hk
        have hk2 : k < corresp.length := by omega
        refine ⟨corresp[k], List.getElem?_eq_getElem hk2, fun h0 => ?_⟩
        have := hvalid k corresp[k] (List.getElem?_eq_getElem hk2) h0
        exact ⟨this, by omega⟩)
    exact ⟨s2, last, older, hs2, hh, hl, hf, older2, hev⟩

/-- C3: on a later frame (reachable state with tracks, history window of at least one
snapshot, one correspondence entry per current stixel, valid entries indexing tracks)
`updateTracker` returns and the track of every current column `i` is the whole former track
of column `corresp[i]` when that entry is valid, and nothing otherwise, followed by exactly
one new record built from current stixel `i`. -/
theorem updateTracker_advances_tracks (MAX : Nat) (make3d : Stixel F → Stixel3d F)
    (currStixels : List (Stixel F)) (corresp : List Int) (s : TrackerState F)
    (hreach : Reachable MAX make3d s) (hMAX : 1 ≤ MAX) (hne : s.m_tracker ≠ [])
    (hlen : corresp.length = currStixels.length)
    (hvalid : ∀ (i : Nat) (ci : Int), corresp[i]? = some ci → 0 ≤ ci →
      ci.toNat < s.m_tracker.length) :
    ∃ s2, updateTracker MAX make3d currStixels corresp s = some s2 ∧
      s2.m_tracker.length = currStixels.length ∧
      ∀ (i : Nat) (stixel : Stixel F) (ci : Int),
        currStixels[i]? = some stixel → corresp[i]? = some ci →
        (0 ≤ ci → ∃ old, s.m_tracker[ci.toNat]? = some old ∧
          s2.m_tracker[i]? = some (old ++ [nextFrameRecord make3d stixel ci]) ∧
          (old ++ [nextFrameRecord make3d stixel ci]).length = old.length + 1) ∧
        (ci < 0 → s2.m_tracker[i]? = some [nextFrameRecord make3d stixel ci]) := by
  obtain ⟨s2, last, older, hs2, _, _, _, _⟩ :=
    updateTracker_next_returns MAX make3d currStixels corresp s hreach hMAX hne hlen hvalid
  obtain ⟨_, _, _, _, g1, _, _, _, _, _, _⟩ :=
    updateTracker_next_eq_some MAX make3d currStixels corresp s s2 hne hs2
  refine ⟨s2, hs2, by rw [g1, List.length_zipWith, hlen]; simp, ?_⟩
  intro i stixel ci hst hci
  have hget : s2.m_tracker[i]? = some (nextFrameTrack make3d s.m_tracker stixel ci) := by
    rw [g1, List.getElem?_zipWith, hst, hci]
  constructor
  · intro h0
    have hlt := hvalid i ci hci h0
    refine ⟨s.m_tracker[ci.toNat], List.getElem?_eq_getElem hlt, ?_, by simp⟩
    rw [hget]
    simp [nextFrameTrack, h0, List.getElem?_eq_getElem hlt]
  · intro hneg
    rw [hget]
    have : ¬ 0 ≤ ci := by omega
    simp [nextFrameTrack, this]

/-- C7: from every reachable state (history window of at least one snapshot), a call with
`n` current stixels and a correspondence array of length `n` whose valid entries index
existing tracks returns, and afterwards `m_tracker` has `n` tracks and the newest snapshot
`m_stixelsHistoric[0]` has `n` records. -/
theorem updateTracker_sizes (MAX : Nat) (make3d : Stixel F → Stixel3d F)
    (currStixels : List (Stixel F)) (corresp : List Int) (s : TrackerState F)
    (hreach : Reachable MAX make3d s) (hMAX : 1 ≤ MAX)
    (hlen : corresp.length = currStixels.length)
    (hvalid : ∀ (i : Nat) (ci : Int), corresp[i]? = some ci → 0 ≤ ci →
      ci.toNat < s.m_tracker.length) :
    ∃ s2, updateTracker MAX make3d currStixels corresp s = some s2 ∧
      s2.m_tracker.length = currStixels.length ∧
      ∃ newest older, s2.m_stixelsHistoric = newest :: older ∧
        newest.length = currStixels.length := by
  by_cases hne : s.m_tracker = []
  · exact ⟨_, updateTracker_first MAX make3d currStixels corresp s hne, by simp,
      _, _, rfl, by simp⟩
  · obtain ⟨s2, last, older, hs2, _, _, _, _⟩ :=
      updateTracker_next_returns MAX make3d currStixels corresp s hreach hMAX hne hlen hvalid
    obtain ⟨_, older2, last2, _, g1, g2, _⟩ :=
      updateTracker_next_eq_some MAX make3d currStixels corresp s s2 hne hs2
    exact ⟨s2, hs2, by rw [g1, List.length_zipWith, hlen]; simp,
      _, _, g2, by rw [List.length_zipWith, hlen]; simp⟩

/-- C2 (amended): on a later frame whose correspondence array is one-to-one on its valid
entries, `updateTracker` returns and leaves the deque as `newest :: last2 :: older`, where
`last2` is the former newest snapshot `last` with forward links written: for every `i` with
`corresp[i] >= 0` record `corresp[i]` of `last2` has `forward_delta_x = i` and a valid
forward link, and record `i` of `newest` has `backward_delta_x = corresp[i]` and a valid
backward link; every record of `last2` that no valid entry names is unchanged and has its
forward flag false; every record of `newest` has its forward flag false, and its backward
flag false when `corresp[i] < 0`. -/
theorem updateTracker_links (MAX : Nat) (make3d : Stixel F → Stixel3d F)
    (currStixels : List (Stixel F)) (corresp : List Int) (s : TrackerState F)
    (hreach : Reachable MAX make3d s) (hMAX : 1 ≤ MAX) (hne : s.m_tracker ≠ [])
    (hlen : corresp.length = currStixels.length)
    (hvalid : ∀ (i : Nat) (ci : Int), corresp[i]? = some ci → 0 ≤ ci →
      ci.toNat < s.m_tracker.length)
    (hinj : InjectiveOnValid corresp) :
    ∃ s2 last newest last2 older,
      s.m_stixelsHistoric.head? = some last ∧
      updateTracker MAX make3d currStixels corresp s = some s2 ∧
      s2.m_stixelsHistoric = newest :: last2 :: older ∧
      newest.length = currStixels.length ∧ last2.length = last.length ∧
      (∀ (i : Nat) (ci : Int), corresp[i]? = some ci → 0 ≤ ci →
        ∃ r rn, last2[ci.toNat]? = some r ∧ r.forward_delta_x = (i : Int) ∧
          r.valid_forward_delta_x = true ∧
          newest[i]? = some rn ∧ rn.backward_delta_x = ci ∧
          rn.valid_backward_delta_x = true) ∧
      (∀ (p : Nat) (r : Stixel3d F), last2[p]? = some r →
        (∀ (i : Nat) (ci : Int), corresp[i]? = some ci → 0 ≤ ci → ci.toNat ≠ p) →
        last[p]? = some r ∧ r.valid_forward_delta_x = false) ∧
      (∀ (i : Nat) (rn : Stixel3d F), newest[i]? = some rn →
        rn.valid_forward_delta_x = false) ∧
      (∀ (i : Nat) (ci : Int) (rn : Stixel3d F), corresp[i]? = some ci → ci < 0 →
        newest[i]? = some rn → rn.valid_backward_delta_x = false) := by
  obtain ⟨s2, last, older, hs2, hh, hl, hf, older2, hev⟩ :=
    updateTracker_next_returns MAX make3d currStixels corresp s hreach hMAX hne hlen hvalid
  obtain ⟨last', older', last2, hev', g1, g2, g3, g4, g5, g6, g7⟩ :=
    updateTracker_next_eq_some MAX make3d currStixels corresp s s2 hne hs2
  rw [hev] at hev'
  simp only [List.cons.injEq] at hev'
  obtain ⟨e1, e2⟩ := hev'
  subst e1
  subst e2
  have hidx : ∀ (i : Nat) (ci : Int), corresp[i]? = some ci → i < currStixels.length := by
    intro i ci hci
    by_contra hge
    rw [List.getElem?_eq_none (by omega)] at hci
    cases hci
  have hnew : ∀ (i : Nat) (rn : Stixel3d F),
      (List.zipWith (nextFrameRecord make3d) currStixels corresp)[i]? = some rn →
      ∃ stixel ci, corresp[i]? = some ci ∧ rn = nextFrameRecord make3d stixel ci := by
    intro i rn hrn
    rw [List.getElem?_zipWith] at hrn
    cases ha : currStixels[i]? with
    | none => simp [ha] at hrn
    | some a =>
      cases hb : corresp[i]? with
      | none => simp [ha, hb] at hrn
      | some b =>
        simp only [ha, hb, Option.some.injEq] at hrn
        exact ⟨a, b, rfl, hrn.symm⟩
  refine ⟨s2, last, _, last2, older2, by rw [hh]; rfl, hs2, g2,
    by rw [List.length_zipWith, hlen]; simp, g4, ?_, ?_, ?_, ?_⟩
  · intro i ci hci h0
    have hi := hidx i ci hci
    obtain ⟨r0, hr0, hr2⟩ := g7 i ci hi hci h0 (by
      intro k2 c2 hk hk2 hc2 hc20 heq
      have hcc : c2 = ci := by
        have h1 := Int.toNat_of_nonneg hc20
        have h2 := Int.toNat_of_nonneg h0
        omega
      have := hinj i k2 ci c2 hci hc2 h0 hcc.symm
      omega)
    refine ⟨_, nextFrameRecord make3d currStixels[i] ci, hr2, rfl, rfl, ?_, ?_, ?_⟩
    · rw [List.getElem?_zipWith, List.getElem?_eq_getElem hi, hci]
    · simp [nextFrameRecord, h0]
    · simp [nextFrameRecord, h0]
  · intro p r hr hp
    have hsame := g6 p (fun k ck _ hck h0 => hp k ck hck h0)
    rw [hsame] at hr
    exact ⟨hr, hf r (List.mem_iff_getElem?.mpr ⟨p, hr⟩)⟩
  · intro i rn hrn
    obtain ⟨stixel, ci, _, hrec⟩ := hnew i rn hrn
    rw [hrec]
    unfold nextFrameRecord
    split_ifs <;> rfl
  · intro i ci rn hci hneg hrn
    obtain ⟨stixel, ci2, hci2, hrec⟩ := hnew i rn hrn
    rw [hci] at hci2
    simp only [Option.some.injEq] at hci2
    subst hci2
    rw [hrec]
    have : ¬ 0 ≤ ci := by omega
    simp [nextFrameRecord, this]

/-- The state after the first frame of a single stixel. -/
theorem single_column_first (MAX : Nat) (make3d : Stixel F → Stixel3d F) (stixel : Stixel F) :
    ∃ s, ReachableIn MAX make3d 1 s ∧ (∃ t, s.m_tracker = [t] ∧ t.length = 1) ∧
      s.m_stixelsHistoric.length = 1 :=
  ⟨_, ReachableIn.step 0 initialTracker _ [stixel] [0] ReachableIn.init
      (updateTracker_first MAX make3d [stixel] [0] initialTracker rfl),
    ⟨_, rfl, rfl⟩, rfl⟩

/-- A single column matched with itself in every frame: after `k + 1` frames its track has
`k + 1` records and the deque holds `min (k + 1) (MAX + 1)` snapshots. -/
theorem single_column_grows (MAX : Nat) (hMAX : 1 ≤ MAX) (make3d : Stixel F → Stixel3d F)
    (stixel : Stixel F) :
    ∀ k : Nat, ∃ s, ReachableIn MAX make3d (k + 1) s ∧
      (∃ t, s.m_tracker = [t] ∧ t.length = k + 1) ∧
      s.m_stixelsHistoric.length = min (k + 1) (MAX + 1) := by
  intro k
  induction k with
  | zero =>
    obtain ⟨s, h1, h2, h3⟩ := single_column_first MAX make3d stixel
    exact ⟨s, h1, h2, by rw [h3]; omega⟩
  | succ k ih =>
    obtain ⟨s, hreach, ⟨t, ht, htl⟩, hhist⟩ := ih
    have hne : s.m_tracker ≠ [] := by rw [ht]; simp
    have hR := reachableIn_reachable MAX make3d (k + 1) s hreach
    obtain ⟨s2, last, older, hs2, hh, hl, hf, older2, hev⟩ :=
      updateTracker_next_returns MAX make3d [stixel] [0] s hR hMAX hne rfl (by
        intro i ci hci h0
        rcases i with _ | i
        · simp only [List.getElem?_cons_zero, Option.some.injEq] at hci
          subst hci
          rw [ht]
          simp
        · simp at hci)
    obtain ⟨last', older', last2, hev', g1, g2, _⟩ :=
      updateTracker_next_eq_some MAX make3d [stixel] [0] s s2 hne hs2
    refine ⟨s2, ReachableIn.step (k + 1) s s2 [stixel] [0] hreach hs2, ?_, ?_⟩
    · refine ⟨_, by rw [g1]; rfl, ?_⟩
      simp [nextFrameTrack, ht, htl]
    · obtain ⟨older3, hev3, hlen3⟩ := evictOldest_cons MAX hMAX last older
      rw [← hh, hev'] at hev3
      simp only [List.cons.injEq] at hev3
      rw [g2, hev3.2]
      rw [hh] at hhist
      simp only [List.length_cons] at hhist ⊢
      rw [hlen3]
      split_ifs <;> omega

/-- C4 (counterexample): for no value of `MAX_ITERATIONS_STORED` are all tracks of all
reachable states at most that long: a column matched in every frame has a track as long as
the number of frames. -/
theorem track_length_cap_counterexample :
    ¬ ∃ MAX : Nat, ∀ s : TrackerState Int, Reachable MAX exMake3d s →
        ∀ t ∈ s.m_tracker, t.length ≤ MAX := by
  rintro ⟨MAX, h⟩
  by_cases hMAX : 1 ≤ MAX
  · obtain ⟨s, hreach, ⟨t, ht, htl⟩, _⟩ :=
      single_column_grows MAX hMAX exMake3d (exStixel 3) MAX
    have := h s (reachableIn_reachable MAX exMake3d _ s hreach) t (by rw [ht]; simp)
    omega
  · obtain ⟨s, hreach, ⟨t, ht, htl⟩, _⟩ := single_column_first MAX exMake3d (exStixel 3)
    have := h s (reachableIn_reachable MAX exMake3d _ s hreach) t (by rw [ht]; simp)
    omega

/-- C4 (amended): in a state reached by `k` calls of `updateTracker` every track has at
least one and at most `k` records, and a later-frame call never evicts a record: the track
of a matched column is the whole former track of its match followed by one record. -/
theorem track_length_bounded_by_calls (MAX : Nat) (make3d : Stixel F → Stixel3d F) (k : Nat)
    (s : TrackerState F) (h : ReachableIn MAX make3d k s) :
    (∀ t ∈ s.m_tracker, 1 ≤ t.length ∧ t.length ≤ k) ∧
    ∀ (currStixels : List (Stixel F)) (corresp : List Int) (s2 : TrackerState F),
      s.m_tracker ≠ [] → updateTracker MAX make3d currStixels corresp s = some s2 →
      ∀ (i : Nat) (ci : Int), i < currStixels.length → corresp[i]? = some ci → 0 ≤ ci →
        ∃ old rec, s.m_tracker[ci.toNat]? = some old ∧
          s2.m_tracker[i]? = some (old ++ [rec]) := by
  constructor
  · induction h with
    | init =>
      intro t ht
      cases ht
    | step k s s2 currStixels corresp _ hstep ih =>
      intro t ht
      by_cases hne : s.m_tracker = []
      · rw [updateTracker_first MAX make3d currStixels corresp s hne] at hstep
        simp only [Option.some.injEq] at hstep
        subst hstep
        obtain ⟨st, _, hst⟩ := List.mem_map.mp ht
        rw [← hst]
        simp
      · obtain ⟨_, _, _, _, g1, _⟩ :=
          updateTracker_next_eq_some MAX make3d currStixels corresp s s2 hne hstep
        rw [g1] at ht
        obtain ⟨n, hn⟩ := List.mem_iff_getElem?.mp ht
        rw [List.getElem?_zipWith] at hn
        cases ha : currStixels[n]? with
        | none => simp [ha] at hn
        | some a =>
          cases hb : corresp[n]? with
          | none => simp [ha, hb] at hn
          | some b =>
            simp only [ha, hb, Option.some.injEq] at hn
            rw [← hn]
            unfold nextFrameTrack
            by_cases h0 : 0 ≤ b
            · rw [if_pos h0]
              cases hold : s.m_tracker[b.toNat]? with
              | none => simp
              | some old =>
                have := ih old (List.mem_iff_getElem?.mpr ⟨_, hold⟩)
                simp only [Option.getD_some, List.length_append, List.length_singleton]
                omega
            · rw [if_neg h0]
              simp
  · intro currStixels corresp s2 hne hstep i ci hi hci h0
    obtain ⟨_, _, _, _, g1, _, _, _, g5, _, _⟩ :=
      updateTracker_next_eq_some MAX make3d currStixels corresp s s2 hne hstep
    have hlt := (g5 i ci hi hci h0).1
    refine ⟨s.m_tracker[ci.toNat], nextFrameRecord make3d currStixels[i] ci,
      List.getElem?_eq_getElem hlt, ?_⟩
    rw [g1, List.getElem?_zipWith, List.getElem?_eq_getElem hi, hci]
    simp [nextFrameTrack, h0, List.getElem?_eq_getElem hlt]

/-- For every value of `MAX_ITERATIONS_STORED` a single column matched in every frame leads
to a state whose deque holds one snapshot more than that value. -/
theorem historic_grows_past_cap (MAX : Nat) (make3d : Stixel F → Stixel3d F)
    (stixel : Stixel F) :
    ∃ s, Reachable MAX make3d s ∧ s.m_stixelsHistoric.length = MAX + 1 := by
  by_cases hMAX : 1 ≤ MAX
  · obtain ⟨s, hreach, _, hl⟩ := single_column_grows MAX hMAX make3d stixel MAX
    exact ⟨s, reachableIn_reachable MAX make3d _ s hreach, by rw [hl]; omega⟩
  · obtain ⟨s, hreach, _, hl⟩ := single_column_first MAX make3d stixel
    exact ⟨s, reachableIn_reachable MAX make3d _ s hreach, by rw [hl]; omega⟩

/-- C5 (the defect): the test before `pop_back` is `size() > MAX_ITERATIONS_STORED`, so a
deque of exactly that many snapshots is not trimmed before the new snapshot is pushed.  For
every value of `MAX_ITERATIONS_STORED` there is a reachable state in which
`m_stixelsHistoric` holds `MAX_ITERATIONS_STORED + 1` snapshots; with a window of 1, the
state after the first frame holds exactly 1 snapshot and the second call leaves 2. -/
theorem historic_exceeds_cap :
    (∀ (MAX : Nat) (make3d : Stixel Int → Stixel3d Int) (stixel : Stixel Int),
      ∃ s, Reachable MAX make3d s ∧ s.m_stixelsHistoric.length = MAX + 1) ∧
    ((updateTracker 1 exMake3d exStixels [-1, -1] initialTracker).map
      (fun s1 => s1.m_stixelsHistoric.length) = some 1 ∧
     ((updateTracker 1 exMake3d exStixels [-1, -1] initialTracker).bind
        (updateTracker 1 exMake3d exStixels [0, 1])).map
      (fun s2 => s2.m_stixelsHistoric.length) = some 2) :=
  ⟨fun MAX make3d stixel => historic_grows_past_cap MAX make3d stixel, by decide, by decide⟩

/-- C6 (the defect): the first frame of two stixels, with a constructor that leaves both
link flags set.  Two tracks of one record each are created, but the records in the tracks
keep both flags set, and the records of the snapshot keep the backward flag set. -/
theorem updateTracker_first_frame_flags :
    updateTracker 3 exMake3d exStixels [-1, -1] initialTracker = some exTracker1 ∧
    exTracker1.m_tracker.length = 2 ∧
    (∀ t ∈ exTracker1.m_tracker, t.length = 1 ∧
      ∀ r ∈ t, r.valid_forward_delta_x = true ∧ r.valid_backward_delta_x = true) ∧
    (∀ snapshot ∈ exTracker1.m_stixelsHistoric, ∀ r ∈ snapshot,
      r.valid_forward_delta_x = false ∧ r.valid_backward_delta_x = true) := by
  decide

/-- C2 (counterexample): after a first frame of two stixels, a second frame whose
correspondence array is `[0, 0]` leaves record 0 of the former newest snapshot with
`forward_delta_x = 1`, although `corresp[0] = 0` asks for `forward_delta_x = 0`. -/
theorem updateTracker_links_counterexample :
    Reachable 3 exMake3d exTracker1 ∧ exTracker1.m_tracker ≠ [] ∧
    updateTracker 3 exMake3d exStixels [0, 0] exTracker1 = some exTracker2 ∧
    ([0, 0] : List Int)[0]? = some 0 ∧
    ((exTracker2.m_stixelsHistoric[1]?).bind (fun last => last[0]?)).map
      (fun r => (r.forward_delta_x, r.valid_forward_delta_x)) = some (1, true) :=
  ⟨Reachable.step initialTracker exTracker1 exStixels [-1, -1] Reachable.init (by decide),
    by decide, by decide, by decide, by decide⟩

theorem exTracker1_reachable : Reachable 3 exMake3d exTracker1 :=
  Reachable.step initialTracker exTracker1 exStixels [-1, -1] Reachable.init (by decide)

theorem exCorresp_valid : ∀ (i : Nat) (ci : Int), ([1, -1] : List Int)[i]? = some ci → 0 ≤ ci →
    ci.toNat < exTracker1.m_tracker.length := by
  intro i ci hci h0
  rcases i with _ | _ | i
  · simp only [List.getElem?_cons_zero, Option.some.injEq] at hci
    subst hci
    decide
  · simp only [List.getElem?_cons_succ, List.getElem?_cons_zero, Option.some.injEq] at hci
    omega
  · simp at hci

theorem exCorresp_injective : InjectiveOnValid ([1, -1] : List Int) := by
  intro i j a b hi hj h0 hab
  rcases i with _ | _ | i
  · rcases j with _ | _ | j
    · rfl
    · simp only [List.getElem?_cons_zero, List.getElem?_cons_succ, Option.some.injEq] at hi hj
      omega
    · simp at hj
  · simp only [List.getElem?_cons_succ, List.getElem?_cons_zero, Option.some.injEq] at hi
    omega
  · simp at hi

/-- Witness of C3: the second frame `exStixels` with correspondence `[1, -1]` after the
first frame. -/
theorem updateTracker_advances_tracks_witness :
    Reachable 3 exMake3d exTracker1 ∧ 1 ≤ 3 ∧ exTracker1.m_tracker ≠ [] ∧
    ([1, -1] : List Int).length = exStixels.length ∧
    ∃ s2, updateTracker 3 exMake3d exStixels [1, -1] exTracker1 = some s2 ∧
      s2.m_tracker.length = exStixels.length ∧
      ∀ (i : Nat) (stixel : Stixel Int) (ci : Int),
        exStixels[i]? = some stixel → ([1, -1] : List Int)[i]? = some ci →
        (0 ≤ ci → ∃ old, exTracker1.m_tracker[ci.toNat]? = some old ∧
          s2.m_tracker[i]? = some (old ++ [nextFrameRecord exMake3d stixel ci]) ∧
          (old ++ [nextFrameRecord exMake3d stixel ci]).length = old.length + 1) ∧
        (ci < 0 → s2.m_tracker[i]? = some [nextFrameRecord exMake3d stixel ci]) :=
  ⟨exTracker1_reachable, by decide, by decide, by decide,
    updateTracker_advances_tracks 3 exMake3d exStixels [1, -1] exTracker1 exTracker1_reachable
      (by decide) (by decide) (by decide) exCorresp_valid⟩

/-- Witness of C7: the same second frame. -/
theorem updateTracker_sizes_witness :
    Reachable 3 exMake3d exTracker1 ∧ 1 ≤ 3 ∧
    ([1, -1] : List Int).length = exStixels.length ∧
    ∃ s2, updateTracker 3 exMake3d exStixels [1, -1] exTracker1 = some s2 ∧
      s2.m_tracker.length = exStixels.length ∧
      ∃ newest older, s2.m_stixelsHistoric = newest :: older ∧
        newest.length = exStixels.length :=
  ⟨exTracker1_reachable, by decide, by decide,
    updateTracker_sizes 3 exMake3d exStixels [1, -1] exTracker1 exTracker1_reachable
      (by decide) (by decide) exCorresp_valid⟩

/-- Witness of C2 (amended): the same second frame; `[1, -1]` is one-to-one on its valid
entries. -/
theorem updateTracker_links_witness :
    Reachable 3 exMake3d exTracker1 ∧ 1 ≤ 3 ∧ exTracker1.m_tracker ≠ [] ∧
    ([1, -1] : List Int).length = exStixels.length ∧ InjectiveOnValid ([1, -1] : List Int) ∧
    ∃ s2 last newest last2 older,
      exTracker1.m_stixelsHistoric.head? = some last ∧
      updateTracker 3 exMake3d exStixels [1, -1] exTracker1 = some s2 ∧
      s2.m_stixelsHistoric = newest :: last2 :: older ∧
      newest.length = exStixels.length ∧ last2.length = last.length ∧
      (∀ (i : Nat) (ci : Int), ([1, -1] : List Int)[i]? = some ci → 0 ≤ ci →
        ∃ r rn, last2[ci.toNat]? = some r ∧ r.forward_delta_x = (i : Int) ∧
          r.valid_forward_delta_x = true ∧
          newest[i]? = some rn ∧ rn.backward_delta_x = ci ∧
          rn.valid_backward_delta_x = true) ∧
      (∀ (p : Nat) (r : Stixel3d Int), last2[p]? = some r →
        (∀ (i : Nat) (ci : Int), ([1, -1] : List Int)[i]? = some ci → 0 ≤ ci →
          ci.toNat ≠ p) →
        last[p]? = some r ∧ r.valid_forward_delta_x = false) ∧
      (∀ (i : Nat) (rn : Stixel3d Int), newest[i]? = some rn →
        rn.valid_forward_delta_x = false) ∧
      (∀ (i : Nat) (ci : Int) (rn : Stixel3d Int), ([1, -1] : List Int)[i]? = some ci →
        ci < 0 → newest[i]? = some rn → rn.valid_backward_delta_x = false) :=
  ⟨exTracker1_reachable, by decide, by decide, by decide, exCorresp_injective,
    updateTracker_links 3 exMake3d exStixels [1, -1] exTracker1 exTracker1_reachable
      (by decide) (by decide) (by decide) exCorresp_valid exCorresp_injective⟩

/-- Witness of C4 (amended): the state after two frames. -/
theorem track_length_bounded_by_calls_witness :
    ReachableIn 3 exMake3d 2 exTracker2 ∧
    (∀ t ∈ exTracker2.m_tracker, 1 ≤ t.length ∧ t.length ≤ 2) ∧
    ∀ (currStixels : List (Stixel Int)) (corresp : List Int) (s2 : TrackerState Int),
      exTracker2.m_tracker ≠ [] → updateTracker 3 exMake3d currStixels corresp exTracker2 = some s2 →
      ∀ (i : Nat) (ci : Int), i < currStixels.length → corresp[i]? = some ci → 0 ≤ ci →
        ∃ old rec, exTracker2.m_tracker[ci.toNat]? = some old ∧
          s2.m_tracker[i]? = some (old ++ [rec]) :=
  ⟨ReachableIn.step 1 exTracker1 exTracker2 exStixels [0, 0]
      (ReachableIn.step 0 initialTracker exTracker1 exStixels [-1, -1] ReachableIn.init
        (by decide)) (by decide),
    track_length_bounded_by_calls 3 exMake3d 2 exTracker2
      (ReachableIn.step 1 exTracker1 exTracker2 exStixels [0, 0]
        (ReachableIn.step 0 initialTracker exTracker1 exStixels [-1, -1] ReachableIn.init
          (by decide)) (by decide))⟩

end TrackerTheorems

/-! ## Properties of compute_motion_cost_matrix -/

section CostTheorems

variable {F : Type}

theorem toInt32_of_lt (u : Nat) (h : u < 2 ^ 31) : toInt32 u = (u : Int) := by
  unfold toInt32
  have h1 : u % 2 ^ 32 = u := Nat.mod_eq_of_lt (by omega)
  rw [h1, if_pos h]

/-- The three gates a pair passes before it is written (lines 251-264). -/
theorem pairStep_eq (env : Env F) (s_current : Nat) (current_stixel : Stixel F) (padding : Nat)
    (current_stixel_depth current_stixel_real_height : F) (previous_stixel : Stixel F)
    (st : CostState F) :
    pairStep env s_current current_stixel padding current_stixel_depth
        current_stixel_real_height previous_stixel st =
      if pairGates env current_stixel padding current_stixel_depth previous_stixel = true then
        if 0 ≤ previous_stixel.x - current_stixel.x + (env.maximum_possible_motion_in_pixels : Int) ∧
            previous_stixel.x - current_stixel.x + (env.maximum_possible_motion_in_pixels : Int)
              < (env.rows : Int) ∧ s_current < env.cols then
          some (writePair env
            (previous_stixel.x - current_stixel.x +
              (env.maximum_possible_motion_in_pixels : Int)).toNat s_current
            (cueValues env current_stixel previous_stixel padding current_stixel_real_height) st)
        else none
      else some st := by
  unfold pairStep pairGates
  by_cases h1 : horizontalPaddingOk previous_stixel padding env.previous_image_width = true
  · by_cases h2 : depthGate env current_stixel_depth (stixelDepth env previous_stixel) = true
    · by_cases h3 : motionGate env current_stixel previous_stixel = true
      · simp [h1, h2, h3]
      · simp [h1, h2, h3]
    · simp [h1, h2]
  · simp [h1]

/-- A pair that passes the motion gate is written inside the shift rows. -/
theorem motionGate_row (env : Env F) (current_stixel previous_stixel : Stixel F)
    (hlut : compute_maximum_pixelwise_motion_for_stixel env current_stixel
      ≤ env.maximum_possible_motion_in_pixels)
    (hmax : env.maximum_possible_motion_in_pixels < 2 ^ 31)
    (h : motionGate env current_stixel previous_stixel = true) :
    0 ≤ previous_stixel.x - current_stixel.x + (env.maximum_possible_motion_in_pixels : Int) ∧
    previous_stixel.x - current_stixel.x + (env.maximum_possible_motion_in_pixels : Int)
      ≤ 2 * (env.maximum_possible_motion_in_pixels : Int) := by
  unfold motionGate at h
  rw [toInt32_of_lt _ (by omega)] at h
  simp only [Bool.and_eq_true, decide_eq_true_eq] at h
  omega

theorem motionGate_iff (env : Env F) (current_stixel previous_stixel : Stixel F)
    (hlut : compute_maximum_pixelwise_motion_for_stixel env current_stixel < 2 ^ 31) :
    motionGate env current_stixel previous_stixel = true ↔
      |previous_stixel.x - current_stixel.x| ≤
        (compute_maximum_pixelwise_motion_for_stixel env current_stixel : Int) := by
  unfold motionGate
  rw [toInt32_of_lt _ hlut]
  simp only [Bool.and_eq_true, decide_eq_true_eq]
  rw [abs_le]

theorem writePair_flags (env : Env F) (row c : Nat) (cues : F × F × F × F × F)
    (st : CostState F) (r j : Nat) :
    (writePair env row c cues st).motion_cost_assignment_matrix r j = true ↔
      (r = row ∧ j = c) ∨ st.motion_cost_assignment_matrix r j = true := by
  simp only [writePair, setAt]
  by_cases h : r = row ∧ j = c
  · simp [h]
  · simp [h]

/-- The loop over previous stixels returns, and marks exactly the rows of the pairs that
pass the three gates. -/
theorem prevLoop_flags (env : Env F) (s_current : Nat) (current_stixel : Stixel F)
    (padding : Nat) (current_stixel_depth current_stixel_real_height : F)
    (hcol : s_current < env.cols)
    (hrows : 2 * env.maximum_possible_motion_in_pixels + 1 ≤ env.rows)
    (hlut : compute_maximum_pixelwise_motion_for_stixel env current_stixel
      ≤ env.maximum_possible_motion_in_pixels)
    (hmax : env.maximum_possible_motion_in_pixels < 2 ^ 31) :
    ∀ (previous_stixels : List (Stixel F)) (st : CostState F),
      ∃ st2, prevLoop env s_current current_stixel padding current_stixel_depth
          current_stixel_real_height previous_stixels st = some st2 ∧
        ∀ r j : Nat, st2.motion_cost_assignment_matrix r j = true ↔
          st.motion_cost_assignment_matrix r j = true ∨
          (j = s_current ∧ ∃ p ∈ previous_stixels,
            pairGates env current_stixel padding current_stixel_depth p = true ∧
            p.x - current_stixel.x + (env.maximum_possible_motion_in_pixels : Int) = (r : Int)) := by
  intro previous_stixels
  induction previous_stixels with
  | nil =>
    intro st
    exact ⟨st, rfl, fun r j => by simp⟩
  | cons p rest ih =>
    intro st
    simp only [prevLoop, pairStep_eq]
    by_cases hg : pairGates env current_stixel padding current_stixel_depth p = true
    · have hm : motionGate env current_stixel p = true := by
        unfold pairGates at hg
        simp only [Bool.and_eq_true] at hg
        exact hg.2
      obtain ⟨hr0, hr1⟩ := motionGate_row env current_stixel p hlut hmax hm
      have hrow : 0 ≤ p.x - current_stixel.x + (env.maximum_possible_motion_in_pixels : Int) ∧
          p.x - current_stixel.x + (env.maximum_possible_motion_in_pixels : Int)
            < (env.rows : Int) ∧ s_current < env.cols := ⟨hr0, by omega, hcol⟩
      rw [if_pos hg, if_pos hrow, Option.some_bind]
      obtain ⟨st2, h1, h2⟩ := ih (writePair env
        (p.x - current_stixel.x + (env.maximum_possible_motion_in_pixels : Int)).toNat s_current
        (cueValues env current_stixel p padding current_stixel_real_height) st)
      refine ⟨st2, h1, fun r j => ?_⟩
      rw [h2 r j, writePair_flags]
      constructor
      · rintro ((⟨h3, h4⟩ | h3) | ⟨h3, q, hq, h4⟩)
        · right
          refine ⟨h4, p, List.mem_cons_self _ _, hg, ?_⟩
          rw [h3, Int.toNat_of_nonneg hr0]
        · exact Or.inl h3
        · exact Or.inr ⟨h3, q, List.mem_cons_of_mem _ hq, h4⟩
      · rintro (h3 | ⟨h3, q, hq, h4, h5⟩)
        · exact Or.inl (Or.inr h3)
        · rcases List.mem_cons.mp hq with hqp | hq
          · subst hqp
            left; left
            refine ⟨?_, h3⟩
            have : ((q.x - current_stixel.x + (env.maximum_possible_motion_in_pixels : Int)).toNat : Int) = (r : Int) := by
              rw [Int.toNat_of_nonneg hr0, h5]
            exact_mod_cast this.symm
          · exact Or.inr ⟨h3, q, hq, h4, h5⟩
    · rw [if_neg hg, Option.some_bind]
      obtain ⟨st2, h1, h2⟩ := ih st
      refine ⟨st2, h1, fun r j => ?_⟩
      rw [h2 r j]
      constructor
      · rintro (h3 | ⟨h3, q, hq, h4⟩)
        · exact Or.inl h3
        · exact Or.inr ⟨h3, q, List.mem_cons_of_mem _ hq, h4⟩
      · rintro (h3 | ⟨h3, q, hq, h4, h5⟩)
        · exact Or.inl h3
        · rcases List.mem_cons.mp hq with hqp | hq
          · subst hqp
            exact absurd h4 hg
          · exact Or.inr ⟨h3, q, hq, h4, h5⟩

theorem currStep_eq (env : Env F) (previous_stixels : List (Stixel F)) (s_current : Nat)
    (current_stixel : Stixel F) (st : CostState F) :
    currStep env previous_stixels s_current current_stixel st =
      if horizontalPaddingOk current_stixel
          (env.compute_stixel_horizontal_padding current_stixel) env.current_image_width = true then
        if s_current < env.cols then
          prevLoop env s_current current_stixel
            (env.compute_stixel_horizontal_padding current_stixel) (stixelDepth env current_stixel)
            (env.compute_stixel_real_height current_stixel) previous_stixels
            { st with
              current_stixel_depths :=
                setVec st.current_stixel_depths s_current (stixelDepth env current_stixel)
              current_stixel_real_heights :=
                setVec st.current_stixel_real_heights s_current
                  (env.compute_stixel_real_height current_stixel) }
        else none
      else some st := by
  unfold currStep
  simp only

/-- The loop over current stixels returns, and marks exactly the entries `MarkedBy`
describes. -/
theorem currLoop_flags (env : Env F) (previous_stixels : List (Stixel F))
    (hrows : 2 * env.maximum_possible_motion_in_pixels + 1 ≤ env.rows)
    (hmax : env.maximum_possible_motion_in_pixels < 2 ^ 31) :
    ∀ (current_stixels : List (Stixel F)) (s_current : Nat) (st : CostState F),
      s_current + current_stixels.length ≤ env.cols →
      (∀ c ∈ current_stixels, compute_maximum_pixelwise_motion_for_stixel env c
        ≤ env.maximum_possible_motion_in_pixels) →
      ∃ st2, currLoop env previous_stixels s_current current_stixels st = some st2 ∧
        ∀ r j : Nat, st2.motion_cost_assignment_matrix r j = true ↔
          st.motion_cost_assignment_matrix r j = true ∨
          ∃ (k : Nat) (cur : Stixel F), current_stixels[k]? = some cur ∧ j = s_current + k ∧
            MarkedBy env previous_stixels cur r := by
  intro current_stixels
  induction current_stixels with
  | nil =>
    intro s_current st _ _
    exact ⟨st, rfl, fun r j => by simp⟩
  | cons cur rest ih =>
    intro s_current st hlen hlut
    simp only [List.length_cons] at hlen
    have hlut2 : ∀ c ∈ rest, compute_maximum_pixelwise_motion_for_stixel env c
        ≤ env.maximum_possible_motion_in_pixels :=
      fun c hc => hlut c (List.mem_cons_of_mem _ hc)
    simp only [currLoop, currStep_eq]
    by_cases hpad : horizontalPaddingOk cur (env.compute_stixel_horizontal_padding cur)
        env.current_image_width = true
    · have hcol : s_current < env.cols := by omega
      rw [if_pos hpad, if_pos hcol]
      obtain ⟨st1, h1, h2⟩ := prevLoop_flags env s_current cur
        (env.compute_stixel_horizontal_padding cur) (stixelDepth env cur)
        (env.compute_stixel_real_height cur) hcol hrows (hlut cur (List.mem_cons_self _ _)) hmax
        previous_stixels
        { st with
          current_stixel_depths := setVec st.current_stixel_depths s_current (stixelDepth env cur)
          current_stixel_real_heights :=
            setVec st.current_stixel_real_heights s_current (env.compute_stixel_real_height cur) }
      rw [h1, Option.some_bind]
      obtain ⟨st2, h3, h4⟩ := ih (s_current + 1) st1 (by omega) hlut2
      refine ⟨st2, h3, fun r j => ?_⟩
      rw [h4 r j, h2 r j]
      constructor
      · rintro ((h5 | ⟨h5, h6⟩) | ⟨k, c, hk, hj, hm⟩)
        · exact Or.inl h5
        · exact Or.inr ⟨0, cur, by simp, by omega, hpad, h6⟩
        · exact Or.inr ⟨k + 1, c, by simpa using hk, by omega, hm⟩
      · rintro (h5 | ⟨k, c, hk, hj, hm⟩)
        · exact Or.inl (Or.inl h5)
        · rcases k with _ | k
          · simp only [List.getElem?_cons_zero, Option.some.injEq] at hk
            subst hk
            exact Or.inl (Or.inr ⟨by omega, hm.2⟩)
          · exact Or.inr ⟨k, c, by simpa using hk, by omega, hm⟩
    · rw [if_neg hpad, Option.some_bind]
      obtain ⟨st2, h3, h4⟩ := ih (s_current + 1) st (by omega) hlut2
      refine ⟨st2, h3, fun r j => ?_⟩
      rw [h4 r j]
      constructor
      · rintro (h5 | ⟨k, c, hk, hj, hm⟩)
        · exact Or.inl h5
        · exact Or.inr ⟨k + 1, c, by simpa using hk, by omega, hm⟩
      · rintro (h5 | ⟨k, c, hk, hj, hm⟩)
        · exact Or.inl h5
        · rcases k with _ | k
          · simp only [List.getElem?_cons_zero, Option.some.injEq] at hk
            subst hk
            exact absurd hm.1 hpad
          · exact Or.inr ⟨k, c, by simpa using hk, by omega, hm⟩

theorem foldl_const_idem {α β : Type} (g : α → α) (hg : ∀ a, g (g a) = g a) :
    ∀ (l : List β) (a : α), l ≠ [] → l.foldl (fun acc _ => g acc) a = g a := by
  intro l
  induction l with
  | nil => intro a h; exact absurd rfl h
  | cons x rest ih =>
    intro a _
    simp only [List.foldl_cons]
    by_cases hr : rest = []
    · subst hr; rfl
    · rw [ih (g a) hr, hg]

/-- The inner loop of lines 407-412 over the columns `js`. -/
theorem lastRow_inner (R : Nat) :
    ∀ (js : List Nat) (acc : CostState F),
      js.foldl
        (fun acc2 j =>
          { acc2 with
            motion_cost_matrix := setAt acc2.motion_cost_matrix R j acc2.deletion_cost_dp
            motion_cost_assignment_matrix :=
              setAt acc2.motion_cost_assignment_matrix R j true }) acc =
      { acc with
        motion_cost_matrix := fun i j =>
          if i = R ∧ j ∈ js then acc.deletion_cost_dp else acc.motion_cost_matrix i j
        motion_cost_assignment_matrix := fun i j =>
          if i = R ∧ j ∈ js then true else acc.motion_cost_assignment_matrix i j } := by
  intro js
  induction js with
  | nil => intro acc; simp
  | cons j0 rest ih =>
    intro acc
    rw [List.foldl_cons, ih]
    congr 1
    · funext i j
      simp only [setAt, List.mem_cons]
      by_cases h1 : i = R
      · by_cases h2 : j ∈ rest
        · simp [h1, h2]
        · by_cases h3 : j = j0
          · simp [h1, h3]
          · simp [h1, h2, h3]
      · simp [h1]
    · funext i j
      simp only [setAt, List.mem_cons]
      by_cases h1 : i = R
      · by_cases h2 : j ∈ rest
        · simp [h1, h2]
        · by_cases h3 : j = j0
          · simp [h1, h3]
          · simp [h1, h2, h3]
      · simp [h1]

/-- Closed form of lines 405-413. -/
theorem fillLastRow_eq (env : Env F) (st : CostState F) :
    fillLastRow env st =
      { st with
        motion_cost_matrix := fun i j =>
          if i = env.rows - 1 ∧ j < env.cols then st.deletion_cost_dp
          else st.motion_cost_matrix i j
        motion_cost_assignment_matrix := fun i j =>
          if i = env.rows - 1 ∧ j < env.cols then true
          else st.motion_cost_assignment_matrix i j } := by
  unfold fillLastRow
  simp only [lastRow_inner]
  by_cases hc : env.cols = 0
  · simp [hc]
  · rw [foldl_const_idem
      (fun acc : CostState F =>
        { acc with
          motion_cost_matrix := fun i j =>
            if i = env.rows - 1 ∧ j ∈ List.range env.cols then acc.deletion_cost_dp
            else acc.motion_cost_matrix i j
          motion_cost_assignment_matrix := fun i j =>
            if i = env.rows - 1 ∧ j ∈ List.range env.cols then true
            else acc.motion_cost_assignment_matrix i j })
      (by
        intro a
        dsimp only
        congr 1
        · funext i j
          by_cases h : i = env.rows - 1 ∧ j ∈ List.range env.cols
          · rw [if_pos h, if_pos h]
          · rw [if_neg h, if_neg h]
        · funext i j
          by_cases h : i = env.rows - 1 ∧ j ∈ List.range env.cols
          · rw [if_pos h, if_pos h]
          · rw [if_neg h, if_neg h])
      (List.range env.cols) st (by simp [hc])]
    simp only [List.mem_range]

/-- The inner loop of lines 423-430 for row `i` over the columns `js`. -/
theorem infeasible_inner (penalty : F) (i : Nat) :
    ∀ (js : List Nat) (acc : CostState F),
      js.foldl
        (fun acc2 j =>
          if acc2.motion_cost_assignment_matrix i j = false then
            { acc2 with motion_cost_matrix := setAt acc2.motion_cost_matrix i j penalty }
          else acc2) acc =
      { acc with
        motion_cost_matrix := fun a b =>
          if a = i ∧ b ∈ js ∧ acc.motion_cost_assignment_matrix a b = false then penalty
          else acc.motion_cost_matrix a b } := by
  intro js
  induction js with
  | nil => intro acc; simp
  | cons j0 rest ih =>
    intro acc
    rw [List.foldl_cons, ih]
    by_cases hf : acc.motion_cost_assignment_matrix i j0 = false
    · rw [if_pos hf]
      congr 1
      funext a b
      simp only [setAt, List.mem_cons]
      by_cases h1 : a = i
      · by_cases h3 : b = j0
        · subst h1; subst h3
          simp [hf]
        · simp [h1, h3]
      · simp [h1]
    · rw [if_neg hf]
      congr 1
      funext a b
      simp only [List.mem_cons]
      by_cases h1 : a = i
      · by_cases h3 : b = j0
        · subst h1; subst h3
          simp [hf]
        · simp [h1, h3]
      · simp [h1]

theorem infeasible_outer (penalty : F) (js : List Nat) :
    ∀ (rowsList : List Nat) (acc : CostState F),
      rowsList.foldl
        (fun acc1 i =>
          js.foldl
            (fun acc2 j =>
              if acc2.motion_cost_assignment_matrix i j = false then
                { acc2 with motion_cost_matrix := setAt acc2.motion_cost_matrix i j penalty }
              else acc2) acc1) acc =
      { acc with
        motion_cost_matrix := fun a b =>
          if a ∈ rowsList ∧ b ∈ js ∧ acc.motion_cost_assignment_matrix a b = false then penalty
          else acc.motion_cost_matrix a b } := by
  intro rowsList
  induction rowsList with
  | nil => intro acc; simp
  | cons i0 rest ih =>
    intro acc
    rw [List.foldl_cons, infeasible_inner, ih]
    congr 1
    funext a b
    simp only [List.mem_cons]
    by_cases h3 : a = i0
    · subst h3
      by_cases hb : b ∈ js <;> by_cases hfl : acc.motion_cost_assignment_matrix a b = false <;>
        by_cases h1 : a ∈ rest <;> simp [hb, hfl, h1]
    · by_cases hb : b ∈ js <;> by_cases hfl : acc.motion_cost_assignment_matrix a b = false <;>
        by_cases h1 : a ∈ rest <;> simp [hb, hfl, h1, h3]

/-- Closed form of lines 419-431. -/
theorem fillInfeasible_eq (env : Env F) (maximum_cost_matrix_element : F) (st : CostState F) :
    fillInfeasible env maximum_cost_matrix_element st =
      { st with
        motion_cost_matrix := fun i j =>
          if i < env.rows ∧ j < env.cols ∧ st.motion_cost_assignment_matrix i j = false then
            env.ops.mulLit 12 10 maximum_cost_matrix_element
          else st.motion_cost_matrix i j } := by
  unfold fillInfeasible
  rw [infeasible_outer]
  simp only [List.mem_range]

theorem finishCosts_flags (env : Env F) (st : CostState F) (r c : Nat) :
    (finishCosts env st).motion_cost_assignment_matrix r c =
      if r = env.rows - 1 ∧ c < env.cols then true
      else st.motion_cost_assignment_matrix r c := by
  unfold finishCosts
  simp only [fillInfeasible_eq, fillLastRow_eq]

theorem finishCosts_cost (env : Env F) (st : CostState F) (r c : Nat)
    (hr : r ≠ env.rows - 1) (hf : st.motion_cost_assignment_matrix r c = true) :
    (finishCosts env st).motion_cost_matrix r c = st.motion_cost_matrix r c := by
  unfold finishCosts
  simp only [fillInfeasible_eq, fillLastRow_eq]
  simp [hr, hf]

theorem finishCosts_combine (env : Env F) (st : CostState F) :
    combineCosts env (finishCosts env st) = combineCosts env st := by
  unfold finishCosts
  simp only [fillInfeasible_eq, fillLastRow_eq]
  rfl

theorem rescaleAndCombine_flags (env : Env F) (st : CostState F) :
    (rescaleAndCombine env st).motion_cost_assignment_matrix =
      st.motion_cost_assignment_matrix := rfl

theorem rescaleAndCombine_cost (env : Env F) (st : CostState F) :
    (rescaleAndCombine env st).motion_cost_matrix =
      combineCosts env (rescaleAndCombine env st) := rfl

/-- When the assertion holds and the matrices are allocated for the inputs, the function
returns; the entries the loops mark are those `MarkedBy` describes. -/
theorem compute_motion_cost_matrix_returns (env : Env F)
    (previous_stixels current_stixels : List (Stixel F)) (st : CostState F)
    (hassert : weightsAssertion env = true)
    (hrows : env.rows = 2 * env.maximum_possible_motion_in_pixels + 2)
    (hcols : current_stixels.length ≤ env.cols) (hc0 : 0 < env.cols)
    (hlut : ∀ c ∈ current_stixels, compute_maximum_pixelwise_motion_for_stixel env c
      ≤ env.maximum_possible_motion_in_pixels)
    (hmax : env.maximum_possible_motion_in_pixels < 2 ^ 31) :
    ∃ filled, compute_motion_cost_matrix env previous_stixels current_stixels st =
        some (finishCosts env (rescaleAndCombine env filled)) ∧
      ∀ r j : Nat, filled.motion_cost_assignment_matrix r j = true ↔
        ∃ cur, current_stixels[j]? = some cur ∧ MarkedBy env previous_stixels cur r := by
  obtain ⟨filled, h1, h2⟩ := currLoop_flags env previous_stixels (by omega) hmax current_stixels 0
    (resetState env st) (by omega) hlut
  refine ⟨filled, ?_, fun r j => ?_⟩
  · unfold compute_motion_cost_matrix
    rw [if_pos hassert, h1, Option.some_bind, if_pos ⟨by omega, hc0⟩]
  · rw [h2 r j]
    constructor
    · rintro (h3 | ⟨k, cur, hk, hj, hm⟩)
      · simp [resetState] at h3
      · exact ⟨cur, by rw [hj, Nat.zero_add]; exact hk, hm⟩
    · rintro ⟨cur, hk, hm⟩
      exact Or.inr ⟨j, cur, hk, by omega, hm⟩

/-- C8: when the assertion on the weights holds, the matrices have the dimensions the tracker
allocates (two rows more than twice the maximal shift, a column per current stixel) and the
lookup table stays below the maximal shift, `compute_motion_cost_matrix` returns and, for every current column `c` and
every row `r` other than the last one, the flag `motion_cost_assignment_matrix(r, c)` is
true exactly when stixel `c` passes the horizontal-bounds test of the code and some previous
stixel `p` passes that test too (with the padding of `c`), has a depth difference below 1.0
(in machine arithmetic), has `|p.x - c.x|` at most the lookup value of `c`, and has
`p.x - c.x + maximum_possible_motion_in_pixels = r`. -/
theorem assignment_matrix_iff (env : Env F)
    (previous_stixels current_stixels : List (Stixel F)) (st : CostState F)
    (hassert : weightsAssertion env = true)
    (hrows : env.rows = 2 * env.maximum_possible_motion_in_pixels + 2)
    (hcols : current_stixels.length ≤ env.cols) (hc0 : 0 < env.cols)
    (hlut : ∀ c ∈ current_stixels, compute_maximum_pixelwise_motion_for_stixel env c
      ≤ env.maximum_possible_motion_in_pixels)
    (hmax : env.maximum_possible_motion_in_pixels < 2 ^ 31) :
    ∃ final, compute_motion_cost_matrix env previous_stixels current_stixels st = some final ∧
      ∀ (c : Nat) (cur : Stixel F) (r : Nat), current_stixels[c]? = some cur →
        r < env.rows - 1 →
        (final.motion_cost_assignment_matrix r c = true ↔
          horizontalPaddingOk cur (env.compute_stixel_horizontal_padding cur)
            env.current_image_width = true ∧
          ∃ p ∈ previous_stixels,
            horizontalPaddingOk p (env.compute_stixel_horizontal_padding cur)
              env.previous_image_width = true ∧
            env.ops.lt (env.ops.fabs (env.ops.sub (stixelDepth env cur) (stixelDepth env p)))
              (env.ops.lit 1 1) = true ∧
            |p.x - cur.x| ≤ (env.m_maximal_pixelwise_motion_by_disp cur.disparity : Int) ∧
            p.x - cur.x + (env.maximum_possible_motion_in_pixels : Int) = (r : Int)) := by
  obtain ⟨filled, h1, h2⟩ := compute_motion_cost_matrix_returns env previous_stixels
    current_stixels st hassert hrows hcols hc0 hlut hmax
  refine ⟨_, h1, fun c cur r hc hr => ?_⟩
  have hne : ¬ (r = env.rows - 1 ∧ c < env.cols) := by omega
  rw [finishCosts_flags, if_neg hne, rescaleAndCombine_flags, h2 r c]
  have hl := hlut cur (List.mem_iff_getElem?.mpr ⟨c, hc⟩)
  have hgate : ∀ p : Stixel F,
      pairGates env cur (env.compute_stixel_horizontal_padding cur) (stixelDepth env cur) p = true ↔
        horizontalPaddingOk p (env.compute_stixel_horizontal_padding cur)
          env.previous_image_width = true ∧
        env.ops.lt (env.ops.fabs (env.ops.sub (stixelDepth env cur) (stixelDepth env p)))
          (env.ops.lit 1 1) = true ∧
        |p.x - cur.x| ≤ (env.m_maximal_pixelwise_motion_by_disp cur.disparity : Int) := by
    intro p
    unfold pairGates
    rw [Bool.and_eq_true, Bool.and_eq_true, motionGate_iff env cur p (by omega), and_assoc]
    rfl
  constructor
  · rintro ⟨cur2, hc2, hpad, p, hp, hg, hrow⟩
    rw [hc] at hc2
    simp only [Option.some.injEq] at hc2
    subst hc2
    obtain ⟨g1, g2, g3⟩ := (hgate p).mp hg
    exact ⟨hpad, p, hp, g1, g2, g3, hrow⟩
  · rintro ⟨hpad, p, hp, g1, g2, g3, hrow⟩
    exact ⟨cur, hc, hpad, p, hp, (hgate p).mpr ⟨g1, g2, g3⟩, hrow⟩

/-- C10: when the assertion on the weights holds and the matrices have the dimensions the
tracker allocates (as for C8), `compute_motion_cost_matrix` returns; an entry `(r, c)` of a
row other than the last one is marked feasible exactly when some previous stixel passes the
gates at shift row `r` for the current stixel of column `c`, and every entry `(r, c)` of
such a row that is marked feasible holds the weighted sum of the five final component
matrices at `(r, c)`, evaluated in machine arithmetic in the order of lines 333-337. -/
theorem motion_cost_is_weighted_sum (env : Env F)
    (previous_stixels current_stixels : List (Stixel F)) (st : CostState F)
    (hassert : weightsAssertion env = true)
    (hrows : env.rows = 2 * env.maximum_possible_motion_in_pixels + 2)
    (hcols : current_stixels.length ≤ env.cols) (hc0 : 0 < env.cols)
    (hlut : ∀ c ∈ current_stixels, compute_maximum_pixelwise_motion_for_stixel env c
      ≤ env.maximum_possible_motion_in_pixels)
    (hmax : env.maximum_possible_motion_in_pixels < 2 ^ 31) :
    ∃ final, compute_motion_cost_matrix env previous_stixels current_stixels st = some final ∧
      (∀ r c : Nat, r < env.rows - 1 →
        (final.motion_cost_assignment_matrix r c = true ↔
          ∃ cur, current_stixels[c]? = some cur ∧ MarkedBy env previous_stixels cur r)) ∧
      ∀ r c : Nat, r < env.rows - 1 → final.motion_cost_assignment_matrix r c = true →
        final.motion_cost_matrix r c =
          env.ops.add
            (env.ops.add
              (env.ops.add
                (env.ops.add (env.ops.mul env.m_sad_factor (final.pixelwise_sad_matrix r c))
                  (env.ops.mul env.m_height_factor (final.real_height_differences_matrix r c)))
                (env.ops.mul env.m_polar_dist_factor (final.m_stixelsPolarDistMatrix r c)))
              (env.ops.mul env.m_polar_sad_factor (final.m_polarSADMatrix r c)))
            (env.ops.mul env.m_dense_tracking_factor (final.m_denseTrackingMatrix r c)) := by
  obtain ⟨filled, h1, h2⟩ := compute_motion_cost_matrix_returns env previous_stixels
    current_stixels st hassert hrows hcols hc0 hlut hmax
  refine ⟨_, h1, fun r c hr => ?_, fun r c hr hf => ?_⟩
  · have hne : ¬ (r = env.rows - 1 ∧ c < env.cols) := by omega
    rw [finishCosts_flags, if_neg hne, rescaleAndCombine_flags, h2 r c]
  · have hne : ¬ (r = env.rows - 1 ∧ c < env.cols) := by omega
    rw [finishCosts_flags, if_neg hne] at hf
    rw [finishCosts_cost env _ r c (by omega) hf, rescaleAndCombine_cost]
    show combineCosts env (rescaleAndCombine env filled) r c =
      combineCosts env (finishCosts env (rescaleAndCombine env filled)) r c
    rw [finishCosts_combine]

/-- Witness of C8: `exStixels` against itself in the configuration `exEnv`. -/
theorem assignment_matrix_iff_witness :
    weightsAssertion exEnv = true ∧
    exEnv.rows = 2 * exEnv.maximum_possible_motion_in_pixels + 2 ∧
    exStixels.length ≤ exEnv.cols ∧ 0 < exEnv.cols ∧
    (∀ c ∈ exStixels, compute_maximum_pixelwise_motion_for_stixel exEnv c
      ≤ exEnv.maximum_possible_motion_in_pixels) ∧
    exEnv.maximum_possible_motion_in_pixels < 2 ^ 31 ∧
    ∃ final, compute_motion_cost_matrix exEnv exStixels exStixels exOldState = some final ∧
      ∀ (c : Nat) (cur : Stixel Int) (r : Nat), exStixels[c]? = some cur →
        r < exEnv.rows - 1 →
        (final.motion_cost_assignment_matrix r c = true ↔
          horizontalPaddingOk cur (exEnv.compute_stixel_horizontal_padding cur)
            exEnv.current_image_width = true ∧
          ∃ p ∈ exStixels,
            horizontalPaddingOk p (exEnv.compute_stixel_horizontal_padding cur)
              exEnv.previous_image_width = true ∧
            exEnv.ops.lt
              (exEnv.ops.fabs (exEnv.ops.sub (stixelDepth exEnv cur) (stixelDepth exEnv p)))
              (exEnv.ops.lit 1 1) = true ∧
            |p.x - cur.x| ≤ (exEnv.m_maximal_pixelwise_motion_by_disp cur.disparity : Int) ∧
            p.x - cur.x + (exEnv.maximum_possible_motion_in_pixels : Int) = (r : Int)) :=
  ⟨by decide, by decide, by decide, by decide, fun _ _ => Nat.le_refl _, by decide,
    assignment_matrix_iff exEnv exStixels exStixels exOldState (by decide) (by decide)
      (by decide) (by decide) (fun _ _ => Nat.le_refl _) (by decide)⟩

set_option maxRecDepth 100000 in
/-- Witness of C10: a run in binary32 arithmetic (`exEnvF`, weights 0.5, 0.25, 0, 0, 0.25)
of `exPrevF` against `exCurrF`, in which no maximum is zero.  The entries `(0, 1)`, `(1, 0)`,
`(1, 1)` and `(2, 0)` are marked feasible and `(0, 0)`, `(2, 1)` are not; `(1, 0)` costs
`0.5 * 10 = 5`, `(1, 1)` costs `0.5 * 10 + 0.25 * 255 = 68.75` and `(2, 0)`, whose pixelwise
SAD is `10 + 2 ^ (-20)`, costs 68.75 as well, the sum being rounded to 24 bits. -/
theorem motion_cost_is_weighted_sum_witness :
    weightsAssertion exEnvF = true ∧
    exEnvF.rows = 2 * exEnvF.maximum_possible_motion_in_pixels + 2 ∧
    exCurrF.length ≤ exEnvF.cols ∧ 0 < exEnvF.cols ∧
    (∀ c ∈ exCurrF, compute_maximum_pixelwise_motion_for_stixel exEnvF c
      ≤ exEnvF.maximum_possible_motion_in_pixels) ∧
    exEnvF.maximum_possible_motion_in_pixels < 2 ^ 31 ∧
    (∃ final, compute_motion_cost_matrix exEnvF exPrevF exCurrF exOldStateF = some final ∧
      (∀ r c : Nat, r < exEnvF.rows - 1 →
        (final.motion_cost_assignment_matrix r c = true ↔
          ∃ cur, exCurrF[c]? = some cur ∧ MarkedBy exEnvF exPrevF cur r)) ∧
      ∀ r c : Nat, r < exEnvF.rows - 1 → final.motion_cost_assignment_matrix r c = true →
        final.motion_cost_matrix r c =
          exEnvF.ops.add
            (exEnvF.ops.add
              (exEnvF.ops.add
                (exEnvF.ops.add
                  (exEnvF.ops.mul exEnvF.m_sad_factor (final.pixelwise_sad_matrix r c))
                  (exEnvF.ops.mul exEnvF.m_height_factor
                    (final.real_height_differences_matrix r c)))
                (exEnvF.ops.mul exEnvF.m_polar_dist_factor
                  (final.m_stixelsPolarDistMatrix r c)))
              (exEnvF.ops.mul exEnvF.m_polar_sad_factor (final.m_polarSADMatrix r c)))
            (exEnvF.ops.mul exEnvF.m_dense_tracking_factor
              (final.m_denseTrackingMatrix r c))) ∧
    (compute_motion_cost_matrix exEnvF exPrevF exCurrF exOldStateF).map
      (fun final =>
        ([final.motion_cost_assignment_matrix 0 0, final.motion_cost_assignment_matrix 0 1,
          final.motion_cost_assignment_matrix 1 0, final.motion_cost_assignment_matrix 1 1,
          final.motion_cost_assignment_matrix 2 0, final.motion_cost_assignment_matrix 2 1],
         [final.motion_cost_matrix 0 1, final.motion_cost_matrix 1 0,
          final.motion_cost_matrix 1 1, final.motion_cost_matrix 2 0],
         [final.pixelwise_sad_matrix 1 0, final.real_height_differences_matrix 1 0,
          final.m_stixelsPolarDistMatrix 1 0, final.m_polarSADMatrix 1 0,
          final.m_denseTrackingMatrix 1 0],
         [final.pixelwise_sad_matrix 2 0, final.real_height_differences_matrix 2 0,
          final.m_stixelsPolarDistMatrix 2 0, final.m_polarSADMatrix 2 0,
          final.m_denseTrackingMatrix 2 0])) =
      some ([false, true, true, true, true, false],
        [{ m := 10485761, e := -21 }, { m := 5, e := 0 }, { m := 275, e := -2 },
          { m := 275, e := -2 }],
        [{ m := 5, e := 1 }, { m := 0, e := 0 }, { m := 255, e := 0 }, { m := 255, e := 0 },
          { m := 0, e := 0 }],
        [{ m := 10485761, e := -20 }, { m := 255, e := 0 }, { m := 255, e := 0 },
          { m := 255, e := 0 }, { m := 0, e := 0 }]) :=
  ⟨by decide, by decide, by decide, by decide, fun _ _ => Nat.le_refl _, by decide,
    motion_cost_is_weighted_sum exEnvF exPrevF exCurrF exOldStateF (by decide) (by decide)
      (by decide) (by decide) (fun _ _ => Nat.le_refl _) (by decide),
    by decide⟩

set_option maxRecDepth 100000 in
/-- In the binary32 run of `exPrevF` against `exCurrF` the three maxima by which lines 318,
321 and 329 divide are 1 (height differences), 3 (dense tracking) and 1 (polar distances):
no division by zero occurs in that run. -/
theorem exRunF_maxima :
    (currLoop exEnvF exPrevF 0 exCurrF (resetState exEnvF exOldStateF)).map
      (fun filled =>
        [maxCoeff exEnvF.ops exEnvF.rows exEnvF.cols filled.real_height_differences_matrix,
          maxCoeff exEnvF.ops exEnvF.rows exEnvF.cols filled.m_denseTrackingMatrix,
          maxCoeff exEnvF.ops exEnvF.rows exEnvF.cols filled.m_stixelsPolarDistMatrix]) =
      some [{ m := 1, e := 0 }, { m := 3, e := 0 }, { m := 1, e := 0 }] := by
  decide

/-- C9 (the defect): the first comparison of the bounds test is made in unsigned arithmetic
and never fails, so the test reduces to the right-hand comparison.  A stixel in column 0 of
width 1 with padding 1 has its padded left edge at -1, yet (as current and as previous
stixel, image 10 pixels wide) it is not skipped: the entry of shift 0 in its column is
marked feasible, the polar SAD component of that entry is written (255 instead of the 0 of
an entry that is left alone) and its depth (20) is stored. -/
theorem padding_check_negative_left_edge :
    (∀ (s : Stixel Int) (padding imageWidth : Nat),
      horizontalPaddingOk s padding imageWidth =
        decide (toUInt32 (s.x + Int.tdiv (s.width - 1) 2 + (padding : Int)) < imageWidth)) ∧
    (exStixel 0).x - Int.tdiv ((exStixel 0).width - 1) 2 -
      (exEnvPadded.compute_stixel_horizontal_padding (exStixel 0) : Int) = -1 ∧
    (compute_motion_cost_matrix exEnvPadded [exStixel 0] [exStixel 0] exOldState).map
      (fun final =>
        (final.motion_cost_assignment_matrix 1 0, final.m_polarSADMatrix 1 0,
          final.m_polarSADMatrix 0 0, final.current_stixel_depths 0)) =
      some (true, 255000, 0, 20000) := by
  refine ⟨fun s padding imageWidth => ?_, by decide, by decide⟩
  simp [horizontalPaddingOk]

end CostTheorems

/-! ## Binary32 arithmetic: the value of a record, rounding and the order -/

section Binary32Theorems

theorem bitLength_zero (fuel : Nat) : bitLength fuel 0 = 0 := by
  cases fuel <;> simp [bitLength]

/-- With enough fuel `bitLength` is the number of binary digits: `2 ^ (b - 1) ≤ n < 2 ^ b`. -/
theorem bitLength_spec : ∀ (fuel n : Nat), n ≤ fuel →
    n < 2 ^ bitLength fuel n ∧ (0 < n → 2 ^ (bitLength fuel n - 1) ≤ n) := by
  intro fuel
  induction fuel with
  | zero =>
    intro n hn
    have h0 : n = 0 := by omega
    subst h0
    simp [bitLength]
  | succ fuel ih =>
    intro n hn
    by_cases h0 : n = 0
    · subst h0
      simp [bitLength]
    · obtain ⟨h1, h2⟩ := ih (n / 2) (by omega)
      have hb : bitLength (fuel + 1) n = bitLength fuel (n / 2) + 1 := by
        simp [bitLength, h0]
      rw [hb, Nat.add_sub_cancel, pow_succ]
      refine ⟨by omega, fun _ => ?_⟩
      by_cases hh : n / 2 = 0
      · rw [hh, bitLength_zero]
        simp
        omega
      · have h3 := h2 (by omega)
        have h4 : 1 ≤ bitLength fuel (n / 2) := by
          by_contra hc
          have : bitLength fuel (n / 2) = 0 := by omega
          rw [this] at h1
          simp at h1
          exact hh h1
        obtain ⟨b, hb2⟩ : ∃ b, bitLength fuel (n / 2) = b + 1 := ⟨_, (Nat.sub_add_cancel h4).symm⟩
        rw [hb2] at h3 ⊢
        rw [Nat.add_sub_cancel] at h3
        rw [pow_succ]
        omega

theorem trailingZeros_dvd : ∀ (fuel n : Nat), 2 ^ trailingZeros fuel n ∣ n := by
  intro fuel
  induction fuel with
  | zero => intro n; simp [trailingZeros]
  | succ fuel ih =>
    intro n
    by_cases h : n = 0 ∨ n % 2 = 1
    · simp [trailingZeros, h]
    · have ht : trailingZeros (fuel + 1) n = trailingZeros fuel (n / 2) + 1 := by
        simp only [trailingZeros, if_neg h]
      rw [ht, pow_succ]
      obtain ⟨c, hc⟩ := ih (n / 2)
      refine ⟨c, ?_⟩
      have h2 : n = 2 * (n / 2) := by omega
      calc n = 2 * (n / 2) := h2
        _ = 2 * (2 ^ trailingZeros fuel (n / 2) * c) := by rw [← hc]
        _ = 2 ^ trailingZeros fuel (n / 2) * 2 * c := by ring

theorem roundShift_zero (n : Nat) : roundShift n 0 = n := by
  simp [roundShift, Nat.mod_one]

/-- Rounding to nearest loses at most half a unit: at most `n / 2 ^ p` when `n` has `k + p`
binary digits or more. -/
theorem roundShift_lower (n k p : Nat) (h : 2 ^ k * 2 ^ p ≤ 2 * n) :
    n * 2 ^ p ≤ roundShift n k * 2 ^ k * 2 ^ p + n := by
  have hn : 2 ^ k * (n / 2 ^ k) + n % 2 ^ k = n := Nat.div_add_mod n (2 ^ k)
  have hr : n % 2 ^ k < 2 ^ k := Nat.mod_lt _ (by positivity)
  have key : ∀ q : Nat, n / 2 ^ k + 1 ≤ q → n * 2 ^ p ≤ q * 2 ^ k * 2 ^ p + n := by
    intro q hq
    have h1 : n ≤ q * 2 ^ k := by
      calc n = 2 ^ k * (n / 2 ^ k) + n % 2 ^ k := hn.symm
        _ ≤ 2 ^ k * (n / 2 ^ k) + 2 ^ k := by omega
        _ = (n / 2 ^ k + 1) * 2 ^ k := by ring
        _ ≤ q * 2 ^ k := Nat.mul_le_mul_right _ hq
    have h2 := Nat.mul_le_mul_right (2 ^ p) h1
    omega
  have low : 2 * (n % 2 ^ k) ≤ 2 ^ k → n * 2 ^ p ≤ n / 2 ^ k * 2 ^ k * 2 ^ p + n := by
    intro hlow
    have h1 : 2 * (n % 2 ^ k) * 2 ^ p ≤ 2 ^ k * 2 ^ p := Nat.mul_le_mul_right _ hlow
    have h2 : n * 2 ^ p = n / 2 ^ k * 2 ^ k * 2 ^ p + n % 2 ^ k * 2 ^ p := by
      conv_lhs => rw [← hn]
      ring
    have h3 : 2 * (n % 2 ^ k) * 2 ^ p = 2 * (n % 2 ^ k * 2 ^ p) := by ring
    omega
  unfold roundShift
  simp only []
  split_ifs with c1 c2 c3
  · exact low (by omega)
  · exact key _ (le_refl _)
  · exact low (by omega)
  · exact key _ (le_refl _)

theorem roundTo_lower_nat (n p : Nat) (hp : 1 ≤ p) :
    n * 2 ^ p ≤
      roundShift n (bitLength n n - p) * 2 ^ (bitLength n n - p) * 2 ^ p + n := by
  by_cases hk : bitLength n n ≤ p
  · have : bitLength n n - p = 0 := by omega
    rw [this, roundShift_zero]
    simp
  · apply roundShift_lower
    obtain ⟨_, h2⟩ := bitLength_spec n n (le_refl _)
    have hpos : 0 < n := by
      rcases Nat.eq_zero_or_pos n with h | h
      · subst h; simp [bitLength_zero] at hk
      · exact h
    have h3 := h2 hpos
    rw [← pow_add]
    have : bitLength n n - p + p = (bitLength n n - 1) + 1 := by omega
    rw [this, pow_succ]
    omega

/-- The value of a rounded number is the rounded significand at the shifted exponent. -/
theorem F32.val_roundTo (p : Nat) (m e : Int) (hm : 0 ≤ m) :
    F32.val (F32.roundTo p m e) =
      (roundShift m.natAbs (bitLength m.natAbs m.natAbs - p) : ℚ) *
        (2 : ℚ) ^ (e + ((bitLength m.natAbs m.natAbs - p : Nat) : Int)) := by
  unfold F32.roundTo
  simp only []
  by_cases hq : roundShift m.natAbs (bitLength m.natAbs m.natAbs - p) = 0
  · rw [if_pos hq, hq]
    simp [F32.val]
  · rw [if_neg hq, if_neg (not_lt.mpr hm)]
    simp only [F32.val, one_mul]
    obtain ⟨c, hc⟩ := trailingZeros_dvd
      (roundShift m.natAbs (bitLength m.natAbs m.natAbs - p))
      (roundShift m.natAbs (bitLength m.natAbs m.natAbs - p))
    generalize trailingZeros (roundShift m.natAbs (bitLength m.natAbs m.natAbs - p))
      (roundShift m.natAbs (bitLength m.natAbs m.natAbs - p)) = z at hc ⊢
    generalize roundShift m.natAbs (bitLength m.natAbs m.natAbs - p) = q at hc hq ⊢
    generalize bitLength m.natAbs m.natAbs - p = k
    have hz : q / 2 ^ z = c := by
      rw [hc]; exact Nat.mul_div_cancel_left c (by positivity)
    rw [hz, hc, zpow_add₀ (by norm_num : (2 : ℚ) ≠ 0), zpow_natCast]
    push_cast
    ring

theorem F32.roundTo_m_nonneg (p : Nat) (m e : Int) (hm : 0 ≤ m) :
    0 ≤ (F32.roundTo p m e).m := by
  unfold F32.roundTo
  simp only []
  split_ifs
  · exact le_refl _
  · exact absurd hm (by omega)
  · exact Int.mul_nonneg (by norm_num) (Int.ofNat_nonneg _)

/-- Rounding to `p` bits lowers a value that is not negative by the factor `1 - 2 ^ (-p)` at
most. -/
theorem F32.roundTo_lower (p : Nat) (m e : Int) (hm : 0 ≤ m) (hp : 1 ≤ p) :
    (m : ℚ) * (2 : ℚ) ^ e * ((2 : ℚ) ^ p - 1) ≤ F32.val (F32.roundTo p m e) * (2 : ℚ) ^ p := by
  rw [F32.val_roundTo p m e hm]
  have h := roundTo_lower_nat m.natAbs p hp
  have hcast : ((m.natAbs : Nat) : ℚ) = (m : ℚ) := by
    rw [Nat.cast_natAbs, abs_of_nonneg hm]
  generalize roundShift m.natAbs (bitLength m.natAbs m.natAbs - p) = q at h ⊢
  generalize bitLength m.natAbs m.natAbs - p = k at h ⊢
  have h2 : ((m.natAbs : Nat) : ℚ) * 2 ^ p ≤ (q : ℚ) * 2 ^ k * 2 ^ p + (m.natAbs : ℚ) := by
    exact_mod_cast h
  rw [hcast] at h2
  have he : (0 : ℚ) < (2 : ℚ) ^ e := zpow_pos (by norm_num) e
  rw [zpow_add₀ (by norm_num : (2 : ℚ) ≠ 0), zpow_natCast]
  have h3 : (m : ℚ) * ((2 : ℚ) ^ p - 1) ≤ (q : ℚ) * 2 ^ k * 2 ^ p := by linarith
  calc (m : ℚ) * (2 : ℚ) ^ e * ((2 : ℚ) ^ p - 1)
      = ((m : ℚ) * ((2 : ℚ) ^ p - 1)) * (2 : ℚ) ^ e := by ring
    _ ≤ ((q : ℚ) * 2 ^ k * 2 ^ p) * (2 : ℚ) ^ e := mul_le_mul_of_nonneg_right h3 (le_of_lt he)
    _ = (q : ℚ) * ((2 : ℚ) ^ e * 2 ^ k) * 2 ^ p := by ring

set_option maxRecDepth 100000 in
/-- The `double` literal `1.2` is `5404319552844595 * 2 ^ (-52)`. -/
theorem F32.literalTo_12_10 :
    F32.literalTo 53 12 10 = { m := 5404319552844595, e := -52 } := by
  decide

theorem F32.val_pos_iff (x : F32) : 0 < F32.val x ↔ 0 < x.m := by
  unfold F32.val
  have he : (0 : ℚ) < (2 : ℚ) ^ x.e := zpow_pos (by norm_num) x.e
  constructor
  · intro h
    have : (0 : ℚ) < (x.m : ℚ) := by
      by_contra hc
      have h2 : (x.m : ℚ) ≤ 0 := not_lt.mp hc
      have := mul_nonpos_of_nonpos_of_nonneg h2 (le_of_lt he)
      linarith
    exact_mod_cast this
  · intro h
    have : (0 : ℚ) < (x.m : ℚ) := by exact_mod_cast h
    exact mul_pos this he

/-- The product `1.2 * x` of line 427 (taken in `double`, stored as `float`) is above `x`
when `x` is above zero. -/
theorem F32.mulLit_gt (x : F32) (hx : 0 < F32.val x) :
    F32.val x < F32.val (F32.mulLit 12 10 x) := by
  have hm : 0 < x.m := (F32.val_pos_iff x).mp hx
  unfold F32.mulLit
  rw [F32.literalTo_12_10]
  simp only []
  have hprod : (0 : Int) ≤ 5404319552844595 * x.m := by positivity
  have h1 := F32.roundTo_lower 53 (5404319552844595 * x.m) (-52 + x.e) hprod (by norm_num)
  have hd := F32.roundTo_m_nonneg 53 (5404319552844595 * x.m) (-52 + x.e) hprod
  generalize F32.roundTo 53 (5404319552844595 * x.m) (-52 + x.e) = d at h1 hd ⊢
  have h2 := F32.roundTo_lower 24 d.m d.e hd (by norm_num)
  generalize F32.val (F32.roundTo 24 d.m d.e) = r at h2 ⊢
  have hdv : F32.val d = (d.m : ℚ) * (2 : ℚ) ^ d.e := rfl
  rw [← hdv] at h2
  have hxv : ((5404319552844595 * x.m : Int) : ℚ) * (2 : ℚ) ^ (-52 + x.e) =
      5404319552844595 / 2 ^ 52 * F32.val x := by
    unfold F32.val
    rw [zpow_add₀ (by norm_num : (2 : ℚ) ≠ 0)]
    push_cast
    rw [zpow_neg]
    norm_num
    ring
  rw [hxv] at h1
  generalize F32.val x = v at hx h1 ⊢
  generalize F32.val d = w at h1 h2
  norm_num at h1 h2
  nlinarith

theorem F32.scaled_val (x : F32) (e : Int) (he : e ≤ x.e) :
    ((F32.scaled x e : Int) : ℚ) * (2 : ℚ) ^ e = F32.val x := by
  unfold F32.scaled F32.val
  push_cast
  have h : x.e = ((x.e - e).toNat : Int) + e := by
    rw [Int.toNat_of_nonneg (by omega)]; ring
  conv_rhs => rw [h, zpow_add₀ (by norm_num : (2 : ℚ) ≠ 0), zpow_natCast]
  ring

/-- The comparison `<` compares the values. -/
theorem F32.lt_iff (x y : F32) : F32.lt x y = decide (F32.val x < F32.val y) := by
  unfold F32.lt
  have h1 := F32.scaled_val x (min x.e y.e) (min_le_left _ _)
  have h2 := F32.scaled_val y (min x.e y.e) (min_le_right _ _)
  have he : (0 : ℚ) < (2 : ℚ) ^ (min x.e y.e) := zpow_pos (by norm_num) _
  rw [← h1, ← h2]
  congr 1
  rw [eq_iff_iff, mul_lt_mul_right he]
  exact Int.cast_lt.symm

end Binary32Theorems

/-! ## The final cost matrix: penalties, last row and rescaled components -/

section FinalCostTheorems

variable {F : Type}

theorem finishCosts_cost_infeasible (env : Env F) (st : CostState F) (r c : Nat)
    (hr : r < env.rows - 1) (hc : c < env.cols)
    (hf : st.motion_cost_assignment_matrix r c = false) :
    (finishCosts env st).motion_cost_matrix r c =
      env.ops.mulLit 12 10
        (maxCoeff env.ops env.rows env.cols st.motion_cost_matrix) := by
  unfold finishCosts
  simp only [fillInfeasible_eq, fillLastRow_eq]
  have h1 : r ≠ env.rows - 1 := by omega
  have h2 : r < env.rows := by omega
  simp [h1, h2, hc, hf]

theorem finishCosts_last_row (env : Env F) (st : CostState F) (j : Nat) (hj : j < env.cols) :
    (finishCosts env st).motion_cost_matrix (env.rows - 1) j =
      env.ops.mul env.maximum_pixel_value (env.ops.lit 6 10) := by
  unfold finishCosts
  simp only [fillInfeasible_eq, fillLastRow_eq]
  simp [hj]

theorem finishCosts_insertion (env : Env F) (st : CostState F) :
    (finishCosts env st).insertion_cost_dp =
      env.ops.mul env.maximum_pixel_value (env.ops.lit 6 10) ∧
    (finishCosts env st).deletion_cost_dp =
      env.ops.mul env.maximum_pixel_value (env.ops.lit 6 10) := by
  unfold finishCosts
  simp [fillInfeasible_eq, fillLastRow_eq]

/-- C11: when the assertion on the weights holds and the matrices have the dimensions the
tracker allocates, `compute_motion_cost_matrix` returns and every entry `(r, c)` of a row
other than the last one that no pair has marked (no previous stixel passes the gates at
shift row `r` for a current stixel of column `c`, or column `c` has no current stixel or a
skipped one) has its feasibility flag false and holds `1.2 * M`, `M` being `maxCoeff` of the
weighted sum of the five final component matrices; the product is the one of line 427, of
the `double` literal `1.2` with the `float` `M`, taken in `double` and stored as a `float`
(`mulLit 12 10`). -/
theorem infeasible_cost_is_penalty (env : Env F)
    (previous_stixels current_stixels : List (Stixel F)) (st : CostState F)
    (hassert : weightsAssertion env = true)
    (hrows : env.rows = 2 * env.maximum_possible_motion_in_pixels + 2)
    (hcols : current_stixels.length ≤ env.cols) (hc0 : 0 < env.cols)
    (hlut : ∀ c ∈ current_stixels, compute_maximum_pixelwise_motion_for_stixel env c
      ≤ env.maximum_possible_motion_in_pixels)
    (hmax : env.maximum_possible_motion_in_pixels < 2 ^ 31) :
    ∃ final, compute_motion_cost_matrix env previous_stixels current_stixels st = some final ∧
      ∀ r c : Nat, r < env.rows - 1 → c < env.cols →
        (¬ ∃ cur, current_stixels[c]? = some cur ∧ MarkedBy env previous_stixels cur r) →
        final.motion_cost_assignment_matrix r c = false ∧
        final.motion_cost_matrix r c =
          env.ops.mulLit 12 10
            (maxCoeff env.ops env.rows env.cols (combineCosts env final)) := by
  obtain ⟨filled, h1, h2⟩ := compute_motion_cost_matrix_returns env previous_stixels
    current_stixels st hassert hrows hcols hc0 hlut hmax
  refine ⟨_, h1, fun r c hr hc hno => ?_⟩
  have hne : ¬ (r = env.rows - 1 ∧ c < env.cols) := by omega
  have hflag : filled.motion_cost_assignment_matrix r c = false := by
    cases hf : filled.motion_cost_assignment_matrix r c with
    | false => rfl
    | true => exact absurd ((h2 r c).mp hf) hno
  refine ⟨?_, ?_⟩
  · rw [finishCosts_flags, if_neg hne, rescaleAndCombine_flags, hflag]
  · rw [finishCosts_cost_infeasible env _ r c hr hc (by rw [rescaleAndCombine_flags]; exact hflag),
      rescaleAndCombine_cost, finishCosts_combine]

/-- C13: when the assertion on the weights holds and the matrices have the dimensions the
tracker allocates, `compute_motion_cost_matrix` returns and, for every column `j` of the
matrix, the entry of the last row holds `maximum_pixel_value * 0.6`, which is also the value
of `insertion_cost_dp` and `deletion_cost_dp`, and its feasibility flag is true. -/
theorem last_row_is_deletion_cost (env : Env F)
    (previous_stixels current_stixels : List (Stixel F)) (st : CostState F)
    (hassert : weightsAssertion env = true)
    (hrows : env.rows = 2 * env.maximum_possible_motion_in_pixels + 2)
    (hcols : current_stixels.length ≤ env.cols) (hc0 : 0 < env.cols)
    (hlut : ∀ c ∈ current_stixels, compute_maximum_pixelwise_motion_for_stixel env c
      ≤ env.maximum_possible_motion_in_pixels)
    (hmax : env.maximum_possible_motion_in_pixels < 2 ^ 31) :
    ∃ final, compute_motion_cost_matrix env previous_stixels current_stixels st = some final ∧
      final.insertion_cost_dp = env.ops.mul env.maximum_pixel_value (env.ops.lit 6 10) ∧
      final.deletion_cost_dp = final.insertion_cost_dp ∧
      ∀ j : Nat, j < env.cols →
        final.motion_cost_matrix (env.rows - 1) j =
          env.ops.mul env.maximum_pixel_value (env.ops.lit 6 10) ∧
        final.motion_cost_assignment_matrix (env.rows - 1) j = true := by
  obtain ⟨filled, h1, _⟩ := compute_motion_cost_matrix_returns env previous_stixels
    current_stixels st hassert hrows hcols hc0 hlut hmax
  obtain ⟨g1, g2⟩ := finishCosts_insertion env (rescaleAndCombine env filled)
  refine ⟨_, h1, g1, by rw [g1, g2], fun j hj => ⟨finishCosts_last_row env _ j hj, ?_⟩⟩
  rw [finishCosts_flags, if_pos ⟨rfl, hj⟩]

theorem coefficients_head (rows cols : Nat) (M : Nat → Nat → F) (hr : 0 < rows)
    (hc : 0 < cols) :
    coefficients rows cols M = M 0 0 :: (coefficients rows cols M).drop 1 := by
  obtain ⟨r, rfl⟩ : ∃ r, rows = r + 1 := ⟨rows - 1, by omega⟩
  obtain ⟨c, rfl⟩ : ∃ c, cols = c + 1 := ⟨cols - 1, by omega⟩
  simp [coefficients, List.range_succ_eq_map]

section Ordered

variable {K : Type} [LinearOrder K]

theorem stdMax_eq_max (ops : FloatOps K) (hlt : ∀ a b, ops.lt a b = decide (a < b)) (a b : K) :
    stdMax ops a b = max a b := by
  unfold stdMax
  rw [hlt]
  by_cases h : a < b
  · simp [h, max_eq_right (le_of_lt h)]
  · simp [h, max_eq_left (not_lt.mp h)]

theorem foldl_stdMax_ge (ops : FloatOps K) (hlt : ∀ a b, ops.lt a b = decide (a < b)) :
    ∀ (l : List K) (init : K),
      init ≤ l.foldl (stdMax ops) init ∧ ∀ x ∈ l, x ≤ l.foldl (stdMax ops) init := by
  intro l
  induction l with
  | nil => intro init; exact ⟨le_refl _, fun x hx => by cases hx⟩
  | cons y rest ih =>
    intro init
    rw [List.foldl_cons, stdMax_eq_max ops hlt]
    obtain ⟨h1, h2⟩ := ih (max init y)
    refine ⟨le_trans (le_max_left _ _) h1, fun x hx => ?_⟩
    rcases List.mem_cons.mp hx with hxy | hx
    · rw [hxy]; exact le_trans (le_max_right _ _) h1
    · exact h2 x hx

/-- In a linear order `maxCoeff` is an upper bound of the coefficients. -/
theorem maxCoeff_ge (ops : FloatOps K) (hlt : ∀ a b, ops.lt a b = decide (a < b))
    (rows cols : Nat) (M : Nat → Nat → K) (i j : Nat) (hi : i < rows) (hj : j < cols) :
    M i j ≤ maxCoeff ops rows cols M := by
  have hmem : M i j ∈ coefficients rows cols M := by
    simp only [coefficients, List.mem_flatMap, List.mem_map, List.mem_range]
    exact ⟨j, hj, i, hi, rfl⟩
  rw [coefficients_head rows cols M (by omega) (by omega)] at hmem
  obtain ⟨h1, h2⟩ := foldl_stdMax_ge ops hlt ((coefficients rows cols M).drop 1) (M 0 0)
  unfold maxCoeff
  rcases List.mem_cons.mp hmem with h | h
  · rw [h]; exact h1
  · exact h2 _ h

end Ordered

section Valued

variable {K L : Type} [LinearOrder L]

theorem stdMax_val (ops : FloatOps K) (val : K → L)
    (hlt : ∀ a b, ops.lt a b = decide (val a < val b)) (a b : K) :
    val (stdMax ops a b) = max (val a) (val b) := by
  unfold stdMax
  rw [hlt]
  by_cases h : val a < val b
  · simp [h, max_eq_right (le_of_lt h)]
  · simp [h, max_eq_left (not_lt.mp h)]

theorem foldl_stdMax_val_ge (ops : FloatOps K) (val : K → L)
    (hlt : ∀ a b, ops.lt a b = decide (val a < val b)) :
    ∀ (l : List K) (init : K),
      val init ≤ val (l.foldl (stdMax ops) init) ∧
      ∀ x ∈ l, val x ≤ val (l.foldl (stdMax ops) init) := by
  intro l
  induction l with
  | nil => intro init; exact ⟨le_refl _, fun x hx => by cases hx⟩
  | cons y rest ih =>
    intro init
    rw [List.foldl_cons]
    obtain ⟨h1, h2⟩ := ih (stdMax ops init y)
    rw [stdMax_val ops val hlt] at h1
    refine ⟨le_trans (le_max_left _ _) h1, fun x hx => ?_⟩
    rcases List.mem_cons.mp hx with hxy | hx
    · rw [hxy]; exact le_trans (le_max_right _ _) h1
    · exact h2 x hx

/-- When `<` compares the values of the numbers, `maxCoeff` is an upper bound of the
coefficients. -/
theorem maxCoeff_val_ge (ops : FloatOps K) (val : K → L)
    (hlt : ∀ a b, ops.lt a b = decide (val a < val b))
    (rows cols : Nat) (M : Nat → Nat → K) (i j : Nat) (hi : i < rows) (hj : j < cols) :
    val (M i j) ≤ val (maxCoeff ops rows cols M) := by
  have hmem : M i j ∈ coefficients rows cols M := by
    simp only [coefficients, List.mem_flatMap, List.mem_map, List.mem_range]
    exact ⟨j, hj, i, hi, rfl⟩
  rw [coefficients_head rows cols M (by omega) (by omega)] at hmem
  obtain ⟨h1, h2⟩ := foldl_stdMax_val_ge ops val hlt ((coefficients rows cols M).drop 1) (M 0 0)
  unfold maxCoeff
  rcases List.mem_cons.mp hmem with h | h
  · rw [h]; exact h1
  · exact h2 _ h

end Valued

/-- C12 (amended): take a machine arithmetic whose numbers have a value in a linear order,
such that `<` of the code compares the values and the penalty product `1.2 * x` of line 427
lies above `x` for every `x` above zero (both hold for binary floating point as long as no
NaN, no infinity and no denormal number occurs).  When the assertion on the weights holds
and the matrices have the dimensions the tracker allocates, `compute_motion_cost_matrix`
returns and, with `M` the maximum of the weighted sum of the final component matrices, every
entry of a shift row that is not marked feasible holds `1.2 * M` and every entry of a shift
row that is marked feasible is at most `M`; so the former costs strictly more than the
latter when `M` is above zero.  Nothing is said of the entries of the last row. -/
theorem infeasible_dominates_shift_entries {K L : Type} [LinearOrder L] (env : Env K)
    (val : K → L) (previous_stixels current_stixels : List (Stixel K)) (st : CostState K)
    (hlt : ∀ a b, env.ops.lt a b = decide (val a < val b))
    (hpen : ∀ x, val (env.ops.lit 0 1) < val x → val x < val (env.ops.mulLit 12 10 x))
    (hassert : weightsAssertion env = true)
    (hrows : env.rows = 2 * env.maximum_possible_motion_in_pixels + 2)
    (hcols : current_stixels.length ≤ env.cols) (hc0 : 0 < env.cols)
    (hlut : ∀ c ∈ current_stixels, compute_maximum_pixelwise_motion_for_stixel env c
      ≤ env.maximum_possible_motion_in_pixels)
    (hmax : env.maximum_possible_motion_in_pixels < 2 ^ 31) :
    ∃ final, compute_motion_cost_matrix env previous_stixels current_stixels st = some final ∧
      ∀ r c r2 c2 : Nat, r < env.rows - 1 → c < env.cols → r2 < env.rows - 1 →
        c2 < env.cols → final.motion_cost_assignment_matrix r c = false →
        final.motion_cost_assignment_matrix r2 c2 = true →
        final.motion_cost_matrix r c =
          env.ops.mulLit 12 10
            (maxCoeff env.ops env.rows env.cols (combineCosts env final)) ∧
        val (final.motion_cost_matrix r2 c2) ≤
          val (maxCoeff env.ops env.rows env.cols (combineCosts env final)) ∧
        (val (env.ops.lit 0 1) <
            val (maxCoeff env.ops env.rows env.cols (combineCosts env final)) →
          val (final.motion_cost_matrix r2 c2) < val (final.motion_cost_matrix r c)) := by
  obtain ⟨filled, h1, _⟩ := compute_motion_cost_matrix_returns env previous_stixels
    current_stixels st hassert hrows hcols hc0 hlut hmax
  refine ⟨_, h1, fun r c r2 c2 hr hc hr2 hc2 hf hf2 => ?_⟩
  have hne : ¬ (r = env.rows - 1 ∧ c < env.cols) := by omega
  have hne2 : ¬ (r2 = env.rows - 1 ∧ c2 < env.cols) := by omega
  rw [finishCosts_flags, if_neg hne] at hf
  rw [finishCosts_flags, if_neg hne2] at hf2
  have e1 := finishCosts_cost_infeasible env _ r c hr hc hf
  have e2 := finishCosts_cost env _ r2 c2 (by omega) hf2
  rw [rescaleAndCombine_cost, ← finishCosts_combine] at e1
  rw [rescaleAndCombine_cost, ← finishCosts_combine] at e2
  have hle := maxCoeff_val_ge env.ops val hlt env.rows env.cols
    (combineCosts env (finishCosts env (rescaleAndCombine env filled))) r2 c2 (by omega) hc2
  rw [e1, e2]
  exact ⟨rfl, hle, fun hpos => lt_of_le_of_lt hle (hpen _ hpos)⟩

/-- In binary32 the comparison `<` of `exEnvF` compares the values of its arguments. -/
theorem exEnvF_lt (a b : F32) : exEnvF.ops.lt a b = decide (F32.val a < F32.val b) :=
  F32.lt_iff a b

/-- In binary32 (without exponent limits) the penalty product `1.2 * x` is above `x` for
every `x` above zero. -/
theorem exEnvF_penalty (x : F32) (hx : F32.val (exEnvF.ops.lit 0 1) < F32.val x) :
    F32.val x < F32.val (exEnvF.ops.mulLit 12 10 x) := by
  have h0 : F32.val (exEnvF.ops.lit 0 1) = 0 := by
    simp [exEnvF, f32Ops, F32.ratio, F32.round, roundShift, F32.val]
  have h1 : exEnvF.ops.mulLit 12 10 x = F32.mulLit 12 10 x := by
    simp only [exEnvF, f32Ops]
  rw [h0] at hx
  rw [h1]
  exact F32.mulLit_gt x hx

set_option maxRecDepth 100000 in
/-- The product of line 427 in binary32 at `M = 90`: the `double` product `1.2 * 90`
converted to `float` is 108, while the product of the two `float` values `1.2f` and `90`
is `108.00000763`.  At 255 the product with `0.6` of line 398 is 153 either way. -/
theorem penalty_product_binary32 :
    f32Ops.mulLit 12 10 (f32Ops.lit 90 1) = { m := 27, e := 2 } ∧
    f32Ops.mul (f32Ops.lit 12 10) (f32Ops.lit 90 1) = { m := 14155777, e := -17 } ∧
    f32Ops.mulLit 6 10 (f32Ops.lit 255 1) = { m := 153, e := 0 } ∧
    f32Ops.mul (f32Ops.lit 255 1) (f32Ops.lit 6 10) = { m := 153, e := 0 } := by
  decide

/-- With the weights of the constructor (0.3, 0, 0, 0, 0.7, none negative) and two solid
stixels matched against themselves the division by a zero maximum makes every cost of a
shift row NaN: the entry `(0, 0)`, not marked feasible, and the entry `(1, 0)`, marked
feasible, both hold NaN, and NaN is not above NaN. -/
theorem penalty_nan_not_above :
    (compute_motion_cost_matrix (exEnvX 300 0 0 0 700) exSolidX exSolidX exOldStateX).map
      (fun final =>
        (final.motion_cost_assignment_matrix 0 0, final.motion_cost_matrix 0 0,
          final.motion_cost_assignment_matrix 1 0, final.motion_cost_matrix 1 0)) =
      some (false, XFloat.nan, true, XFloat.nan) ∧
    xOps.lt XFloat.nan XFloat.nan = false := by
  decide

set_option maxRecDepth 100000 in
/-- Witness of C12 (amended): the binary32 run of `exPrevF` against `exCurrF` in `exEnvF`,
in which no maximum is zero.  `M` is 68.75; the entries `(0, 0)` and `(2, 1)` are not marked
feasible and hold `1.2 * 68.75 = 82.5`, the feasible entries of the shift rows hold
`5 + 2 ^ (-21)`, 5, 68.75 and 68.75, and the last row holds 153, which is more than 82.5. -/
theorem infeasible_dominates_shift_entries_witness :
    (∀ a b : F32, exEnvF.ops.lt a b = decide (F32.val a < F32.val b)) ∧
    (∀ x : F32, F32.val (exEnvF.ops.lit 0 1) < F32.val x →
      F32.val x < F32.val (exEnvF.ops.mulLit 12 10 x)) ∧
    weightsAssertion exEnvF = true ∧
    exEnvF.rows = 2 * exEnvF.maximum_possible_motion_in_pixels + 2 ∧
    exCurrF.length ≤ exEnvF.cols ∧ 0 < exEnvF.cols ∧
    (∀ c ∈ exCurrF, compute_maximum_pixelwise_motion_for_stixel exEnvF c
      ≤ exEnvF.maximum_possible_motion_in_pixels) ∧
    exEnvF.maximum_possible_motion_in_pixels < 2 ^ 31 ∧
    (∃ final, compute_motion_cost_matrix exEnvF exPrevF exCurrF exOldStateF = some final ∧
      ∀ r c r2 c2 : Nat, r < exEnvF.rows - 1 → c < exEnvF.cols → r2 < exEnvF.rows - 1 →
        c2 < exEnvF.cols → final.motion_cost_assignment_matrix r c = false →
        final.motion_cost_assignment_matrix r2 c2 = true →
        final.motion_cost_matrix r c =
          exEnvF.ops.mulLit 12 10
            (maxCoeff exEnvF.ops exEnvF.rows exEnvF.cols (combineCosts exEnvF final)) ∧
        F32.val (final.motion_cost_matrix r2 c2) ≤
          F32.val (maxCoeff exEnvF.ops exEnvF.rows exEnvF.cols (combineCosts exEnvF final)) ∧
        (F32.val (exEnvF.ops.lit 0 1) <
            F32.val
              (maxCoeff exEnvF.ops exEnvF.rows exEnvF.cols (combineCosts exEnvF final)) →
          F32.val (final.motion_cost_matrix r2 c2) <
            F32.val (final.motion_cost_matrix r c))) ∧
    (compute_motion_cost_matrix exEnvF exPrevF exCurrF exOldStateF).map
      (fun final =>
        ([final.motion_cost_assignment_matrix 0 0, final.motion_cost_assignment_matrix 0 1,
          final.motion_cost_assignment_matrix 1 0, final.motion_cost_assignment_matrix 1 1,
          final.motion_cost_assignment_matrix 2 0, final.motion_cost_assignment_matrix 2 1],
         [final.motion_cost_matrix 0 0, final.motion_cost_matrix 0 1,
          final.motion_cost_matrix 1 0, final.motion_cost_matrix 1 1,
          final.motion_cost_matrix 2 0, final.motion_cost_matrix 2 1,
          final.motion_cost_matrix 3 0, final.motion_cost_matrix 3 1],
         maxCoeff exEnvF.ops exEnvF.rows exEnvF.cols (combineCosts exEnvF final))) =
      some ([false, true, true, true, true, false],
        [{ m := 165, e := -1 }, { m := 10485761, e := -21 }, { m := 5, e := 0 },
          { m := 275, e := -2 }, { m := 275, e := -2 }, { m := 165, e := -1 },
          { m := 153, e := 0 }, { m := 153, e := 0 }],
        { m := 275, e := -2 }) :=
  ⟨exEnvF_lt, exEnvF_penalty, by decide, by decide, by decide, by decide,
    fun _ _ => Nat.le_refl _, by decide,
    infeasible_dominates_shift_entries exEnvF F32.val exPrevF exCurrF exOldStateF exEnvF_lt
      exEnvF_penalty (by decide) (by decide) (by decide) (by decide)
      (fun _ _ => Nat.le_refl _) (by decide),
    by decide⟩

set_option maxRecDepth 100000 in
/-- Witness of C11: the binary32 run of `exPrevF` against `exCurrF` in `exEnvF`, in which no
maximum is zero.  The maximum of the weighted sum is 68.75; the entries `(0, 0)` and
`(2, 1)`, which no pair has marked, keep a false flag and hold `1.2 * 68.75`, which the
conversion of the `double` product to `float` makes 82.5. -/
theorem infeasible_cost_is_penalty_witness :
    weightsAssertion exEnvF = true ∧
    exEnvF.rows = 2 * exEnvF.maximum_possible_motion_in_pixels + 2 ∧
    exCurrF.length ≤ exEnvF.cols ∧ 0 < exEnvF.cols ∧
    (∀ c ∈ exCurrF, compute_maximum_pixelwise_motion_for_stixel exEnvF c
      ≤ exEnvF.maximum_possible_motion_in_pixels) ∧
    exEnvF.maximum_possible_motion_in_pixels < 2 ^ 31 ∧
    (∃ final, compute_motion_cost_matrix exEnvF exPrevF exCurrF exOldStateF = some final ∧
      ∀ r c : Nat, r < exEnvF.rows - 1 → c < exEnvF.cols →
        (¬ ∃ cur, exCurrF[c]? = some cur ∧ MarkedBy exEnvF exPrevF cur r) →
        final.motion_cost_assignment_matrix r c = false ∧
        final.motion_cost_matrix r c =
          exEnvF.ops.mulLit 12 10
            (maxCoeff exEnvF.ops exEnvF.rows exEnvF.cols (combineCosts exEnvF final))) ∧
    (compute_motion_cost_matrix exEnvF exPrevF exCurrF exOldStateF).map
      (fun final =>
        ([final.motion_cost_assignment_matrix 0 0, final.motion_cost_assignment_matrix 2 1],
         [final.motion_cost_matrix 0 0, final.motion_cost_matrix 2 1,
          maxCoeff exEnvF.ops exEnvF.rows exEnvF.cols (combineCosts exEnvF final),
          exEnvF.ops.mulLit 12 10
            (maxCoeff exEnvF.ops exEnvF.rows exEnvF.cols (combineCosts exEnvF final))])) =
      some ([false, false],
        [{ m := 165, e := -1 }, { m := 165, e := -1 }, { m := 275, e := -2 },
          { m := 165, e := -1 }]) :=
  ⟨by decide, by decide, by decide, by decide, fun _ _ => Nat.le_refl _, by decide,
    infeasible_cost_is_penalty exEnvF exPrevF exCurrF exOldStateF (by decide) (by decide)
      (by decide) (by decide) (fun _ _ => Nat.le_refl _) (by decide),
    by decide⟩

/-- Witness of C13: `exStixels` against itself in the configuration `exEnv`. -/
theorem last_row_is_deletion_cost_witness :
    weightsAssertion exEnv = true ∧
    exEnv.rows = 2 * exEnv.maximum_possible_motion_in_pixels + 2 ∧
    exStixels.length ≤ exEnv.cols ∧ 0 < exEnv.cols ∧
    (∀ c ∈ exStixels, compute_maximum_pixelwise_motion_for_stixel exEnv c
      ≤ exEnv.maximum_possible_motion_in_pixels) ∧
    exEnv.maximum_possible_motion_in_pixels < 2 ^ 31 ∧
    ∃ final, compute_motion_cost_matrix exEnv exStixels exStixels exOldState = some final ∧
      final.insertion_cost_dp = exEnv.ops.mul exEnv.maximum_pixel_value (exEnv.ops.lit 6 10) ∧
      final.deletion_cost_dp = final.insertion_cost_dp ∧
      ∀ j : Nat, j < exEnv.cols →
        final.motion_cost_matrix (exEnv.rows - 1) j =
          exEnv.ops.mul exEnv.maximum_pixel_value (exEnv.ops.lit 6 10) ∧
        final.motion_cost_assignment_matrix (exEnv.rows - 1) j = true :=
  ⟨by decide, by decide, by decide, by decide, fun _ _ => Nat.le_refl _, by decide,
    last_row_is_deletion_cost exEnv exStixels exStixels exOldState (by decide) (by decide)
      (by decide) (by decide) (fun _ _ => Nat.le_refl _) (by decide)⟩

/-- C12 (counterexample): weights 0.8, 0.1, 0, 0, 0.1 (all non-negative), two solid previous
stixels of different height against two solid current stixels; no maximum is zero.  The
entry `(0, 0)` is not marked feasible and costs 35.4, the entry `(3, 0)` of the last row is
marked feasible and costs 153: the former is not greater than the latter. -/
theorem infeasible_not_dominating_counterexample :
    (compute_motion_cost_matrix (exEnvX 800 100 0 0 100) exUnevenX exSolidX exOldStateX).map
      (fun final =>
        (final.motion_cost_assignment_matrix 0 0, final.motion_cost_matrix 0 0,
          final.motion_cost_assignment_matrix 3 0, final.motion_cost_matrix 3 0)) =
      some (false, XFloat.fin 35400, true, XFloat.fin 153000) ∧
    xOps.lt (XFloat.fin 153000) (XFloat.fin 35400) = false := by
  decide

/-- C14 (the defect): with the weights of the constructor (0.3, 0, 0, 0, 0.7) and two solid
stixels matched against themselves, every height difference is 0, the maximum of the matrix
is 0 and the rescaling turns the entry of the feasible pair at `(1, 0)` into NaN; with the
weights 1, 0, 0, 0, 0 the same happens to its dense tracking entry.  Neither value lies
between 0 and `maximum_pixel_value`. -/
theorem rescaled_components_out_of_range :
    (compute_motion_cost_matrix (exEnvX 300 0 0 0 700) exSolidX exSolidX exOldStateX).map
      (fun final =>
        (final.motion_cost_assignment_matrix 1 0, final.real_height_differences_matrix 1 0)) =
      some (true, XFloat.nan) ∧
    (compute_motion_cost_matrix (exEnvX 1000 0 0 0 0) exSolidX exSolidX exOldStateX).map
      (fun final =>
        (final.motion_cost_assignment_matrix 1 0, final.m_denseTrackingMatrix 1 0)) =
      some (true, XFloat.nan) ∧
    xOps.lt XFloat.nan (XFloat.fin 255001) = false ∧
    xOps.lt (XFloat.fin (-1)) XFloat.nan = false := by
  decide

/-- C15 (the defect): lines 318, 321 and 329 multiply each matrix by
`maximum_pixel_value / maxCoeff` without looking at the maximum.  With the weights of the
constructor (0.3, 0, 0, 0, 0.7) the height differences are all 0: the quotient 255 / 0 is
infinite, every entry of the matrix becomes NaN instead of staying 0, and so does the
combined cost of every shift row.  With no previous stixel (no pair evaluated) the three
rescaled matrices all become NaN. -/
theorem rescale_divides_by_zero :
    (∀ (env : Env XFloat) (st : CostState XFloat) (i j : Nat),
      (rescaleAndCombine env st).real_height_differences_matrix i j =
        env.ops.mul (st.real_height_differences_matrix i j)
          (env.ops.div env.maximum_pixel_value
            (maxCoeff env.ops env.rows env.cols st.real_height_differences_matrix)) ∧
      (rescaleAndCombine env st).m_stixelsPolarDistMatrix i j =
        env.ops.mul (st.m_stixelsPolarDistMatrix i j)
          (env.ops.div env.maximum_pixel_value
            (maxCoeff env.ops env.rows env.cols st.m_stixelsPolarDistMatrix))) ∧
    xOps.div (XFloat.fin 255000) (XFloat.fin 0) = XFloat.pinf ∧
    xOps.mul (XFloat.fin 0) XFloat.pinf = XFloat.nan ∧
    (compute_motion_cost_matrix (exEnvX 300 0 0 0 700) exSolidX exSolidX exOldStateX).map
      (fun final =>
        (final.real_height_differences_matrix 0 0, final.real_height_differences_matrix 1 0,
          final.motion_cost_matrix 0 0, final.motion_cost_matrix 1 0)) =
      some (XFloat.nan, XFloat.nan, XFloat.nan, XFloat.nan) ∧
    (compute_motion_cost_matrix (exEnvX 300 0 0 0 700) [] exSolidX exOldStateX).map
      (fun final =>
        (final.real_height_differences_matrix 1 0, final.m_denseTrackingMatrix 1 0,
          final.m_stixelsPolarDistMatrix 1 0)) =
      some (XFloat.nan, XFloat.nan, XFloat.nan) := by
  refine ⟨fun env st i j => ⟨rfl, rfl⟩, by decide, by decide, by decide, by decide⟩

/-- C16 (the defect): weights 0.3, 0.1, 0.2, 0.2, 0.2, previous stixels solid in column 3
and occluded in column 4, current stixels solid in columns 3 and 4.  The two pairs with the
solid previous stixel are feasible and not occluded, and are written at `(1, 0)` (polar
distance 0) and `(0, 1)` (polar distance 10).  The pair with the smaller distance gets the
larger final entry of `m_stixelsPolarDistMatrix`: 255 against 204. -/
theorem polar_distance_entry_decreases :
    exMixedX[0]? = some (exStixelX 3 2 StixelType.Solid) ∧
    xOps.lt ((exEnvX 300 100 200 200 200).polar_norm (exStixelX 3 2 StixelType.Solid)
        (exStixelX 3 2 StixelType.Solid))
      ((exEnvX 300 100 200 200 200).polar_norm (exStixelX 4 2 StixelType.Solid)
        (exStixelX 3 2 StixelType.Solid)) = true ∧
    (compute_motion_cost_matrix (exEnvX 300 100 200 200 200) exMixedX exSolidX
        exOldStateX).map
      (fun final =>
        (final.motion_cost_assignment_matrix 1 0, final.m_stixelsPolarDistMatrix 1 0,
          final.motion_cost_assignment_matrix 0 1, final.m_stixelsPolarDistMatrix 0 1)) =
      some (true, XFloat.fin 255000, true, XFloat.fin 204000) ∧
    xOps.lt (XFloat.fin 204000) (XFloat.fin 255000) = true := by
  decide

/-- C17 (the defect): weights 0.3, 0.1, 0.2, 0.2, 0.2, previous stixels solid in column 3
and occluded in column 4, current stixels solid in columns 3 and 4.  The pair of current
stixel 0 with the occluded previous stixel is written at `(2, 0)` and the pair with the
solid previous stixel at `(1, 0)`.  The five final component entries (SAD, height, polar
distance, polar SAD, dense tracking) are 255, 255, 0, 0, 0 for the occluded pair and
0, 0, 255, 245, 252 for the other: in three of the five matrices the occluded pair has the
smaller entry. -/
theorem occluded_pair_components :
    (compute_motion_cost_matrix (exEnvX 300 100 200 200 200) exMixedX exSolidX
        exOldStateX).map
      (fun final =>
        (final.motion_cost_assignment_matrix 2 0,
          [final.pixelwise_sad_matrix 2 0, final.real_height_differences_matrix 2 0,
            final.m_stixelsPolarDistMatrix 2 0, final.m_polarSADMatrix 2 0,
            final.m_denseTrackingMatrix 2 0])) =
      some (true, [XFloat.fin 255000, XFloat.fin 255000, XFloat.fin 0, XFloat.fin 0,
        XFloat.fin 0]) ∧
    (compute_motion_cost_matrix (exEnvX 300 100 200 200 200) exMixedX exSolidX
        exOldStateX).map
      (fun final =>
        (final.motion_cost_assignment_matrix 1 0,
          [final.pixelwise_sad_matrix 1 0, final.real_height_differences_matrix 1 0,
            final.m_stixelsPolarDistMatrix 1 0, final.m_polarSADMatrix 1 0,
            final.m_denseTrackingMatrix 1 0])) =
      some (true, [XFloat.fin 0, XFloat.fin 0, XFloat.fin 255000, XFloat.fin 245000,
        XFloat.fin 252000]) := by
  decide

end FinalCostTheorems

/-! ## The graph of computeMotionWithGraphs: edges and weights -/

section GraphEdgeTheorems

variable {F : Type}

theorem toUInt32_of_range (x : Int) (h0 : 0 ≤ x) (h1 : x < 2 ^ 32) :
    toUInt32 x = x.toNat := by
  unfold toUInt32
  rw [Int.emod_eq_of_lt h0 h1]

/-- A pair within the lookup value of the current stixel is read inside the shift rows. -/
theorem edge_row_in_range (env : Env F) (prevStixel currStixel : Stixel F)
    (hlut : compute_maximum_pixelwise_motion_for_stixel env currStixel
      ≤ env.maximum_possible_motion_in_pixels)
    (hmax : env.maximum_possible_motion_in_pixels < 2 ^ 31)
    (h1 : -(toInt32 (compute_maximum_pixelwise_motion_for_stixel env currStixel))
      ≤ prevStixel.x - currStixel.x)
    (h2 : prevStixel.x - currStixel.x
      ≤ toInt32 (compute_maximum_pixelwise_motion_for_stixel env currStixel)) :
    toUInt32 (prevStixel.x - currStixel.x + (env.maximum_possible_motion_in_pixels : Int)) =
      (prevStixel.x - currStixel.x + (env.maximum_possible_motion_in_pixels : Int)).toNat ∧
    toUInt32 (prevStixel.x - currStixel.x + (env.maximum_possible_motion_in_pixels : Int))
      ≤ 2 * env.maximum_possible_motion_in_pixels := by
  rw [toInt32_of_lt _ (by omega)] at h1 h2
  have h3 := toUInt32_of_range
    (prevStixel.x - currStixel.x + (env.maximum_possible_motion_in_pixels : Int)) (by omega)
    (by omega)
  refine ⟨h3, ?_⟩
  rw [h3]
  omega

/-- One pair of the double loop of lines 894-921: the loop body returns, and adds the edge
of the pair exactly when the pair passes the tests. -/
theorem edgeStep_spec (env : Env F) (st : CostState F) (maxCost : F) (numPrev : Nat)
    (prevIdx : Nat) (prevStixel : Stixel F) (currIdx : Nat) (currStixel : Stixel F)
    (edges : List (GraphEdge F))
    (hrows : 2 * env.maximum_possible_motion_in_pixels + 1 ≤ env.rows)
    (hcol : currIdx < env.cols)
    (hlut : compute_maximum_pixelwise_motion_for_stixel env currStixel
      ≤ env.maximum_possible_motion_in_pixels)
    (hmax : env.maximum_possible_motion_in_pixels < 2 ^ 31) :
    ∃ out, edgeStep env st maxCost numPrev prevIdx prevStixel currIdx currStixel edges
        = some out ∧
      ∀ e, e ∈ out ↔ e ∈ edges ∨
        (EdgeTests env st prevStixel currStixel currIdx ∧
          e = edgeOf env st maxCost numPrev prevIdx prevStixel currIdx currStixel) := by
  unfold edgeStep EdgeTests
  simp only
  by_cases hm : -(toInt32 (compute_maximum_pixelwise_motion_for_stixel env currStixel))
        ≤ prevStixel.x - currStixel.x ∧
      prevStixel.x - currStixel.x
        ≤ toInt32 (compute_maximum_pixelwise_motion_for_stixel env currStixel) ∧
      (((prevStixel.bottom_y - currStixel.bottom_y).natAbs : Int)
        ≤ toInt32 (compute_maximum_pixelwise_motion_for_stixel env currStixel))
  · obtain ⟨_, hle⟩ := edge_row_in_range env prevStixel currStixel hlut hmax hm.1 hm.2.1
    have hrange : toUInt32 (prevStixel.x - currStixel.x +
        (env.maximum_possible_motion_in_pixels : Int)) < env.rows ∧ currIdx < env.cols :=
      ⟨by omega, hcol⟩
    rw [if_pos hm, if_pos hrange]
    by_cases hf : st.motion_cost_assignment_matrix
        (toUInt32 (prevStixel.x - currStixel.x + (env.maximum_possible_motion_in_pixels : Int)))
        currIdx = true
    · by_cases hp : env.ops.lt (env.ops.lit 1 1)
          (st.m_stixelsPolarDistMatrix
            (toUInt32 (prevStixel.x - currStixel.x +
              (env.maximum_possible_motion_in_pixels : Int))) currIdx) = true
      · rw [if_pos hf, if_pos hp]
        refine ⟨_, rfl, fun e => ?_⟩
        rw [List.mem_append, List.mem_singleton]
        constructor
        · rintro (h | h)
          · exact Or.inl h
          · exact Or.inr ⟨⟨hm, hf, hp⟩, h⟩
        · rintro (h | ⟨_, h⟩)
          · exact Or.inl h
          · exact Or.inr h
      · rw [if_pos hf, if_neg hp]
        refine ⟨_, rfl, fun e => ?_⟩
        constructor
        · exact fun h => Or.inl h
        · rintro (h | ⟨⟨_, _, h⟩, _⟩)
          · exact h
          · exact absurd h hp
    · rw [if_neg hf]
      refine ⟨_, rfl, fun e => ?_⟩
      constructor
      · exact fun h => Or.inl h
      · rintro (h | ⟨⟨_, h, _⟩, _⟩)
        · exact h
        · exact absurd h hf
  · rw [if_neg hm]
    refine ⟨_, rfl, fun e => ?_⟩
    constructor
    · exact fun h => Or.inl h
    · rintro (h | ⟨⟨h, _⟩, _⟩)
      · exact h
      · exact absurd h hm

theorem edgeCurrLoop_spec (env : Env F) (st : CostState F) (maxCost : F) (numPrev : Nat)
    (prevIdx : Nat) (prevStixel : Stixel F)
    (hrows : 2 * env.maximum_possible_motion_in_pixels + 1 ≤ env.rows)
    (hmax : env.maximum_possible_motion_in_pixels < 2 ^ 31) :
    ∀ (rest : List (Stixel F)) (currIdx : Nat) (edges : List (GraphEdge F)),
      currIdx + rest.length ≤ env.cols →
      (∀ c ∈ rest, compute_maximum_pixelwise_motion_for_stixel env c
        ≤ env.maximum_possible_motion_in_pixels) →
      ∃ out, edgeCurrLoop env st maxCost numPrev prevIdx prevStixel currIdx rest edges
          = some out ∧
        ∀ e, e ∈ out ↔ e ∈ edges ∨
          ∃ (k : Nat) (currStixel : Stixel F), rest[k]? = some currStixel ∧
            EdgeTests env st prevStixel currStixel (currIdx + k) ∧
            e = edgeOf env st maxCost numPrev prevIdx prevStixel (currIdx + k) currStixel := by
  intro rest
  induction rest with
  | nil =>
    intro currIdx edges _ _
    exact ⟨edges, rfl, fun e => by simp⟩
  | cons cs rest ih =>
    intro currIdx edges hlen hlut
    simp only [List.length_cons] at hlen
    obtain ⟨mid, h1, h2⟩ := edgeStep_spec env st maxCost numPrev prevIdx prevStixel currIdx cs
      edges hrows (by omega) (hlut cs (List.mem_cons_self _ _)) hmax
    obtain ⟨out, h3, h4⟩ := ih (currIdx + 1) mid (by omega)
      (fun c hc => hlut c (List.mem_cons_of_mem _ hc))
    refine ⟨out, by simp only [edgeCurrLoop, h1, Option.some_bind]; exact h3, fun e => ?_⟩
    rw [h4 e, h2 e]
    constructor
    · rintro ((h | ⟨ht, he⟩) | ⟨k, c, hk, ht, he⟩)
      · exact Or.inl h
      · exact Or.inr ⟨0, cs, by simp, by simpa using ht, by simpa using he⟩
      · refine Or.inr ⟨k + 1, c, by simpa using hk, ?_, ?_⟩
        · rw [show currIdx + (k + 1) = currIdx + 1 + k by omega]; exact ht
        · rw [show currIdx + (k + 1) = currIdx + 1 + k by omega]; exact he
    · rintro (h | ⟨k, c, hk, ht, he⟩)
      · exact Or.inl (Or.inl h)
      · rcases k with _ | k
        · simp only [List.getElem?_cons_zero, Option.some.injEq] at hk
          subst hk
          exact Or.inl (Or.inr ⟨by simpa using ht, by simpa using he⟩)
        · refine Or.inr ⟨k, c, by simpa using hk, ?_, ?_⟩
          · rw [show currIdx + 1 + k = currIdx + (k + 1) by omega]; exact ht
          · rw [show currIdx + 1 + k = currIdx + (k + 1) by omega]; exact he

theorem edgePrevLoop_spec (env : Env F) (st : CostState F) (maxCost : F) (numPrev : Nat)
    (current_stixels : List (Stixel F))
    (hrows : 2 * env.maximum_possible_motion_in_pixels + 1 ≤ env.rows)
    (hcols : current_stixels.length ≤ env.cols)
    (hlut : ∀ c ∈ current_stixels, compute_maximum_pixelwise_motion_for_stixel env c
      ≤ env.maximum_possible_motion_in_pixels)
    (hmax : env.maximum_possible_motion_in_pixels < 2 ^ 31) :
    ∀ (rest : List (Stixel F)) (prevIdx : Nat) (edges : List (GraphEdge F)),
      ∃ out, edgePrevLoop env st maxCost numPrev current_stixels prevIdx rest edges
          = some out ∧
        ∀ e, e ∈ out ↔ e ∈ edges ∨
          ∃ (j : Nat) (prevStixel : Stixel F) (k : Nat) (currStixel : Stixel F),
            rest[j]? = some prevStixel ∧ current_stixels[k]? = some currStixel ∧
            EdgeTests env st prevStixel currStixel k ∧
            e = edgeOf env st maxCost numPrev (prevIdx + j) prevStixel k currStixel := by
  intro rest
  induction rest with
  | nil =>
    intro prevIdx edges
    exact ⟨edges, rfl, fun e => by simp⟩
  | cons ps rest ih =>
    intro prevIdx edges
    obtain ⟨mid, h1, h2⟩ := edgeCurrLoop_spec env st maxCost numPrev prevIdx ps hrows hmax
      current_stixels 0 edges (by omega) hlut
    obtain ⟨out, h3, h4⟩ := ih (prevIdx + 1) mid
    refine ⟨out, by simp only [edgePrevLoop, h1, Option.some_bind]; exact h3, fun e => ?_⟩
    rw [h4 e, h2 e]
    constructor
    · rintro ((h | ⟨k, c, hk, ht, he⟩) | ⟨j, p, k, c, hj, hk, ht, he⟩)
      · exact Or.inl h
      · exact Or.inr ⟨0, ps, k, c, by simp, hk, by simpa using ht, by simpa using he⟩
      · refine Or.inr ⟨j + 1, p, k, c, by simpa using hj, hk, ht, ?_⟩
        rw [show prevIdx + (j + 1) = prevIdx + 1 + j by omega]; exact he
    · rintro (h | ⟨j, p, k, c, hj, hk, ht, he⟩)
      · exact Or.inl (Or.inl h)
      · rcases j with _ | j
        · simp only [List.getElem?_cons_zero, Option.some.injEq] at hj
          subst hj
          exact Or.inl (Or.inr ⟨k, c, hk, by simpa using ht, by simpa using he⟩)
        · refine Or.inr ⟨j, p, k, c, by simpa using hj, hk, ht, ?_⟩
          rw [show prevIdx + 1 + j = prevIdx + (j + 1) by omega]; exact he

/-- With matrices allocated for the inputs the graph is built, and its edges are those of
the pairs that pass the tests. -/
theorem buildGraph_spec (env : Env F) (st : CostState F)
    (previous_stixels current_stixels : List (Stixel F))
    (hr0 : 2 * env.maximum_possible_motion_in_pixels + 1 ≤ env.rows)
    (hcols : current_stixels.length ≤ env.cols) (hc0 : 0 < env.cols)
    (hlut : ∀ c ∈ current_stixels, compute_maximum_pixelwise_motion_for_stixel env c
      ≤ env.maximum_possible_motion_in_pixels)
    (hmax : env.maximum_possible_motion_in_pixels < 2 ^ 31) :
    ∃ graph, buildGraph env st previous_stixels current_stixels = some graph ∧
      ∀ e, e ∈ graph ↔
        ∃ (p : Nat) (prevStixel : Stixel F) (c : Nat) (currStixel : Stixel F),
          previous_stixels[p]? = some prevStixel ∧ current_stixels[c]? = some currStixel ∧
          EdgeTests env st prevStixel currStixel c ∧
          e = edgeOf env st (maxCoeff env.ops env.rows env.cols st.motion_cost_matrix)
            previous_stixels.length p prevStixel c currStixel := by
  obtain ⟨graph, h1, h2⟩ := edgePrevLoop_spec env st
    (maxCoeff env.ops env.rows env.cols st.motion_cost_matrix) previous_stixels.length
    current_stixels hr0 hcols hlut hmax previous_stixels 0 []
  refine ⟨graph, ?_, fun e => ?_⟩
  · unfold buildGraph
    rw [if_pos ⟨by omega, hc0⟩]
    exact h1
  · rw [h2 e]
    constructor
    · rintro (h | ⟨j, p, k, c, hj, hk, ht, he⟩)
      · cases h
      · exact ⟨j, p, k, c, hj, hk, ht, by simpa using he⟩
    · rintro ⟨j, p, k, c, hj, hk, ht, he⟩
      exact Or.inr ⟨j, p, k, c, hj, hk, ht, by simpa using he⟩

/-- The tests of lines 906-913 for a pair, written with absolute values and the row taken
as a natural number. -/
theorem edgeTests_iff (env : Env F) (st : CostState F) (prevStixel currStixel : Stixel F)
    (c : Nat)
    (hlut : compute_maximum_pixelwise_motion_for_stixel env currStixel
      ≤ env.maximum_possible_motion_in_pixels)
    (hmax : env.maximum_possible_motion_in_pixels < 2 ^ 31) :
    EdgeTests env st prevStixel currStixel c ↔
      ((prevStixel.x - currStixel.x).natAbs
          ≤ compute_maximum_pixelwise_motion_for_stixel env currStixel ∧
        (prevStixel.bottom_y - currStixel.bottom_y).natAbs
          ≤ compute_maximum_pixelwise_motion_for_stixel env currStixel ∧
        st.motion_cost_assignment_matrix
          (prevStixel.x - currStixel.x + (env.maximum_possible_motion_in_pixels : Int)).toNat
          c = true ∧
        env.ops.lt (env.ops.lit 1 1)
          (st.m_stixelsPolarDistMatrix
            (prevStixel.x - currStixel.x + (env.maximum_possible_motion_in_pixels : Int)).toNat
            c) = true) := by
  have hL := toInt32_of_lt (compute_maximum_pixelwise_motion_for_stixel env currStixel)
    (by omega)
  unfold EdgeTests
  constructor
  · rintro ⟨⟨h1, h2, h3⟩, h4, h5⟩
    obtain ⟨hrow, _⟩ := edge_row_in_range env prevStixel currStixel hlut hmax h1 h2
    rw [hrow] at h4 h5
    rw [hL] at h1 h2 h3
    exact ⟨by omega, by omega, h4, h5⟩
  · rintro ⟨h1, h2, h4, h5⟩
    have g1 : -(toInt32 (compute_maximum_pixelwise_motion_for_stixel env currStixel))
        ≤ prevStixel.x - currStixel.x := by rw [hL]; omega
    have g2 : prevStixel.x - currStixel.x
        ≤ toInt32 (compute_maximum_pixelwise_motion_for_stixel env currStixel) := by
      rw [hL]; omega
    obtain ⟨hrow, _⟩ := edge_row_in_range env prevStixel currStixel hlut hmax g1 g2
    rw [← hrow] at h4 h5
    exact ⟨⟨g1, g2, by rw [hL]; omega⟩, h4, h5⟩

/-- C18: with matrices that cover the shift rows and the current columns,
`computeMotionWithGraphs` builds its graph, and for every previous index `p` and current
index `c` the graph has an edge between node `p` and the node `c + previous.size()` of `c`
if and only if `|p.x - c.x| <= L` and `|p.bottom_y - c.bottom_y| <= L`, `L` being the
lookup-table maximum motion of `c`, the entry at row
`p.x - c.x + maximum_possible_motion_in_pixels` and column `c` is marked feasible, and the
polar-distance entry there is greater than `1.0`. -/
theorem edge_added_iff (env : Env F) (st : CostState F)
    (previous_stixels current_stixels : List (Stixel F))
    (hr0 : 2 * env.maximum_possible_motion_in_pixels + 1 ≤ env.rows)
    (hcols : current_stixels.length ≤ env.cols) (hc0 : 0 < env.cols)
    (hlut : ∀ c ∈ current_stixels, compute_maximum_pixelwise_motion_for_stixel env c
      ≤ env.maximum_possible_motion_in_pixels)
    (hmax : env.maximum_possible_motion_in_pixels < 2 ^ 31) :
    ∃ graph, buildGraph env st previous_stixels current_stixels = some graph ∧
      ∀ (p c : Nat) (prevStixel currStixel : Stixel F),
        previous_stixels[p]? = some prevStixel → current_stixels[c]? = some currStixel →
        ((∃ e ∈ graph, e.u = p ∧ e.v = c + previous_stixels.length) ↔
          ((prevStixel.x - currStixel.x).natAbs
              ≤ compute_maximum_pixelwise_motion_for_stixel env currStixel ∧
            (prevStixel.bottom_y - currStixel.bottom_y).natAbs
              ≤ compute_maximum_pixelwise_motion_for_stixel env currStixel ∧
            st.motion_cost_assignment_matrix
              (prevStixel.x - currStixel.x +
                (env.maximum_possible_motion_in_pixels : Int)).toNat c = true ∧
            env.ops.lt (env.ops.lit 1 1)
              (st.m_stixelsPolarDistMatrix
                (prevStixel.x - currStixel.x +
                  (env.maximum_possible_motion_in_pixels : Int)).toNat c) = true)) := by
  obtain ⟨graph, hg, hmem⟩ := buildGraph_spec env st previous_stixels current_stixels hr0
    hcols hc0 hlut hmax
  refine ⟨graph, hg, fun p c prevStixel currStixel hp hc => ?_⟩
  rw [← edgeTests_iff env st prevStixel currStixel c
    (hlut currStixel (List.mem_iff_getElem?.mpr ⟨c, hc⟩)) hmax]
  constructor
  · rintro ⟨e, he, hu, hv⟩
    obtain ⟨p2, ps2, c2, cs2, hp2, hc2, ht, heq⟩ := (hmem e).mp he
    subst heq
    simp only [edgeOf] at hu hv
    have hcc : c2 = c := by omega
    subst hu
    subst hcc
    rw [hp] at hp2
    rw [hc] at hc2
    cases hp2
    cases hc2
    exact ht
  · intro ht
    exact ⟨_, (hmem _).mpr ⟨p, prevStixel, c, currStixel, hp, hc, ht, rfl⟩, rfl, rfl⟩

/-- Witness of C18 on the matrices computed for two stixels in columns 3 and 4 matched
against themselves. -/
theorem edge_added_iff_witness :
    2 * exEnv.maximum_possible_motion_in_pixels + 1 ≤ exEnv.rows ∧
    exStixels.length ≤ exEnv.cols ∧
    ∃ graph, buildGraph exEnv exCostState exStixels exStixels = some graph ∧
      ∀ (p c : Nat) (prevStixel currStixel : Stixel Int),
        exStixels[p]? = some prevStixel → exStixels[c]? = some currStixel →
        ((∃ e ∈ graph, e.u = p ∧ e.v = c + exStixels.length) ↔
          ((prevStixel.x - currStixel.x).natAbs
              ≤ compute_maximum_pixelwise_motion_for_stixel exEnv currStixel ∧
            (prevStixel.bottom_y - currStixel.bottom_y).natAbs
              ≤ compute_maximum_pixelwise_motion_for_stixel exEnv currStixel ∧
            exCostState.motion_cost_assignment_matrix
              (prevStixel.x - currStixel.x +
                (exEnv.maximum_possible_motion_in_pixels : Int)).toNat c = true ∧
            exEnv.ops.lt (exEnv.ops.lit 1 1)
              (exCostState.m_stixelsPolarDistMatrix
                (prevStixel.x - currStixel.x +
                  (exEnv.maximum_possible_motion_in_pixels : Int)).toNat c) = true)) :=
  ⟨by decide, by decide,
    edge_added_iff exEnv exCostState exStixels exStixels (by decide) (by decide) (by decide)
      (fun _ _ => Nat.le_refl _) (by decide)⟩

theorem motionLoop_nil (numPrev : Nat) :
    ∀ (nodes : List Nat) (stixels_motion : List Int),
      motionLoop ([] : List (GraphEdge F)) numPrev nodes stixels_motion = some stixels_motion := by
  intro nodes
  induction nodes with
  | nil => intro sm; rfl
  | cons i rest ih =>
    intro sm
    simp only [motionLoop, matchingArc, List.find?_nil]
    exact ih sm

/-- C20: when the previous or the current stixel set is empty (and the matrices have the
dimensions the tracker allocates), `compute_motion_cost_matrix` returns matrices in which no
entry of a shift row is marked feasible, the graph `computeMotionWithGraphs` builds from
them has no edge, and `computeMotionWithGraphs` returns `stixels_motion` with every entry
set to `-1`.  The matcher is run on the edgeless graph; with previous stixels present the
result relies on it returning a matching of that graph, which has no edge either. -/
theorem empty_sets_give_no_match (env : Env F)
    (matcher : List (GraphEdge F) → List (GraphEdge F))
    (previous_stixels current_stixels : List (Stixel F)) (st : CostState F)
    (stixels_motion : List Int)
    (hempty : previous_stixels = [] ∨ current_stixels = [])
    (hmatch : previous_stixels ≠ [] → IsMatching ([] : List (GraphEdge F)) (matcher []))
    (hassert : weightsAssertion env = true)
    (hrows : env.rows = 2 * env.maximum_possible_motion_in_pixels + 2)
    (hcols : current_stixels.length ≤ env.cols) (hc0 : 0 < env.cols)
    (hlut : ∀ c ∈ current_stixels, compute_maximum_pixelwise_motion_for_stixel env c
      ≤ env.maximum_possible_motion_in_pixels)
    (hmax : env.maximum_possible_motion_in_pixels < 2 ^ 31) :
    ∃ final, compute_motion_cost_matrix env previous_stixels current_stixels st = some final ∧
      (∀ r c : Nat, r < env.rows - 1 → final.motion_cost_assignment_matrix r c = false) ∧
      buildGraph env final previous_stixels current_stixels = some [] ∧
      computeMotionWithGraphs env matcher final previous_stixels current_stixels
        stixels_motion = some (stixels_motion.map (fun _ => (-1 : Int))) := by
  obtain ⟨filled, h1, h2⟩ := compute_motion_cost_matrix_returns env previous_stixels
    current_stixels st hassert hrows hcols hc0 hlut hmax
  obtain ⟨graph, hg, hmem⟩ := buildGraph_spec env (finishCosts env (rescaleAndCombine env filled))
    previous_stixels current_stixels (by omega) hcols hc0 hlut hmax
  have hnil : graph = [] := by
    rw [List.eq_nil_iff_forall_not_mem]
    intro e he
    obtain ⟨p, ps, c, cs, hp, hc, _, _⟩ := (hmem e).mp he
    rcases hempty with h | h
    · rw [h] at hp; simp at hp
    · rw [h] at hc; simp at hc
  subst hnil
  refine ⟨_, h1, fun r c hr => ?_, hg, ?_⟩
  · have hne : ¬ (r = env.rows - 1 ∧ c < env.cols) := by omega
    rw [finishCosts_flags, if_neg hne, rescaleAndCombine_flags]
    cases hf : filled.motion_cost_assignment_matrix r c with
    | false => rfl
    | true =>
      obtain ⟨cur, hcur, _, p, hp, _⟩ := (h2 r c).mp hf
      rcases hempty with h | h
      · rw [h] at hp; simp at hp
      · rw [h] at hcur; simp at hcur
  · simp only [computeMotionWithGraphs, hg, Option.some_bind]
    by_cases hprev : previous_stixels = []
    · rw [hprev]
      rfl
    · have hm : matcher [] = [] := by
        rw [List.eq_nil_iff_forall_not_mem]
        intro e he
        exact absurd ((hmatch hprev).1 e he) (List.not_mem_nil e)
      rw [hm]
      exact motionLoop_nil _ _ _

/-- Witness of C20: two previous stixels, no current one. -/
theorem empty_sets_give_no_match_witness :
    (exStixels = [] ∨ ([] : List (Stixel Int)) = []) ∧
    (exStixels ≠ [] → IsMatching ([] : List (GraphEdge Int)) (exMatcher [])) ∧
    weightsAssertion exEnv = true ∧
    exEnv.rows = 2 * exEnv.maximum_possible_motion_in_pixels + 2 ∧
    ∃ final, compute_motion_cost_matrix exEnv exStixels [] exOldState = some final ∧
      (∀ r c : Nat, r < exEnv.rows - 1 → final.motion_cost_assignment_matrix r c = false) ∧
      buildGraph exEnv final exStixels [] = some [] ∧
      computeMotionWithGraphs exEnv exMatcher final exStixels [] [7, 7] =
        some (([7, 7] : List Int).map (fun _ => (-1 : Int))) :=
  ⟨Or.inr rfl, fun _ => by unfold IsMatching; decide, by decide, by decide,
    empty_sets_give_no_match exEnv exMatcher exStixels [] exOldState [7, 7] (Or.inr rfl)
      (fun _ => by unfold IsMatching; decide) (by decide) (by decide) (by decide) (by decide)
      (fun _ h => absurd h (List.not_mem_nil _)) (by decide)⟩

/-- The edge the graph holds between node `p` and the node of `c`: its weight is the
difference of line 915, read at a position inside the matrix. -/
theorem graph_edge_cost (env : Env F) (st : CostState F)
    (previous_stixels current_stixels : List (Stixel F)) (graph : List (GraphEdge F))
    (hr0 : 2 * env.maximum_possible_motion_in_pixels + 1 ≤ env.rows)
    (hcols : current_stixels.length ≤ env.cols) (hc0 : 0 < env.cols)
    (hlut : ∀ c ∈ current_stixels, compute_maximum_pixelwise_motion_for_stixel env c
      ≤ env.maximum_possible_motion_in_pixels)
    (hmax : env.maximum_possible_motion_in_pixels < 2 ^ 31)
    (hg : buildGraph env st previous_stixels current_stixels = some graph)
    (e : GraphEdge F) (he : e ∈ graph) :
    ∃ (p c : Nat) (prevStixel currStixel : Stixel F),
      previous_stixels[p]? = some prevStixel ∧ current_stixels[c]? = some currStixel ∧
      e.u = p ∧ e.v = c + previous_stixels.length ∧
      (prevStixel.x - currStixel.x + (env.maximum_possible_motion_in_pixels : Int)).toNat
        < env.rows ∧ c < env.cols ∧
      e.cost = env.ops.sub (maxCoeff env.ops env.rows env.cols st.motion_cost_matrix)
        (st.motion_cost_matrix
          (prevStixel.x - currStixel.x + (env.maximum_possible_motion_in_pixels : Int)).toNat
          c) := by
  obtain ⟨graph2, hg2, hmem⟩ := buildGraph_spec env st previous_stixels current_stixels hr0
    hcols hc0 hlut hmax
  rw [hg] at hg2
  cases hg2
  obtain ⟨p, ps, c, cs, hp, hc, ht, heq⟩ := (hmem e).mp he
  obtain ⟨hrow, hle⟩ := edge_row_in_range env ps cs
    (hlut cs (List.mem_iff_getElem?.mpr ⟨c, hc⟩)) hmax ht.1.1 ht.1.2.1
  have hclt : c < current_stixels.length := by
    rcases Nat.lt_or_ge c current_stixels.length with h | h
    · exact h
    · rw [List.getElem?_eq_none h] at hc; cases hc
  refine ⟨p, c, ps, cs, hp, hc, by rw [heq]; rfl, by rw [heq]; rfl, ?_, by omega, ?_⟩
  · rw [← hrow]; omega
  · rw [heq, ← hrow]; rfl

section OrderedGraph

variable {K : Type} [LinearOrderedAddCommGroup K]

/-- C19 (amended): in an arithmetic whose comparison is a linear order and whose
subtraction is monotone (a rounded machine subtraction on values that are not NaN is), the
graph is built and every edge, joining some previous stixel `p` with some current stixel
`c`, has the weight `maxCost - motion_cost_matrix(row, c)` as the machine computes it,
`row = p.x - c.x + maximum_possible_motion_in_pixels` and `maxCost` the `maxCoeff` of the
whole matrix, which no entry of the matrix exceeds; every weight is `>= 0`; of two edges
the one whose pair has the lower or equal cost has the higher or equal weight; and where
the subtraction is exact, a strictly lower cost gives a strictly higher weight. -/
theorem edge_weight_is_max_minus_cost (env : Env K) (st : CostState K)
    (previous_stixels current_stixels : List (Stixel K))
    (hlt : ∀ a b, env.ops.lt a b = decide (a < b))
    (hnonneg : ∀ a b, b ≤ a → 0 ≤ env.ops.sub a b)
    (hanti : ∀ a b c, b ≤ c → env.ops.sub a c ≤ env.ops.sub a b)
    (hr0 : 2 * env.maximum_possible_motion_in_pixels + 1 ≤ env.rows)
    (hcols : current_stixels.length ≤ env.cols) (hc0 : 0 < env.cols)
    (hlut : ∀ c ∈ current_stixels, compute_maximum_pixelwise_motion_for_stixel env c
      ≤ env.maximum_possible_motion_in_pixels)
    (hmax : env.maximum_possible_motion_in_pixels < 2 ^ 31) :
    ∃ graph, buildGraph env st previous_stixels current_stixels = some graph ∧
      (∀ r c : Nat, r < env.rows → c < env.cols →
        st.motion_cost_matrix r c ≤ maxCoeff env.ops env.rows env.cols st.motion_cost_matrix) ∧
      ∀ e1 ∈ graph, ∃ (p1 c1 : Nat) (prev1 curr1 : Stixel K),
        previous_stixels[p1]? = some prev1 ∧ current_stixels[c1]? = some curr1 ∧
        e1.u = p1 ∧ e1.v = c1 + previous_stixels.length ∧
        e1.cost = env.ops.sub (maxCoeff env.ops env.rows env.cols st.motion_cost_matrix)
          (st.motion_cost_matrix
            (prev1.x - curr1.x + (env.maximum_possible_motion_in_pixels : Int)).toNat c1) ∧
        0 ≤ e1.cost ∧
        ∀ e2 ∈ graph, ∀ (p2 c2 : Nat) (prev2 curr2 : Stixel K),
          previous_stixels[p2]? = some prev2 → current_stixels[c2]? = some curr2 →
          e2.u = p2 → e2.v = c2 + previous_stixels.length →
          (st.motion_cost_matrix
              (prev1.x - curr1.x + (env.maximum_possible_motion_in_pixels : Int)).toNat c1
            ≤ st.motion_cost_matrix
              (prev2.x - curr2.x + (env.maximum_possible_motion_in_pixels : Int)).toNat c2 →
            e2.cost ≤ e1.cost) ∧
          ((∀ a b, env.ops.sub a b = a - b) →
            st.motion_cost_matrix
              (prev1.x - curr1.x + (env.maximum_possible_motion_in_pixels : Int)).toNat c1
            < st.motion_cost_matrix
              (prev2.x - curr2.x + (env.maximum_possible_motion_in_pixels : Int)).toNat c2 →
            e2.cost < e1.cost) := by
  obtain ⟨graph, hg, _⟩ := buildGraph_spec env st previous_stixels current_stixels hr0
    hcols hc0 hlut hmax
  have hge := maxCoeff_ge env.ops hlt env.rows env.cols st.motion_cost_matrix
  refine ⟨graph, hg, fun r c hr hc => hge r c hr hc, fun e1 he1 => ?_⟩
  obtain ⟨p1, c1, prev1, curr1, hp1, hc1, hu1, hv1, hrow1, hcol1, hcost1⟩ :=
    graph_edge_cost env st previous_stixels current_stixels graph hr0 hcols hc0 hlut hmax hg
      e1 he1
  refine ⟨p1, c1, prev1, curr1, hp1, hc1, hu1, hv1, hcost1, ?_, ?_⟩
  · rw [hcost1]
    exact hnonneg _ _ (hge _ _ hrow1 hcol1)
  · intro e2 he2 p2 c2 prev2 curr2 hp2 hc2 hu2 hv2
    obtain ⟨p3, c3, prev3, curr3, hp3, hc3, hu3, hv3, _, _, hcost2⟩ :=
      graph_edge_cost env st previous_stixels current_stixels graph hr0 hcols hc0 hlut hmax hg
        e2 he2
    have hpp : p3 = p2 := by rw [← hu3, hu2]
    have hcc : c3 = c2 := by omega
    subst hpp
    subst hcc
    rw [hp2] at hp3
    rw [hc2] at hc3
    cases hp3
    cases hc3
    rw [hcost1, hcost2]
    refine ⟨fun hle => hanti _ _ _ hle, fun hexact hlt2 => ?_⟩
    rw [hexact, hexact]
    exact sub_lt_sub_left hlt2 _

end OrderedGraph

/-- Witness of C19 (amended): the graph of two stixels in columns 3 and 4 matched against
themselves, in fixed-point arithmetic, whose subtraction is exact. -/
theorem edge_weight_is_max_minus_cost_witness :
    (∀ a b, exEnv.ops.lt a b = decide (a < b)) ∧
    (∀ a b : Int, b ≤ a → 0 ≤ exEnv.ops.sub a b) ∧
    (∀ a b c : Int, b ≤ c → exEnv.ops.sub a c ≤ exEnv.ops.sub a b) ∧
    2 * exEnv.maximum_possible_motion_in_pixels + 1 ≤ exEnv.rows ∧
    exStixels.length ≤ exEnv.cols ∧
    ∃ graph, buildGraph exEnv exCostState exStixels exStixels = some graph ∧
      (∀ r c : Nat, r < exEnv.rows → c < exEnv.cols →
        exCostState.motion_cost_matrix r c
          ≤ maxCoeff exEnv.ops exEnv.rows exEnv.cols exCostState.motion_cost_matrix) ∧
      ∀ e1 ∈ graph, ∃ (p1 c1 : Nat) (prev1 curr1 : Stixel Int),
        exStixels[p1]? = some prev1 ∧ exStixels[c1]? = some curr1 ∧
        e1.u = p1 ∧ e1.v = c1 + exStixels.length ∧
        e1.cost = exEnv.ops.sub
          (maxCoeff exEnv.ops exEnv.rows exEnv.cols exCostState.motion_cost_matrix)
          (exCostState.motion_cost_matrix
            (prev1.x - curr1.x + (exEnv.maximum_possible_motion_in_pixels : Int)).toNat c1) ∧
        0 ≤ e1.cost ∧
        ∀ e2 ∈ graph, ∀ (p2 c2 : Nat) (prev2 curr2 : Stixel Int),
          exStixels[p2]? = some prev2 → exStixels[c2]? = some curr2 →
          e2.u = p2 → e2.v = c2 + exStixels.length →
          (exCostState.motion_cost_matrix
              (prev1.x - curr1.x + (exEnv.maximum_possible_motion_in_pixels : Int)).toNat c1
            ≤ exCostState.motion_cost_matrix
              (prev2.x - curr2.x + (exEnv.maximum_possible_motion_in_pixels : Int)).toNat c2 →
            e2.cost ≤ e1.cost) ∧
          ((∀ a b, exEnv.ops.sub a b = a - b) →
            exCostState.motion_cost_matrix
              (prev1.x - curr1.x + (exEnv.maximum_possible_motion_in_pixels : Int)).toNat c1
            < exCostState.motion_cost_matrix
              (prev2.x - curr2.x + (exEnv.maximum_possible_motion_in_pixels : Int)).toNat c2 →
            e2.cost < e1.cost) :=
  ⟨fun _ _ => rfl, fun a b h => sub_nonneg.mpr h, fun a b c h => sub_le_sub_left h a,
    by decide, by decide,
    edge_weight_is_max_minus_cost exEnv exCostState exStixels exStixels (fun _ _ => rfl)
      (fun a b h => sub_nonneg.mpr h) (fun a b c h => sub_le_sub_left h a) (by decide)
      (by decide) (by decide) (fun _ _ => Nat.le_refl _) (by decide)⟩

set_option maxRecDepth 100000 in
/-- Counterexample to C19 in binary32 arithmetic: with weights 0.5, 0.25, 0, 0, 0.25 the
pair of previous stixel 0 and current stixel 0 costs `5` (entry `(1, 0)`), the pair of
previous stixel 0 and current stixel 1 costs `5 + 2 ^ (-21)` (entry `(0, 1)`), the maximum
of the final matrix is `153`, and both edges get the weight `148 = 37 * 2 ^ 2`: the
difference `153 - (5 + 2 ^ (-21))` is rounded to `148`.  The strictly lower cost does not
get a strictly higher weight. -/
theorem edge_weight_not_strict_counterexample :
    (compute_motion_cost_matrix exEnvF exPrevF exCurrF exOldStateF).map (fun final =>
      ([final.motion_cost_matrix 1 0, final.motion_cost_matrix 0 1,
          maxCoeff exEnvF.ops exEnvF.rows exEnvF.cols final.motion_cost_matrix],
        buildGraph exEnvF final exPrevF exCurrF)) =
      some ([{ m := 5, e := 0 }, { m := 10485761, e := -21 }, { m := 153, e := 0 }],
        some [{ u := 0, v := 2, cost := { m := 37, e := 2 } },
          { u := 0, v := 3, cost := { m := 37, e := 2 } },
          { u := 1, v := 2, cost := { m := 337, e := -2 } },
          { u := 1, v := 3, cost := { m := 337, e := -2 } }]) ∧
    f32Ops.lt { m := 5, e := 0 } { m := 10485761, e := -21 } = true ∧
    f32Ops.lt { m := 37, e := 2 } { m := 37, e := 2 } = false := by
  decide

end GraphEdgeTheorems

/-! ## Properties of the constructor and of set_motion_cost_factors -/

section ConfigurationTheorems

variable {F : Type}

theorem set_motion_cost_factors_ops (t : StixelsTracker F) (a b c d e : F) (g : Bool) :
    (set_motion_cost_factors t a b c d e g).env.ops = t.env.ops := by
  unfold set_motion_cost_factors
  simp only
  split_ifs <;> rfl

/-- A call whose arguments pass the test of line 78 leaves weights that pass the assertion
of line 193, and a call whose arguments fail it leaves the weights as they were. -/
theorem set_motion_cost_factors_assertion (t : StixelsTracker F) (a b c d e : F) (g : Bool)
    (h : weightsAssertion t.env = true) :
    weightsAssertion (set_motion_cost_factors t a b c d e g).env = true := by
  unfold set_motion_cost_factors
  simp only
  split_ifs with h1
  · exact h1
  · exact h

/-- C21: `set_motion_cost_factors` compares the machine sum of its five weights with `1.0`.
When the comparison fails, the five stored weights keep the values they had; when it
succeeds, each of the five stored weights is the corresponding argument. -/
theorem set_motion_cost_factors_weights (t : StixelsTracker F)
    (sad_factor height_factor polar_dist_factor polar_sad_factor dense_tracking_factor : F)
    (useGraphs : Bool) :
    (t.env.ops.eq
        (t.env.ops.add
          (t.env.ops.add
            (t.env.ops.add (t.env.ops.add sad_factor height_factor) polar_dist_factor)
            polar_sad_factor)
          dense_tracking_factor)
        (t.env.ops.lit 1 1) = false →
      (set_motion_cost_factors t sad_factor height_factor polar_dist_factor polar_sad_factor
          dense_tracking_factor useGraphs).env.m_sad_factor = t.env.m_sad_factor ∧
      (set_motion_cost_factors t sad_factor height_factor polar_dist_factor polar_sad_factor
          dense_tracking_factor useGraphs).env.m_height_factor = t.env.m_height_factor ∧
      (set_motion_cost_factors t sad_factor height_factor polar_dist_factor polar_sad_factor
          dense_tracking_factor useGraphs).env.m_polar_dist_factor = t.env.m_polar_dist_factor ∧
      (set_motion_cost_factors t sad_factor height_factor polar_dist_factor polar_sad_factor
          dense_tracking_factor useGraphs).env.m_polar_sad_factor = t.env.m_polar_sad_factor ∧
      (set_motion_cost_factors t sad_factor height_factor polar_dist_factor polar_sad_factor
          dense_tracking_factor useGraphs).env.m_dense_tracking_factor =
        t.env.m_dense_tracking_factor) ∧
    (t.env.ops.eq
        (t.env.ops.add
          (t.env.ops.add
            (t.env.ops.add (t.env.ops.add sad_factor height_factor) polar_dist_factor)
            polar_sad_factor)
          dense_tracking_factor)
        (t.env.ops.lit 1 1) = true →
      (set_motion_cost_factors t sad_factor height_factor polar_dist_factor polar_sad_factor
          dense_tracking_factor useGraphs).env.m_sad_factor = sad_factor ∧
      (set_motion_cost_factors t sad_factor height_factor polar_dist_factor polar_sad_factor
          dense_tracking_factor useGraphs).env.m_height_factor = height_factor ∧
      (set_motion_cost_factors t sad_factor height_factor polar_dist_factor polar_sad_factor
          dense_tracking_factor useGraphs).env.m_polar_dist_factor = polar_dist_factor ∧
      (set_motion_cost_factors t sad_factor height_factor polar_dist_factor polar_sad_factor
          dense_tracking_factor useGraphs).env.m_polar_sad_factor = polar_sad_factor ∧
      (set_motion_cost_factors t sad_factor height_factor polar_dist_factor polar_sad_factor
          dense_tracking_factor useGraphs).env.m_dense_tracking_factor =
        dense_tracking_factor) := by
  constructor
  · intro h
    unfold set_motion_cost_factors
    simp [h]
  · intro h
    unfold set_motion_cost_factors
    simp [h]

/-- C28: `set_motion_cost_factors` stores `useGraphs` into `m_useGraphs` in every case, and
when the comparison of the sum of the weights with `1.0` fails the object it leaves is the
former object with `m_useGraphs` replaced: no other member has changed. -/
theorem set_motion_cost_factors_useGraphs (t : StixelsTracker F)
    (sad_factor height_factor polar_dist_factor polar_sad_factor dense_tracking_factor : F)
    (useGraphs : Bool) :
    (set_motion_cost_factors t sad_factor height_factor polar_dist_factor polar_sad_factor
        dense_tracking_factor useGraphs).m_useGraphs = useGraphs ∧
    (t.env.ops.eq
        (t.env.ops.add
          (t.env.ops.add
            (t.env.ops.add (t.env.ops.add sad_factor height_factor) polar_dist_factor)
            polar_sad_factor)
          dense_tracking_factor)
        (t.env.ops.lit 1 1) = false →
      set_motion_cost_factors t sad_factor height_factor polar_dist_factor polar_sad_factor
          dense_tracking_factor useGraphs = { t with m_useGraphs := useGraphs }) := by
  constructor
  · rfl
  · intro h
    unfold set_motion_cost_factors
    simp only [h, Bool.false_eq_true, if_false]

section ExactWeights

variable {K : Type} [Field K] [CharZero K]

/-- C22: in exact arithmetic (the sum, the literals and the comparison of the machine being
those of a field of characteristic zero), every object reached from the constructor by calls
of `set_motion_cost_factors` has five weights whose sum is 1 and passes the assertion at the
start of `compute_motion_cost_matrix`. -/
theorem weights_sum_to_one (env : Env K) (costs : CostState K) (stixels_motion : List Int)
    (hadd : ∀ a b, env.ops.add a b = a + b)
    (hlit : ∀ n d : Nat, env.ops.lit n d = (n : K) / (d : K))
    (heq : ∀ a b, env.ops.eq a b = true ↔ a = b)
    (t : StixelsTracker K) (h : ConfigReachable env costs stixels_motion t) :
    t.env.m_sad_factor + t.env.m_height_factor + t.env.m_polar_dist_factor +
        t.env.m_polar_sad_factor + t.env.m_dense_tracking_factor = 1 ∧
    weightsAssertion t.env = true := by
  have hinv : t.env.ops = env.ops ∧ weightsAssertion t.env = true := by
    induction h with
    | init =>
      refine ⟨rfl, ?_⟩
      show env.ops.eq _ _ = true
      rw [heq]
      simp only [StixelsTracker.StixelsTracker, hadd, hlit]
      norm_num
    | step t a b c d e g _ ih =>
      exact ⟨by rw [set_motion_cost_factors_ops]; exact ih.1,
        set_motion_cost_factors_assertion t a b c d e g ih.2⟩
  obtain ⟨hops, hw⟩ := hinv
  refine ⟨?_, hw⟩
  unfold weightsAssertion at hw
  rw [hops, heq, hadd, hadd, hadd, hadd, hlit] at hw
  rw [hw]
  norm_num

end ExactWeights

/-- Witness of C21: a tracker in fixed-point arithmetic; the weights 0.5, 0.4, 0, 0, 0 are
rejected and the weights 0.5, 0.5, 0, 0, 0 are stored. -/
theorem set_motion_cost_factors_weights_witness :
    (set_motion_cost_factors exClusterTracker 500 400 0 0 0 false).env.m_sad_factor = 300 ∧
    (set_motion_cost_factors exClusterTracker 500 500 0 0 0 false).env.m_sad_factor = 500 :=
  ⟨((set_motion_cost_factors_weights exClusterTracker 500 400 0 0 0 false).1 (by decide)).1,
    ((set_motion_cost_factors_weights exClusterTracker 500 500 0 0 0 false).2 (by decide)).1⟩

/-- Witness of C28: the rejected weights 0.5, 0.4, 0, 0, 0 with `useGraphs = false`. -/
theorem set_motion_cost_factors_useGraphs_witness :
    exClusterTracker.m_useGraphs = true ∧
    (set_motion_cost_factors exClusterTracker 500 400 0 0 0 false).m_useGraphs = false ∧
    set_motion_cost_factors exClusterTracker 500 400 0 0 0 false =
      { exClusterTracker with m_useGraphs := false } :=
  ⟨rfl, (set_motion_cost_factors_useGraphs exClusterTracker 500 400 0 0 0 false).1,
    (set_motion_cost_factors_useGraphs exClusterTracker 500 400 0 0 0 false).2 (by decide)⟩

set_option maxRecDepth 100000 in
/-- The weights of the constructor pass the assertion in binary32 arithmetic as well:
`0.3f + 0.7f` is exactly `1.0f`. -/
theorem constructor_weights_binary32 :
    weightsAssertion (StixelsTracker.StixelsTracker exEnvF exOldStateF []).env = true := by
  decide

set_option maxRecDepth 100000 in
/-- In binary32 arithmetic the weights `0.1f, 0.2f, 0.4f, 0.1f, 0.2f` fail the test of line
78: their sum, added from left to right, is `1 + 2 ^ (-23)`. -/
theorem decimal_weights_binary32 :
    f32Ops.add
        (f32Ops.add
          (f32Ops.add (f32Ops.add (f32Ops.lit 1 10) (f32Ops.lit 2 10)) (f32Ops.lit 4 10))
          (f32Ops.lit 1 10))
        (f32Ops.lit 2 10) = { m := 8388609, e := -23 } ∧
    (set_motion_cost_factors (StixelsTracker.StixelsTracker exEnvF exOldStateF [])
      (f32Ops.lit 1 10) (f32Ops.lit 2 10) (f32Ops.lit 4 10) (f32Ops.lit 1 10) (f32Ops.lit 2 10)
      true).env.m_sad_factor = f32Ops.lit 3 10 := by
  decide

/-- Witness of C22: the constructor followed by an accepted and by a rejected call, in exact
rational arithmetic. -/
theorem weights_sum_to_one_witness :
    ConfigReachable exEnvQ exOldStateQ []
      (set_motion_cost_factors
        (set_motion_cost_factors (StixelsTracker.StixelsTracker exEnvQ exOldStateQ [])
          (1 / 2) (1 / 2) 0 0 0 false)
        (1 / 2) (1 / 3) 0 0 0 true) ∧
    (set_motion_cost_factors
        (set_motion_cost_factors (StixelsTracker.StixelsTracker exEnvQ exOldStateQ [])
          (1 / 2) (1 / 2) 0 0 0 false)
        (1 / 2) (1 / 3) 0 0 0 true).env.m_sad_factor = 1 / 2 ∧
    weightsAssertion
      (set_motion_cost_factors
        (set_motion_cost_factors (StixelsTracker.StixelsTracker exEnvQ exOldStateQ [])
          (1 / 2) (1 / 2) 0 0 0 false)
        (1 / 2) (1 / 3) 0 0 0 true).env = true :=
  ⟨ConfigReachable.step _ _ _ _ _ _ _ (ConfigReachable.step _ _ _ _ _ _ _ ConfigReachable.init),
    by simp [set_motion_cost_factors, StixelsTracker.StixelsTracker, exEnvQ, exactOps]; norm_num,
    (weights_sum_to_one exEnvQ exOldStateQ [] (fun _ _ => rfl) (fun _ _ => rfl)
      (fun a b => by simp [exEnvQ, exactOps]) _
      (ConfigReachable.step _ _ _ _ _ _ _
        (ConfigReachable.step _ _ _ _ _ _ _ ConfigReachable.init))).2⟩

end ConfigurationTheorems

/-! ## compute_motion_cost_matrix does not depend on the former matrices -/

section IdempotenceTheorems

variable {F : Type}

theorem pairStep_costs (env : Env F) (s_current : Nat) (current_stixel : Stixel F)
    (padding : Nat) (current_stixel_depth current_stixel_real_height : F)
    (previous_stixel : Stixel F) (st : CostState F) (a b : F) :
    pairStep env s_current current_stixel padding current_stixel_depth
        current_stixel_real_height previous_stixel
        { st with insertion_cost_dp := a, deletion_cost_dp := b } =
      (pairStep env s_current current_stixel padding current_stixel_depth
        current_stixel_real_height previous_stixel st).map
        (fun r => { r with insertion_cost_dp := a, deletion_cost_dp := b }) := by
  rw [pairStep_eq, pairStep_eq]
  split_ifs <;> rfl

theorem prevLoop_costs (env : Env F) (s_current : Nat) (current_stixel : Stixel F)
    (padding : Nat) (current_stixel_depth current_stixel_real_height : F) (a b : F) :
    ∀ (previous_stixels : List (Stixel F)) (st : CostState F),
      prevLoop env s_current current_stixel padding current_stixel_depth
          current_stixel_real_height previous_stixels
          { st with insertion_cost_dp := a, deletion_cost_dp := b } =
        (prevLoop env s_current current_stixel padding current_stixel_depth
          current_stixel_real_height previous_stixels st).map
          (fun r => { r with insertion_cost_dp := a, deletion_cost_dp := b }) := by
  intro previous_stixels
  induction previous_stixels with
  | nil => intro st; rfl
  | cons p rest ih =>
    intro st
    simp only [prevLoop]
    rw [pairStep_costs]
    cases pairStep env s_current current_stixel padding current_stixel_depth
        current_stixel_real_height p st with
    | none => rfl
    | some mid =>
      simp only [Option.map_some', Option.some_bind]
      exact ih mid

theorem currStep_costs (env : Env F) (previous_stixels : List (Stixel F)) (s_current : Nat)
    (current_stixel : Stixel F) (st : CostState F) (a b : F) :
    currStep env previous_stixels s_current current_stixel
        { st with insertion_cost_dp := a, deletion_cost_dp := b } =
      (currStep env previous_stixels s_current current_stixel st).map
        (fun r => { r with insertion_cost_dp := a, deletion_cost_dp := b }) := by
  rw [currStep_eq, currStep_eq]
  split_ifs
  · exact prevLoop_costs env s_current current_stixel _ _ _ a b previous_stixels
      { st with
        current_stixel_depths :=
          setVec st.current_stixel_depths s_current (stixelDepth env current_stixel)
        current_stixel_real_heights :=
          setVec st.current_stixel_real_heights s_current
            (env.compute_stixel_real_height current_stixel) }
  · rfl
  · rfl

theorem currLoop_costs (env : Env F) (previous_stixels : List (Stixel F)) (a b : F) :
    ∀ (current_stixels : List (Stixel F)) (s_current : Nat) (st : CostState F),
      currLoop env previous_stixels s_current current_stixels
          { st with insertion_cost_dp := a, deletion_cost_dp := b } =
        (currLoop env previous_stixels s_current current_stixels st).map
          (fun r => { r with insertion_cost_dp := a, deletion_cost_dp := b }) := by
  intro current_stixels
  induction current_stixels with
  | nil => intro s_current st; rfl
  | cons c rest ih =>
    intro s_current st
    simp only [currLoop]
    rw [currStep_costs]
    cases currStep env previous_stixels s_current c st with
    | none => rfl
    | some mid =>
      simp only [Option.map_some', Option.some_bind]
      exact ih (s_current + 1) mid

theorem finishCosts_costs (env : Env F) (st : CostState F) (a b : F) :
    finishCosts env { st with insertion_cost_dp := a, deletion_cost_dp := b } =
      finishCosts env st := by
  unfold finishCosts
  simp only [fillInfeasible_eq, fillLastRow_eq]

/-- C25: the result of `compute_motion_cost_matrix` (the combined matrix, the five component
matrices, the feasibility matrix, the two vectors and the insertion and deletion costs, or
the absence of a result) is the same for every former content of the matrices; so a second
run on the matrices that a first run has left gives these matrices again. -/
theorem compute_motion_cost_matrix_idempotent (env : Env F)
    (previous_stixels current_stixels : List (Stixel F)) :
    (∀ st1 st2 : CostState F,
      compute_motion_cost_matrix env previous_stixels current_stixels st1 =
        compute_motion_cost_matrix env previous_stixels current_stixels st2) ∧
    (∀ st final : CostState F,
      compute_motion_cost_matrix env previous_stixels current_stixels st = some final →
      compute_motion_cost_matrix env previous_stixels current_stixels final = some final) := by
  have key : ∀ st1 st2 : CostState F,
      compute_motion_cost_matrix env previous_stixels current_stixels st1 =
        compute_motion_cost_matrix env previous_stixels current_stixels st2 := by
    intro st1 st2
    unfold compute_motion_cost_matrix
    have h1 : resetState env st1 =
        { resetState env st2 with
          insertion_cost_dp := st1.insertion_cost_dp
          deletion_cost_dp := st1.deletion_cost_dp } := rfl
    rw [h1, currLoop_costs]
    cases currLoop env previous_stixels 0 current_stixels (resetState env st2) with
    | none => rfl
    | some filled =>
      simp only [Option.map_some', Option.some_bind]
      have h2 : rescaleAndCombine env
          { filled with
            insertion_cost_dp := st1.insertion_cost_dp
            deletion_cost_dp := st1.deletion_cost_dp } =
          { rescaleAndCombine env filled with
            insertion_cost_dp := st1.insertion_cost_dp
            deletion_cost_dp := st1.deletion_cost_dp } := rfl
      rw [h2, finishCosts_costs]
  exact ⟨key, fun st final h => by rw [key final st]; exact h⟩

/-- Witness of C25: a run on matrices with arbitrary content returns, and the run on the
matrices it leaves returns the same matrices. -/
theorem compute_motion_cost_matrix_idempotent_witness :
    ∃ final, compute_motion_cost_matrix exEnv exStixels exStixels exOldState = some final ∧
      compute_motion_cost_matrix exEnv exStixels exStixels final = some final := by
  obtain ⟨filled, h, _⟩ := compute_motion_cost_matrix_returns exEnv exStixels exStixels
    exOldState (by decide) (by decide) (by decide) (by decide) (fun _ _ => Nat.le_refl _)
    (by decide)
  exact ⟨_, h, (compute_motion_cost_matrix_idempotent exEnv exStixels exStixels).2 _ _ h⟩

end IdempotenceTheorems

/-! ## Links of the records held in the tracks -/

section TrackLinkTheorems

variable {F : Type}

/-- The tracks after a later-frame call that returns: track `i` is the former track that
the correspondence entry names, or nothing, followed by the new record. -/
theorem updateTracker_next_track (MAX : Nat) (make3d : Stixel F → Stixel3d F)
    (currStixels : List (Stixel F)) (corresp : List Int) (s s2 : TrackerState F)
    (hne : s.m_tracker ≠ [])
    (h : updateTracker MAX make3d currStixels corresp s = some s2) :
    (∀ (i : Nat) (stixel : Stixel F) (ci : Int),
      currStixels[i]? = some stixel → corresp[i]? = some ci →
      ∃ old, (old = [] ∨ old ∈ s.m_tracker) ∧ (ci < 0 → old = []) ∧
        (0 ≤ ci → s.m_tracker[ci.toNat]? = some old) ∧
        s2.m_tracker[i]? = some (old ++ [nextFrameRecord make3d stixel ci])) ∧
    (∀ track ∈ s2.m_tracker, ∃ (stixel : Stixel F) (ci : Int) (old : List (Stixel3d F)),
      (old = [] ∨ old ∈ s.m_tracker) ∧ (ci < 0 → old = []) ∧
      track = old ++ [nextFrameRecord make3d stixel ci]) := by
  obtain ⟨last, older, last2, _, g1, _, _, _, g5, _, _⟩ :=
    updateTracker_next_eq_some MAX make3d currStixels corresp s s2 hne h
  have hstep : ∀ (i : Nat) (stixel : Stixel F) (ci : Int),
      currStixels[i]? = some stixel → corresp[i]? = some ci →
      ∃ old, (old = [] ∨ old ∈ s.m_tracker) ∧ (ci < 0 → old = []) ∧
        (0 ≤ ci → s.m_tracker[ci.toNat]? = some old) ∧
        s2.m_tracker[i]? = some (old ++ [nextFrameRecord make3d stixel ci]) := by
    intro i stixel ci hst hci
    have hget : s2.m_tracker[i]? = some (nextFrameTrack make3d s.m_tracker stixel ci) := by
      rw [g1, List.getElem?_zipWith, hst, hci]
    have hi : i < currStixels.length := by
      rcases Nat.lt_or_ge i currStixels.length with hlt | hge
      · exact hlt
      · rw [List.getElem?_eq_none hge] at hst; cases hst
    by_cases h0 : 0 ≤ ci
    · have hlt := (g5 i ci hi hci h0).1
      refine ⟨s.m_tracker[ci.toNat], Or.inr (List.getElem_mem _), fun hneg => by omega,
        fun _ => List.getElem?_eq_getElem hlt, ?_⟩
      rw [hget]
      simp [nextFrameTrack, h0, List.getElem?_eq_getElem hlt]
    · refine ⟨[], Or.inl rfl, fun _ => rfl, fun h1 => absurd h1 h0, ?_⟩
      rw [hget]
      simp [nextFrameTrack, h0]
  refine ⟨hstep, fun track ht => ?_⟩
  obtain ⟨n, hn⟩ := List.mem_iff_getElem?.mp ht
  have hn2 := hn
  rw [g1, List.getElem?_zipWith] at hn2
  cases ha : currStixels[n]? with
  | none => simp [ha] at hn2
  | some stixel =>
    cases hb : corresp[n]? with
    | none => simp [ha, hb] at hn2
    | some ci =>
      obtain ⟨old, ho1, ho2, _, ho4⟩ := hstep n stixel ci ha hb
      rw [hn] at ho4
      exact ⟨stixel, ci, old, ho1, ho2, (Option.some.inj ho4)⟩

theorem nextFrameRecord_forward (make3d : Stixel F → Stixel3d F) (stixel : Stixel F)
    (ci : Int) : (nextFrameRecord make3d stixel ci).valid_forward_delta_x = false := by
  unfold nextFrameRecord
  split_ifs <;> rfl

theorem nextFrameRecord_backward (make3d : Stixel F → Stixel3d F) (stixel : Stixel F)
    (ci : Int) : (nextFrameRecord make3d stixel ci).valid_backward_delta_x = decide (0 ≤ ci) := by
  unfold nextFrameRecord
  split_ifs with h <;> simp [h]

/-- A record read in `old ++ [rec]` is a record of `old` at the same position, or `rec` at
the position that follows `old`. -/
theorem getElem?_append_singleton {α : Type} (old : List α) (a r : α) (k : Nat)
    (h : (old ++ [a])[k]? = some r) :
    old[k]? = some r ∨ (k = old.length ∧ r = a) := by
  rcases Nat.lt_or_ge k old.length with hlt | hge
  · rw [List.getElem?_append_left hlt] at h
    exact Or.inl h
  · rw [List.getElem?_append_right hge] at h
    rcases Nat.eq_zero_or_pos (k - old.length) with h0 | hpos
    · rw [h0] at h
      simp only [List.getElem?_cons_zero, Option.some.injEq] at h
      exact Or.inr ⟨by omega, h.symm⟩
    · obtain ⟨m, hm⟩ : ∃ m, k - old.length = m + 1 := ⟨k - old.length - 1, by omega⟩
      rw [hm] at h
      simp at h

theorem updateTracker_backwardLinked (MAX : Nat) (make3d : Stixel F → Stixel3d F)
    (currStixels : List (Stixel F)) (corresp : List Int) (s s2 : TrackerState F)
    (h : updateTracker MAX make3d currStixels corresp s = some s2)
    (hinv : BackwardLinked s) : BackwardLinked s2 := by
  by_cases hne : s.m_tracker = []
  · rw [updateTracker_first MAX make3d currStixels corresp s hne] at h
    simp only [Option.some.injEq] at h
    subst h
    intro track ht k r hk hr
    obtain ⟨st, _, hst⟩ := List.mem_map.mp ht
    rw [← hst] at hr
    obtain ⟨m, rfl⟩ : ∃ m, k = m + 1 := ⟨k - 1, by omega⟩
    simp at hr
  · obtain ⟨_, hall⟩ := updateTracker_next_track MAX make3d currStixels corresp s s2 hne h
    intro track ht k r hk hr
    obtain ⟨stixel, ci, old, ho1, ho2, rfl⟩ := hall track ht
    rcases getElem?_append_singleton old _ r k hr with h1 | ⟨h1, h2⟩
    · rcases ho1 with h3 | h3
      · rw [h3] at h1; simp at h1
      · exact hinv old h3 k r hk h1
    · rw [h2, nextFrameRecord_backward]
      by_cases h0 : 0 ≤ ci
      · simp [h0]
      · have := ho2 (by omega)
        rw [this] at h1
        simp only [List.length_nil] at h1
        omega

theorem updateTracker_forwardUnset (MAX : Nat) (make3d : Stixel F → Stixel3d F)
    (currStixels : List (Stixel F)) (corresp : List Int) (s s2 : TrackerState F)
    (h : updateTracker MAX make3d currStixels corresp s = some s2)
    (hinv : ForwardUnset make3d s) : ForwardUnset make3d s2 := by
  by_cases hne : s.m_tracker = []
  · rw [updateTracker_first MAX make3d currStixels corresp s hne] at h
    simp only [Option.some.injEq] at h
    subst h
    intro track ht k r hr
    obtain ⟨st, _, hst⟩ := List.mem_map.mp ht
    rw [← hst] at hr
    rcases k with _ | k
    · simp only [List.getElem?_cons_zero, Option.some.injEq] at hr
      exact Or.inr ⟨rfl, st, hr.symm⟩
    · simp at hr
  · obtain ⟨_, hall⟩ := updateTracker_next_track MAX make3d currStixels corresp s s2 hne h
    intro track ht k r hr
    obtain ⟨stixel, ci, old, ho1, _, rfl⟩ := hall track ht
    rcases getElem?_append_singleton old _ r k hr with h1 | ⟨_, h2⟩
    · rcases ho1 with h3 | h3
      · rw [h3] at h1; simp at h1
      · exact hinv old h3 k r h1
    · exact Or.inl (by rw [h2]; exact nextFrameRecord_forward make3d stixel ci)

/-- C26: a later-frame call of `updateTracker` that returns keeps the property that every
record of a track but the first one has a valid backward link, and the track of every
unmatched column is a single record whose backward link is not valid; in every reachable
state every record of a track at a position `k >= 1` has a valid backward link. -/
theorem backward_links_kept (MAX : Nat) (make3d : Stixel F → Stixel3d F) :
    (∀ (currStixels : List (Stixel F)) (corresp : List Int) (s s2 : TrackerState F),
      s.m_tracker ≠ [] → updateTracker MAX make3d currStixels corresp s = some s2 →
      BackwardLinked s →
      BackwardLinked s2 ∧
      ∀ (i : Nat) (stixel : Stixel F) (ci : Int),
        currStixels[i]? = some stixel → corresp[i]? = some ci → ci < 0 →
        ∃ r, s2.m_tracker[i]? = some [r] ∧ r.valid_backward_delta_x = false) ∧
    (∀ s : TrackerState F, Reachable MAX make3d s →
      ∀ track ∈ s.m_tracker, ∀ (k : Nat) (r : Stixel3d F), 1 ≤ k → track[k]? = some r →
        r.valid_backward_delta_x = true) := by
  constructor
  · intro currStixels corresp s s2 hne h hinv
    refine ⟨updateTracker_backwardLinked MAX make3d currStixels corresp s s2 h hinv, ?_⟩
    intro i stixel ci hst hci hneg
    obtain ⟨hstep, _⟩ := updateTracker_next_track MAX make3d currStixels corresp s s2 hne h
    obtain ⟨old, _, ho2, _, ho4⟩ := hstep i stixel ci hst hci
    rw [ho2 hneg] at ho4
    refine ⟨_, ho4, ?_⟩
    rw [nextFrameRecord_backward]
    simp only [decide_eq_false_iff_not]
    omega
  · intro s hreach
    induction hreach with
    | init =>
      intro track ht
      cases ht
    | step s s2 currStixels corresp _ hstep ih =>
      exact updateTracker_backwardLinked MAX make3d currStixels corresp s s2 hstep ih

/-- C27: on a later frame the track of every current column is a former track (or nothing),
record for record, followed by one new record whose forward link is not valid: the call
writes no forward link into a track.  Every call keeps the property that the only record of
a track that can have a valid forward link is a first record pushed by the first-frame
branch, and the property holds in every reachable state: a record appended on a later frame
never gets a forward link, whatever the following frames match. -/
theorem forward_links_not_in_tracks (MAX : Nat) (make3d : Stixel F → Stixel3d F) :
    (∀ (currStixels : List (Stixel F)) (corresp : List Int) (s s2 : TrackerState F),
      s.m_tracker ≠ [] → updateTracker MAX make3d currStixels corresp s = some s2 →
      ∀ (i : Nat) (stixel : Stixel F) (ci : Int),
        currStixels[i]? = some stixel → corresp[i]? = some ci →
        ∃ old rec, (old = [] ∨ old ∈ s.m_tracker) ∧
          (0 ≤ ci → s.m_tracker[ci.toNat]? = some old) ∧
          s2.m_tracker[i]? = some (old ++ [rec]) ∧ rec.valid_forward_delta_x = false) ∧
    (∀ (currStixels : List (Stixel F)) (corresp : List Int) (s s2 : TrackerState F),
      updateTracker MAX make3d currStixels corresp s = some s2 →
      ForwardUnset make3d s → ForwardUnset make3d s2) ∧
    (∀ s : TrackerState F, Reachable MAX make3d s →
      ∀ track ∈ s.m_tracker, ∀ (k : Nat) (r : Stixel3d F), track[k]? = some r →
        r.valid_forward_delta_x = false ∨
          (k = 0 ∧ ∃ stixel, r = firstFrameTrackRecord make3d stixel)) := by
  refine ⟨?_, ?_, ?_⟩
  · intro currStixels corresp s s2 hne h i stixel ci hst hci
    obtain ⟨hstep, _⟩ := updateTracker_next_track MAX make3d currStixels corresp s s2 hne h
    obtain ⟨old, ho1, _, ho3, ho4⟩ := hstep i stixel ci hst hci
    exact ⟨old, _, ho1, ho3, ho4, nextFrameRecord_forward make3d stixel ci⟩
  · intro currStixels corresp s s2 h hinv
    exact updateTracker_forwardUnset MAX make3d currStixels corresp s s2 h hinv
  · intro s hreach
    induction hreach with
    | init =>
      intro track ht
      cases ht
    | step s s2 currStixels corresp _ hstep ih =>
      exact updateTracker_forwardUnset MAX make3d currStixels corresp s s2 hstep ih

/-- Witness of C26: the second frame `exStixels` with correspondence `[1, -1]` after the
first frame. -/
theorem backward_links_kept_witness :
    exTracker1.m_tracker ≠ [] ∧
    ∃ s2, updateTracker 3 exMake3d exStixels [1, -1] exTracker1 = some s2 ∧
      BackwardLinked s2 ∧
      ∀ (i : Nat) (stixel : Stixel Int) (ci : Int),
        exStixels[i]? = some stixel → ([1, -1] : List Int)[i]? = some ci → ci < 0 →
        ∃ r, s2.m_tracker[i]? = some [r] ∧ r.valid_backward_delta_x = false :=
  ⟨by decide, exTrackerUnmatched, by decide,
    (backward_links_kept 3 exMake3d).1 exStixels [1, -1] exTracker1 exTrackerUnmatched
      (by decide) (by decide)
      ((backward_links_kept 3 exMake3d).2 exTracker1 exTracker1_reachable)⟩

/-- Witness of C27: three frames of `exStixels4`, every column matched with itself in the
second and the third one.  The record that the second frame appended to track 0 has no
forward link after the third frame, which matched it, while its copy in the snapshot of the
second frame has one. -/
theorem forward_links_not_in_tracks_witness :
    Reachable 3 exMake3dNear exTracks3 ∧
    (exTracks3.m_tracker[0]?.bind (fun track => track[1]?)).map
      (fun r => r.valid_forward_delta_x) = some false ∧
    (exTracks3.m_stixelsHistoric[1]?.bind (fun snapshot => snapshot[0]?)).map
      (fun r => r.valid_forward_delta_x) = some true ∧
    ∀ track ∈ exTracks3.m_tracker, ∀ (k : Nat) (r : Stixel3d Int), track[k]? = some r →
      r.valid_forward_delta_x = false ∨
        (k = 0 ∧ ∃ stixel, r = firstFrameTrackRecord exMake3dNear stixel) :=
  have hreach : Reachable 3 exMake3dNear exTracks3 :=
    Reachable.step exTracks2 exTracks3 exStixels4 [0, 1, 2, 3]
      (Reachable.step exTracks1 exTracks2 exStixels4 [0, 1, 2, 3]
        (Reachable.step initialTracker exTracks1 exStixels4 [-1, -1, -1, -1] Reachable.init
          (by decide))
        (by decide))
      (by decide)
  ⟨hreach, by decide, by decide, (forward_links_not_in_tracks 3 exMake3dNear).2.2 exTracks3 hreach⟩

end TrackLinkTheorems

/-! ## The matches of computeMotionWithGraphs -/

section MatchTheorems

variable {F : Type}

/-- C29: when the matcher returns edges of the graph it is given (and the matrices cover the
shift rows and the current columns), `computeMotionWithGraphs` returns, and every entry
`stixels_motion[c] = p >= 0` of its result names a previous stixel `p` and a current stixel
`c` with `|p.x - c.x|` and `|p.bottom_y - c.bottom_y|` at most the lookup-table maximum
motion of `c` and with the entry of row `p.x - c.x + maximum_possible_motion_in_pixels` and
column `c` marked feasible. -/
theorem matches_are_feasible (env : Env F)
    (matcher : List (GraphEdge F) → List (GraphEdge F)) (st : CostState F)
    (previous_stixels current_stixels : List (Stixel F)) (stixels_motion : List Int)
    (hsub : ∀ graph : List (GraphEdge F), ∀ e ∈ matcher graph, e ∈ graph)
    (hlen : stixels_motion.length = current_stixels.length)
    (hr0 : 2 * env.maximum_possible_motion_in_pixels + 1 ≤ env.rows)
    (hcols : current_stixels.length ≤ env.cols) (hc0 : 0 < env.cols)
    (hlut : ∀ c ∈ current_stixels, compute_maximum_pixelwise_motion_for_stixel env c
      ≤ env.maximum_possible_motion_in_pixels)
    (hmax : env.maximum_possible_motion_in_pixels < 2 ^ 31) :
    ∃ res, computeMotionWithGraphs env matcher st previous_stixels current_stixels
        stixels_motion = some res ∧
      ∀ (c : Nat) (p : Int), res[c]? = some p → 0 ≤ p →
        ∃ (prevStixel currStixel : Stixel F),
          previous_stixels[p.toNat]? = some prevStixel ∧
          current_stixels[c]? = some currStixel ∧
          (prevStixel.x - currStixel.x).natAbs
            ≤ compute_maximum_pixelwise_motion_for_stixel env currStixel ∧
          (prevStixel.bottom_y - currStixel.bottom_y).natAbs
            ≤ compute_maximum_pixelwise_motion_for_stixel env currStixel ∧
          st.motion_cost_assignment_matrix
            (prevStixel.x - currStixel.x +
              (env.maximum_possible_motion_in_pixels : Int)).toNat c = true := by
  obtain ⟨graph, hg, hmem⟩ := buildGraph_spec env st previous_stixels current_stixels hr0
    hcols hc0 hlut hmax
  have hin : ∀ e ∈ matcher graph,
      EdgeInRange previous_stixels.length current_stixels.length e :=
    fun e he => buildGraph_inRange env st previous_stixels current_stixels graph hg e
      (hsub graph e he)
  obtain ⟨res, h1, _, h3⟩ :=
    motionLoop_spec (matcher graph) previous_stixels.length current_stixels.length hin
      (List.range previous_stixels.length) (stixels_motion.map (fun _ => (-1 : Int)))
      (fun i hi => List.mem_range.mp hi) (by rw [List.length_map]; exact hlen)
  refine ⟨res, ?_, ?_⟩
  · simp only [computeMotionWithGraphs, hg, Option.some_bind]
    exact h1
  · intro c p hc hp
    rcases h3 c p hc with h4 | ⟨e, he, hu, hv⟩
    · rw [List.getElem?_map] at h4
      cases hsm : stixels_motion[c]? with
      | none => simp [hsm] at h4
      | some b =>
        simp only [hsm, Option.map_some', Option.some.injEq] at h4
        omega
    · obtain ⟨p2, ps, c2, cs, hp2, hc2, ht, heq⟩ := (hmem e).mp (hsub graph e he)
      subst heq
      simp only [edgeOf] at hu hv
      have hcc : c2 = c := by omega
      subst hcc
      have hpp : p.toNat = p2 := by omega
      obtain ⟨g1, g2, g3, _⟩ := (edgeTests_iff env st ps cs c2
        (hlut cs (List.mem_iff_getElem?.mpr ⟨c2, hc2⟩)) hmax).mp ht
      exact ⟨ps, cs, by rw [hpp]; exact hp2, hc2, g1, g2, g3⟩

/-- Witness of C29: two stixels in columns 3 and 4 matched against themselves, with the
matcher that keeps the two straight edges. -/
theorem matches_are_feasible_witness :
    (∀ graph : List (GraphEdge Int), ∀ e ∈ exMatcher graph, e ∈ graph) ∧
    ([7, 7] : List Int).length = exStixels.length ∧
    computeMotionWithGraphs exEnv exMatcher exCostState exStixels exStixels [7, 7] =
      some [0, 1] ∧
    ∃ res, computeMotionWithGraphs exEnv exMatcher exCostState exStixels exStixels [7, 7] =
        some res ∧
      ∀ (c : Nat) (p : Int), res[c]? = some p → 0 ≤ p →
        ∃ (prevStixel currStixel : Stixel Int),
          exStixels[p.toNat]? = some prevStixel ∧
          exStixels[c]? = some currStixel ∧
          (prevStixel.x - currStixel.x).natAbs
            ≤ compute_maximum_pixelwise_motion_for_stixel exEnv currStixel ∧
          (prevStixel.bottom_y - currStixel.bottom_y).natAbs
            ≤ compute_maximum_pixelwise_motion_for_stixel exEnv currStixel ∧
          exCostState.motion_cost_assignment_matrix
            (prevStixel.x - currStixel.x +
              (exEnv.maximum_possible_motion_in_pixels : Int)).toNat c = true :=
  ⟨fun _ _ he => List.mem_of_mem_filter he, by decide, by decide,
    matches_are_feasible exEnv exMatcher exCostState exStixels exStixels [7, 7]
      (fun _ _ he => List.mem_of_mem_filter he) (by decide) (by decide) (by decide) (by decide)
      (fun _ _ => Nat.le_refl _) (by decide)⟩

end MatchTheorems

/-! ## Properties of getClusters -/

section ClusterTheorems

variable {F : Type}

/-- The cloud has one point per track; the point of a matched column has the label 1, the
point of any other column is the default point. -/
theorem cloudLoop_spec (ops : FloatOps F) (lib : ClusterLib F) (stixels_motion : List Int) :
    ∀ (rest : List (List (Stixel3d F))) (i : Nat) (cloud : List (PointXYZL F)),
      i + rest.length ≤ stixels_motion.length → (∀ track ∈ rest, track ≠ []) →
      ∃ out, cloudLoop ops lib stixels_motion i rest cloud = some out ∧
        out.length = cloud.length + rest.length ∧
        (∀ j : Nat, j < cloud.length → out[j]? = cloud[j]?) ∧
        ∀ (j : Nat) (motion : Int), j < rest.length → stixels_motion[i + j]? = some motion →
          ∃ point, out[cloud.length + j]? = some point ∧
            point.label = if 0 ≤ motion then 1 else lib.defaultPoint.label := by
  intro rest
  induction rest with
  | nil =>
    intro i cloud _ _
    exact ⟨cloud, rfl, by simp, fun j _ => rfl, fun j motion hj => by simp at hj⟩
  | cons track rest ih =>
    intro i cloud hlen hne
    simp only [List.length_cons] at hlen
    have hi : i < stixels_motion.length := by omega
    obtain ⟨last, hlast⟩ : ∃ last, track.getLast? = some last := by
      cases hl : track.getLast? with
      | none =>
        rw [List.getLast?_eq_none_iff] at hl
        exact absurd hl (hne track (List.mem_cons_self _ _))
      | some last => exact ⟨last, rfl⟩
    obtain ⟨pointPCL, hpt, hlabel⟩ : ∃ pointPCL,
        cloudPoint ops lib track stixels_motion[i] = some pointPCL ∧
        pointPCL.label = if 0 ≤ stixels_motion[i] then 1 else lib.defaultPoint.label := by
      unfold cloudPoint
      by_cases h0 : 0 ≤ stixels_motion[i]
      · simp only [h0, if_true, hlast]
        exact ⟨_, rfl, rfl⟩
      · simp only [h0, if_false]
        exact ⟨_, rfl, rfl⟩
    obtain ⟨out, h1, h2, h3, h4⟩ := ih (i + 1) (cloud ++ [pointPCL]) (by omega)
      (fun t ht => hne t (List.mem_cons_of_mem _ ht))
    refine ⟨out, ?_, ?_, ?_, ?_⟩
    · simp only [cloudLoop, List.getElem?_eq_getElem hi, hpt, Option.some_bind]
      exact h1
    · rw [h2]
      simp only [List.length_append, List.length_cons, List.length_nil]
      omega
    · intro j hj
      rw [h3 j (by simp only [List.length_append]; omega), List.getElem?_append_left hj]
    · intro j motion hj hm
      rcases j with _ | j
      · rw [Nat.add_zero] at hm ⊢
        rw [List.getElem?_eq_getElem hi] at hm
        cases hm
        refine ⟨pointPCL, ?_, hlabel⟩
        rw [h3 cloud.length (by simp), List.getElem?_append_right (Nat.le_refl _)]
        simp
      · simp only [List.length_cons] at hj
        obtain ⟨point, hp1, hp2⟩ := h4 j motion (by omega)
          (by rw [show i + 1 + j = i + (j + 1) by omega]; exact hm)
        refine ⟨point, ?_, hp2⟩
        rw [← hp1]
        simp only [List.length_append, List.length_cons, List.length_nil]
        rw [show cloud.length + (j + 1) = cloud.length + (0 + 1) + j by omega]

theorem buildCloud_spec (lib : ClusterLib F) (t : StixelsTracker F)
    (hmotion : t.tracks.m_tracker.length ≤ t.stixels_motion.length)
    (htracks : ∀ track ∈ t.tracks.m_tracker, track ≠ []) :
    ∃ cloud, buildCloud lib t = some cloud ∧ cloud.length = t.tracks.m_tracker.length ∧
      ∀ (i : Nat) (motion : Int), i < t.tracks.m_tracker.length →
        t.stixels_motion[i]? = some motion →
        ∃ point, cloud[i]? = some point ∧
          point.label = if 0 ≤ motion then 1 else lib.defaultPoint.label := by
  obtain ⟨cloud, h1, h2, _, h4⟩ := cloudLoop_spec t.env.ops lib t.stixels_motion
    t.tracks.m_tracker 0 [] (by omega) htracks
  refine ⟨cloud, h1, by simpa using h2, fun i motion hi hm => ?_⟩
  obtain ⟨point, hp1, hp2⟩ := h4 i motion hi (by rw [Nat.zero_add]; exact hm)
  exact ⟨point, by simpa using hp1, hp2⟩

theorem int_eq_toNat (i : Nat) (pit : Int) (h : 0 ≤ pit) : ((i : Int) = pit) ↔ i = pit.toNat := by
  omega

/-- The member loop returns; a column of the cluster holds the value of `memberValue`, any
other column keeps its value, and `trackLenght` becomes the longest track of an accepted
member if that is longer. -/
theorem memberLoop_spec (ops : FloatOps F) (cloud : List (PointXYZL F))
    (m_tracker : List (List (Stixel3d F))) (minW width : F) (clusterIdx : Nat)
    (hlen : m_tracker.length = cloud.length) :
    ∀ (indices : List Int) (acc : List Int × Nat),
      acc.1.length = cloud.length →
      (∀ pit ∈ indices, 0 ≤ pit ∧ pit.toNat < cloud.length) →
      ∃ out, memberLoop ops cloud m_tracker minW width clusterIdx indices acc = some out ∧
        out.1.length = cloud.length ∧
        (∀ (i : Nat) (point : PointXYZL F), cloud[i]? = some point →
          out.1[i]? =
            if (i : Int) ∈ indices then some (memberValue ops minW width clusterIdx point.label)
            else acc.1[i]?) ∧
        acc.2 ≤ out.2 ∧
        (∀ pit ∈ indices, ∀ (point : PointXYZL F) (track : List (Stixel3d F)),
          cloud[pit.toNat]? = some point → m_tracker[pit.toNat]? = some track →
          Accepted ops minW width point.label → track.length ≤ out.2) ∧
        (out.2 = acc.2 ∨
          ∃ pit ∈ indices, ∃ (point : PointXYZL F) (track : List (Stixel3d F)),
            cloud[pit.toNat]? = some point ∧ m_tracker[pit.toNat]? = some track ∧
            Accepted ops minW width point.label ∧ out.2 = track.length) := by
  intro indices
  induction indices with
  | nil =>
    intro acc hacc _
    exact ⟨acc, rfl, hacc, fun i point _ => by simp, Nat.le_refl _,
      fun _ hp => absurd hp (List.not_mem_nil _), Or.inl rfl⟩
  | cons pit rest ih =>
    intro acc hacc hrange
    obtain ⟨h0, hlt⟩ := hrange pit (List.mem_cons_self _ _)
    have hrest : ∀ p ∈ rest, 0 ≤ p ∧ p.toNat < cloud.length :=
      fun p hp => hrange p (List.mem_cons_of_mem _ hp)
    obtain ⟨point0, hpoint⟩ : ∃ point0, cloud[pit.toNat]? = some point0 :=
      ⟨_, List.getElem?_eq_getElem hlt⟩
    obtain ⟨track0, htrack⟩ : ∃ track0, m_tracker[pit.toNat]? = some track0 :=
      ⟨_, List.getElem?_eq_getElem (by omega)⟩
    by_cases hrej : point0.label = 0 ∨ ops.lt width minW = true
    · -- the member is rejected
      have hstep : memberStep ops cloud m_tracker minW width clusterIdx pit acc =
          some (acc.1.set pit.toNat (-1), acc.2) := by
        unfold memberStep
        rw [if_pos h0, hpoint]
        simp only
        rw [if_pos (by omega), if_pos hrej]
      obtain ⟨out, g1, g2, g3, g4, g5, g6⟩ := ih (acc.1.set pit.toNat (-1), acc.2)
        (by simp only [List.length_set]; exact hacc) hrest
      refine ⟨out, ?_, g2, ?_, g4, ?_, ?_⟩
      · simp only [memberLoop, hstep, Option.some_bind]
        exact g1
      · intro i point hi
        rw [g3 i point hi]
        by_cases hmem : (i : Int) ∈ rest
        · rw [if_pos hmem, if_pos (List.mem_cons_of_mem _ hmem)]
        · rw [if_neg hmem]
          by_cases hip : (i : Int) = pit
          · have hmem2 : (i : Int) ∈ pit :: rest := by rw [hip]; exact List.mem_cons_self _ _
            rw [if_pos hmem2]
            have hi2 : i = pit.toNat := (int_eq_toNat i pit h0).mp hip
            subst hi2
            rw [hpoint] at hi
            cases hi
            simp only [List.getElem?_set_self (by omega : pit.toNat < acc.1.length)]
            unfold memberValue
            rw [if_pos hrej]
          · have hmem2 : ¬ (i : Int) ∈ pit :: rest := by
              intro hc
              rcases List.mem_cons.mp hc with h | h
              · exact hip h
              · exact hmem h
            rw [if_neg hmem2]
            simp only
            rw [List.getElem?_set_ne]
            intro hc
            exact hip ((int_eq_toNat i pit h0).mpr hc.symm)
      · intro p hp point track hcp htp hacc2
        rcases List.mem_cons.mp hp with h | h
        · subst h
          rw [hpoint] at hcp
          cases hcp
          exact absurd hrej hacc2
        · exact g5 p h point track hcp htp hacc2
      · rcases g6 with h | ⟨p, hp, point, track, h1, h2, h3, h4⟩
        · exact Or.inl h
        · exact Or.inr ⟨p, List.mem_cons_of_mem _ hp, point, track, h1, h2, h3, h4⟩
    · -- the member is accepted
      have hstep : memberStep ops cloud m_tracker minW width clusterIdx pit acc =
          some (acc.1.set pit.toNat (clusterIdx : Int),
            if acc.2 < track0.length then track0.length else acc.2) := by
        unfold memberStep
        rw [if_pos h0, hpoint]
        simp only
        rw [if_pos (by omega), if_neg hrej, htrack]
      obtain ⟨out, g1, g2, g3, g4, g5, g6⟩ := ih
        (acc.1.set pit.toNat (clusterIdx : Int),
          if acc.2 < track0.length then track0.length else acc.2)
        (by simp only [List.length_set]; exact hacc) hrest
      simp only at g4 g6
      refine ⟨out, ?_, g2, ?_, ?_, ?_, ?_⟩
      · simp only [memberLoop, hstep, Option.some_bind]
        exact g1
      · intro i point hi
        rw [g3 i point hi]
        by_cases hmem : (i : Int) ∈ rest
        · rw [if_pos hmem, if_pos (List.mem_cons_of_mem _ hmem)]
        · rw [if_neg hmem]
          by_cases hip : (i : Int) = pit
          · have hmem2 : (i : Int) ∈ pit :: rest := by rw [hip]; exact List.mem_cons_self _ _
            rw [if_pos hmem2]
            have hi2 : i = pit.toNat := (int_eq_toNat i pit h0).mp hip
            subst hi2
            rw [hpoint] at hi
            cases hi
            simp only [List.getElem?_set_self (by omega : pit.toNat < acc.1.length)]
            unfold memberValue
            rw [if_neg hrej]
          · have hmem2 : ¬ (i : Int) ∈ pit :: rest := by
              intro hc
              rcases List.mem_cons.mp hc with h | h
              · exact hip h
              · exact hmem h
            rw [if_neg hmem2]
            simp only
            rw [List.getElem?_set_ne]
            intro hc
            exact hip ((int_eq_toNat i pit h0).mpr hc.symm)
      · split_ifs at g4 <;> omega
      · intro p hp point track hcp htp hacc2
        rcases List.mem_cons.mp hp with h | h
        · subst h
          rw [htrack] at htp
          cases htp
          split_ifs at g4 <;> omega
        · exact g5 p h point track hcp htp hacc2
      · rcases g6 with h | ⟨p, hp, point, track, h1, h2, h3, h4⟩
        · by_cases hl : acc.2 < track0.length
          · rw [if_pos hl] at h
            exact Or.inr ⟨pit, List.mem_cons_self _ _, _, _, hpoint, htrack, hrej, h⟩
          · rw [if_neg hl] at h
            exact Or.inl h
        · exact Or.inr ⟨p, List.mem_cons_of_mem _ hp, point, track, h1, h2, h3, h4⟩

theorem latestRecord_isSome (m_tracker : List (List (Stixel3d F))) (idx : Int)
    (htracks : ∀ track ∈ m_tracker, track ≠ []) (h0 : 0 ≤ idx)
    (hlt : idx.toNat < m_tracker.length) : ∃ r, latestRecord m_tracker idx = some r := by
  unfold latestRecord
  rw [if_pos h0, List.getElem?_eq_getElem hlt, Option.some_bind]
  cases hl : (m_tracker[idx.toNat]).getLast? with
  | none =>
    rw [List.getLast?_eq_none_iff] at hl
    exact absurd hl (htracks _ (List.getElem_mem _))
  | some r => exact ⟨r, rfl⟩

theorem clusterWidth_isSome (ops : FloatOps F) (m_tracker : List (List (Stixel3d F)))
    (indices : List Int) (htracks : ∀ track ∈ m_tracker, track ≠ []) (hne : indices ≠ [])
    (hrange : ∀ pit ∈ indices, 0 ≤ pit ∧ pit.toNat < m_tracker.length) :
    ∃ width, clusterWidth ops m_tracker indices = some width := by
  obtain ⟨idxBegin, hb⟩ : ∃ idxBegin, indices.head? = some idxBegin := by
    cases indices with
    | nil => exact absurd rfl hne
    | cons a l => exact ⟨a, rfl⟩
  obtain ⟨idxEnd, he⟩ : ∃ idxEnd, indices.getLast? = some idxEnd := by
    cases hl : indices.getLast? with
    | none => rw [List.getLast?_eq_none_iff] at hl; exact absurd hl hne
    | some a => exact ⟨a, rfl⟩
  have hbm : idxBegin ∈ indices := List.mem_of_mem_head? hb
  have hem : idxEnd ∈ indices := List.mem_of_mem_getLast? he
  obtain ⟨r1, hr1⟩ := latestRecord_isSome m_tracker idxBegin htracks (hrange _ hbm).1
    (hrange _ hbm).2
  obtain ⟨r2, hr2⟩ := latestRecord_isSome m_tracker idxEnd htracks (hrange _ hem).1
    (hrange _ hem).2
  exact ⟨ops.sub r2.bottom3d.1 r1.bottom3d.1, by simp only [clusterWidth, hb, he, hr1, hr2]⟩

/-- One cluster: the step returns, marks the columns of the cluster and emits the cluster
exactly when `EmitsObject` holds. -/
theorem clusterStep_spec (ops : FloatOps F) (cloud : List (PointXYZL F))
    (m_tracker : List (List (Stixel3d F))) (minW : F) (clusterIdx : Nat) (indices : List Int)
    (st : List Int × List (List Int))
    (hlen : m_tracker.length = cloud.length) (hst : st.1.length = cloud.length)
    (htracks : ∀ track ∈ m_tracker, track ≠ []) (hne : indices ≠ [])
    (hrange : ∀ pit ∈ indices, 0 ≤ pit ∧ pit.toNat < cloud.length) :
    ∃ width out, clusterWidth ops m_tracker indices = some width ∧
      clusterStep ops cloud m_tracker minW clusterIdx indices st = some out ∧
      out.1.length = cloud.length ∧
      (∀ (i : Nat) (point : PointXYZL F), cloud[i]? = some point →
        out.1[i]? =
          if (i : Int) ∈ indices then some (memberValue ops minW width clusterIdx point.label)
          else st.1[i]?) ∧
      (EmitsObject ops cloud m_tracker minW indices → out.2 = st.2 ++ [indices]) ∧
      (¬ EmitsObject ops cloud m_tracker minW indices → out.2 = st.2) := by
  obtain ⟨width, hw⟩ := clusterWidth_isSome ops m_tracker indices htracks hne
    (fun pit hp => by rw [hlen]; exact hrange pit hp)
  obtain ⟨r, g1, g2, g3, _, g5, g6⟩ := memberLoop_spec ops cloud m_tracker minW width
    clusterIdx hlen indices (st.1, 0) hst hrange
  obtain ⟨idxBegin, hb⟩ : ∃ idxBegin, indices.head? = some idxBegin := by
    cases indices with
    | nil => exact absurd rfl hne
    | cons a l => exact ⟨a, rfl⟩
  have hbm : idxBegin ∈ indices := List.mem_of_mem_head? hb
  obtain ⟨firstPoint, hfp⟩ : ∃ firstPoint, cloud[idxBegin.toNat]? = some firstPoint :=
    ⟨_, List.getElem?_eq_getElem (hrange _ hbm).2⟩
  have hlong : 2 < r.2 ↔
      ∃ pit ∈ indices, ∃ (point : PointXYZL F) (track : List (Stixel3d F)),
        cloud[pit.toNat]? = some point ∧ m_tracker[pit.toNat]? = some track ∧
        Accepted ops minW width point.label ∧ 2 < track.length := by
    constructor
    · intro h2
      rcases g6 with h | ⟨pit, hp, point, track, h1, h3, h4, h5⟩
      · simp only at h
        omega
      · exact ⟨pit, hp, point, track, h1, h3, h4, by omega⟩
    · rintro ⟨pit, hp, point, track, h1, h3, h4, h5⟩
      have := g5 pit hp point track h1 h3 h4
      omega
  have hemit : EmitsObject ops cloud m_tracker minW indices ↔
      (ops.lt minW width = true ∧ firstPoint.label ≠ 0 ∧ 2 < r.2) := by
    rw [hlong]
    constructor
    · rintro ⟨w, ib, fp, e1, e2, e3, e4, e5, e6⟩
      rw [hw] at e1
      cases e1
      rw [hb] at e2
      cases e2
      rw [hfp] at e3
      cases e3
      exact ⟨e4, e5, e6⟩
    · rintro ⟨e4, e5, e6⟩
      exact ⟨width, idxBegin, firstPoint, hw, hb, hfp, e4, e5, e6⟩
  have hlook : (indices.head?.bind (fun idx => if 0 ≤ idx then cloud[idx.toNat]? else none)) =
      some firstPoint := by
    rw [hb, Option.some_bind, if_pos (hrange _ hbm).1, hfp]
  by_cases hwide : ops.lt minW width = true
  · by_cases hobj : firstPoint.label ≠ 0 ∧ 2 < r.2
    · refine ⟨width, (r.1, st.2 ++ [indices]), hw, ?_, g2, g3, fun _ => rfl, fun hno => ?_⟩
      · simp only [clusterStep, hw, g1, Option.some_bind, hwide, if_true, hlook]
        rw [if_pos hobj]
      · exact absurd (hemit.mpr ⟨hwide, hobj⟩) hno
    · refine ⟨width, (r.1, st.2), hw, ?_, g2, g3, fun hyes => ?_, fun _ => rfl⟩
      · simp only [clusterStep, hw, g1, Option.some_bind, hwide, if_true, hlook]
        rw [if_neg hobj]
      · exact absurd (hemit.mp hyes).2 hobj
  · refine ⟨width, (r.1, st.2), hw, ?_, g2, g3, fun hyes => ?_, fun _ => rfl⟩
    · simp only [clusterStep, hw, g1, Option.some_bind, hwide]
      rfl
    · exact absurd (hemit.mp hyes).1 hwide

/-- The loop over the clusters returns.  A column that is in no cluster keeps its value, a
column of a cluster holds the value written for the last cluster that contains it, and the
objects added are the clusters for which `EmitsObject` holds. -/
theorem clusterLoop_spec (ops : FloatOps F) (cloud : List (PointXYZL F))
    (m_tracker : List (List (Stixel3d F))) (minW : F)
    (hlen : m_tracker.length = cloud.length)
    (htracks : ∀ track ∈ m_tracker, track ≠ []) :
    ∀ (clusters : List (List Int)) (clusterIdx : Nat) (st : List Int × List (List Int)),
      st.1.length = cloud.length →
      (∀ indices ∈ clusters, indices ≠ [] ∧
        ∀ pit ∈ indices, 0 ≤ pit ∧ pit.toNat < cloud.length) →
      ∃ out, clusterLoop ops cloud m_tracker minW clusterIdx clusters st = some out ∧
        out.1.length = cloud.length ∧
        (∀ i : Nat, (∀ indices ∈ clusters, (i : Int) ∉ indices) → out.1[i]? = st.1[i]?) ∧
        (∀ (j : Nat) (indices : List Int) (i : Nat) (point : PointXYZL F),
          clusters[j]? = some indices → (i : Int) ∈ indices → cloud[i]? = some point →
          (∀ (j2 : Nat) (indices2 : List Int), j < j2 → clusters[j2]? = some indices2 →
            (i : Int) ∉ indices2) →
          ∃ width, clusterWidth ops m_tracker indices = some width ∧
            out.1[i]? = some (memberValue ops minW width (clusterIdx + j) point.label)) ∧
        (∀ x, x ∈ out.2 ↔ x ∈ st.2 ∨ (x ∈ clusters ∧ EmitsObject ops cloud m_tracker minW x)) := by
  intro clusters
  induction clusters with
  | nil =>
    intro clusterIdx st hst _
    refine ⟨st, rfl, hst, fun i _ => rfl, ?_, fun x => by simp⟩
    intro j indices i point hj
    simp at hj
  | cons c rest ih =>
    intro clusterIdx st hst hall
    obtain ⟨hne, hrange⟩ := hall c (List.mem_cons_self _ _)
    obtain ⟨width, mid, hw, hstep, m1, m2, m3, m4⟩ := clusterStep_spec ops cloud m_tracker minW
      clusterIdx c st hlen hst htracks hne hrange
    obtain ⟨out, g1, g2, g3, g4, g5⟩ := ih (clusterIdx + 1) mid m1
      (fun x hx => hall x (List.mem_cons_of_mem _ hx))
    refine ⟨out, ?_, g2, ?_, ?_, ?_⟩
    · simp only [clusterLoop, hstep, Option.some_bind]
      exact g1
    · intro i hno
      rw [g3 i (fun x hx => hno x (List.mem_cons_of_mem _ hx))]
      have hic : (i : Int) ∉ c := hno c (List.mem_cons_self _ _)
      rcases Nat.lt_or_ge i cloud.length with hi | hi
      · rw [m2 i _ (List.getElem?_eq_getElem hi), if_neg hic]
      · rw [List.getElem?_eq_none (by omega), List.getElem?_eq_none (by omega)]
    · intro j indices i point hj hmem hpt hlater
      rcases j with _ | j
      · simp only [List.getElem?_cons_zero, Option.some.injEq] at hj
        subst hj
        refine ⟨width, hw, ?_⟩
        rw [g3 i (fun x hx => by
          obtain ⟨n, hn⟩ := List.mem_iff_getElem?.mp hx
          exact hlater (n + 1) x (by omega) (by simpa using hn)),
          m2 i point hpt, if_pos hmem, Nat.add_zero]
      · simp only [List.getElem?_cons_succ] at hj
        obtain ⟨w2, hw2, hv⟩ := g4 j indices i point hj hmem hpt
          (fun j2 x hj2 hx => hlater (j2 + 1) x (by omega) (by simpa using hx))
        refine ⟨w2, hw2, ?_⟩
        rw [hv, show clusterIdx + 1 + j = clusterIdx + (j + 1) by omega]
    · intro x
      rw [g5 x]
      by_cases hemit : EmitsObject ops cloud m_tracker minW c
      · rw [m3 hemit, List.mem_append, List.mem_singleton, List.mem_cons]
        constructor
        · rintro ((h | h) | ⟨h1, h2⟩)
          · exact Or.inl h
          · exact Or.inr ⟨Or.inl h, by rw [h]; exact hemit⟩
          · exact Or.inr ⟨Or.inr h1, h2⟩
        · rintro (h | ⟨h1 | h1, h2⟩)
          · exact Or.inl (Or.inl h)
          · exact Or.inl (Or.inr h1)
          · exact Or.inr ⟨h1, h2⟩
      · rw [m4 hemit, List.mem_cons]
        constructor
        · rintro (h | ⟨h1, h2⟩)
          · exact Or.inl h
          · exact Or.inr ⟨Or.inr h1, h2⟩
        · rintro (h | ⟨h1 | h1, h2⟩)
          · exact Or.inl h
          · exact absurd (by rw [← h1]; exact h2) hemit
          · exact Or.inr ⟨h1, h2⟩

/-- With a motion entry for every track, no empty track and clusters made of column
indices, `getClusters` returns; it changes `m_clusters` and `m_objects` only. -/
theorem getClusters_spec (lib : ClusterLib F) (t : StixelsTracker F)
    (hmotion : t.tracks.m_tracker.length ≤ t.stixels_motion.length)
    (htracks : ∀ track ∈ t.tracks.m_tracker, track ≠ [])
    (hlib : ∀ cloud, buildCloud lib t = some cloud →
      ∀ indices ∈ clusterIndices lib t cloud, indices ≠ [] ∧
        ∀ pit ∈ indices, 0 ≤ pit ∧ pit.toNat < t.tracks.m_tracker.length) :
    ∃ cloud m_clusters m_objects, buildCloud lib t = some cloud ∧
      cloud.length = t.tracks.m_tracker.length ∧
      (∀ (i : Nat) (motion : Int), i < t.tracks.m_tracker.length →
        t.stixels_motion[i]? = some motion →
        ∃ point, cloud[i]? = some point ∧
          point.label = if 0 ≤ motion then 1 else lib.defaultPoint.label) ∧
      getClusters lib t = some { t with m_clusters := m_clusters, m_objects := m_objects } ∧
      m_clusters.length = t.tracks.m_tracker.length ∧
      (∀ i : Nat, i < t.tracks.m_tracker.length →
        (∀ indices ∈ clusterIndices lib t cloud, (i : Int) ∉ indices) →
        m_clusters[i]? = some 0) ∧
      (∀ (j : Nat) (indices : List Int) (i : Nat) (point : PointXYZL F),
        (clusterIndices lib t cloud)[j]? = some indices → (i : Int) ∈ indices →
        cloud[i]? = some point →
        (∀ (j2 : Nat) (indices2 : List Int), j < j2 →
          (clusterIndices lib t cloud)[j2]? = some indices2 → (i : Int) ∉ indices2) →
        ∃ width, clusterWidth t.env.ops t.tracks.m_tracker indices = some width ∧
          m_clusters[i]? =
            some (memberValue t.env.ops t.m_minAllowedObjectWidth width j point.label)) ∧
      (∀ x, x ∈ m_objects ↔
        x ∈ clusterIndices lib t cloud ∧
          EmitsObject t.env.ops cloud t.tracks.m_tracker t.m_minAllowedObjectWidth x) := by
  obtain ⟨cloud, hc1, hc2, hc3⟩ := buildCloud_spec lib t hmotion htracks
  obtain ⟨out, g1, g2, g3, g4, g5⟩ := clusterLoop_spec t.env.ops cloud t.tracks.m_tracker
    t.m_minAllowedObjectWidth hc2.symm htracks (clusterIndices lib t cloud) 0
    (List.replicate t.tracks.m_tracker.length 0, [])
    (by simp only [List.length_replicate]; exact hc2.symm)
    (fun indices hi => by rw [hc2]; exact hlib cloud hc1 indices hi)
  refine ⟨cloud, out.1, out.2, hc1, hc2, hc3, ?_, by rw [g2, hc2], ?_, ?_, ?_⟩
  · simp only [getClusters, hc1, Option.some_bind, g1, Option.map_some']
  · intro i hi hno
    rw [g3 i hno]
    simp only [List.getElem?_replicate, hi, if_true]
  · intro j indices i point hj hmem hpt hlater
    obtain ⟨width, hw, hv⟩ := g4 j indices i point hj hmem hpt hlater
    exact ⟨width, hw, by rw [hv, Nat.zero_add]⟩
  · intro x
    rw [g5 x]
    simp

/-- C30: with a motion entry for every track, no empty track and clusters that are
non-empty lists of column indices, `getClusters` returns, `m_clusters` has one entry per
track, every column that is in no cluster has the value 0, every column with the value `-1`
is in some cluster, and an accepted member of the cluster of index 0 that no later cluster
contains has the value 0 as well. -/
theorem unclustered_columns_zero (lib : ClusterLib F) (t : StixelsTracker F)
    (hmotion : t.tracks.m_tracker.length ≤ t.stixels_motion.length)
    (htracks : ∀ track ∈ t.tracks.m_tracker, track ≠ [])
    (hlib : ∀ cloud, buildCloud lib t = some cloud →
      ∀ indices ∈ clusterIndices lib t cloud, indices ≠ [] ∧
        ∀ pit ∈ indices, 0 ≤ pit ∧ pit.toNat < t.tracks.m_tracker.length) :
    ∃ cloud t2, buildCloud lib t = some cloud ∧ getClusters lib t = some t2 ∧
      t2.m_clusters.length = t.tracks.m_tracker.length ∧
      (∀ i : Nat, i < t.tracks.m_tracker.length →
        (∀ indices ∈ clusterIndices lib t cloud, (i : Int) ∉ indices) →
        t2.m_clusters[i]? = some 0) ∧
      (∀ i : Nat, t2.m_clusters[i]? = some (-1) →
        ∃ indices ∈ clusterIndices lib t cloud, (i : Int) ∈ indices) ∧
      (∀ (indices : List Int) (i : Nat) (point : PointXYZL F),
        (clusterIndices lib t cloud)[0]? = some indices → (i : Int) ∈ indices →
        cloud[i]? = some point →
        (∀ (j2 : Nat) (indices2 : List Int), 0 < j2 →
          (clusterIndices lib t cloud)[j2]? = some indices2 → (i : Int) ∉ indices2) →
        ∃ width, clusterWidth t.env.ops t.tracks.m_tracker indices = some width ∧
          (Accepted t.env.ops t.m_minAllowedObjectWidth width point.label →
            t2.m_clusters[i]? = some 0)) := by
  obtain ⟨cloud, m_clusters, m_objects, h1, _, _, h4, h5, h6, h7, _⟩ :=
    getClusters_spec lib t hmotion htracks hlib
  refine ⟨cloud, _, h1, h4, h5, h6, ?_, ?_⟩
  · intro i hi
    have hi2 : m_clusters[i]? = some (-1) := hi
    by_contra hno
    have hlt : i < t.tracks.m_tracker.length := by
      rcases Nat.lt_or_ge i t.tracks.m_tracker.length with h | h
      · exact h
      · rw [List.getElem?_eq_none (by omega)] at hi2; cases hi2
    have hz := h6 i hlt (fun indices hin hmem => hno ⟨indices, hin, hmem⟩)
    rw [hz] at hi2
    cases hi2
  · intro indices i point h0 hmem hpt hlater
    obtain ⟨width, hw, hv⟩ := h7 0 indices i point h0 hmem hpt hlater
    refine ⟨width, hw, fun hacc => ?_⟩
    show m_clusters[i]? = _
    rw [hv]
    unfold memberValue
    rw [if_neg hacc]
    rfl

/-- What `getClusters` emits: the clusters for which the test of lines 1062-1063 holds, a
test that asks for a width greater than `m_minAllowedObjectWidth`. -/
theorem getClusters_objects (lib : ClusterLib F) (t : StixelsTracker F)
    (hmotion : t.tracks.m_tracker.length ≤ t.stixels_motion.length)
    (htracks : ∀ track ∈ t.tracks.m_tracker, track ≠ [])
    (hlib : ∀ cloud, buildCloud lib t = some cloud →
      ∀ indices ∈ clusterIndices lib t cloud, indices ≠ [] ∧
        ∀ pit ∈ indices, 0 ≤ pit ∧ pit.toNat < t.tracks.m_tracker.length) :
    ∃ cloud t2, buildCloud lib t = some cloud ∧ getClusters lib t = some t2 ∧
      ∀ x, x ∈ t2.m_objects ↔
        x ∈ clusterIndices lib t cloud ∧
          EmitsObject t.env.ops cloud t.tracks.m_tracker t.m_minAllowedObjectWidth x := by
  obtain ⟨cloud, m_clusters, m_objects, h1, _, _, h4, _, _, _, h8⟩ :=
    getClusters_spec lib t hmotion htracks hlib
  exact ⟨cloud, _, h1, h4, h8⟩

theorem exClusterTracker_tracks : ∀ track ∈ exClusterTracker.tracks.m_tracker, track ≠ [] := by
  decide

theorem exLib_clusters : ∀ cloud, buildCloud exLib exClusterTracker = some cloud →
    ∀ indices ∈ clusterIndices exLib exClusterTracker cloud, indices ≠ [] ∧
      ∀ pit ∈ indices, 0 ≤ pit ∧ pit.toNat < exClusterTracker.tracks.m_tracker.length := by
  intro cloud _ indices hi
  have h : indices = [0, 1, 2] := by simpa [clusterIndices, exLib] using hi
  subst h
  decide

/-- C23 (the defect): three tracks of three records whose latest bottoms are at 0, 0.15 and
0.3 metres form the one cluster of a tracker with `m_minAllowedObjectWidth = 0.3`, and
every column is matched.  The width of the cluster is 0.3, which is not below the minimum;
the point of the first member has the label 1 and the tracks have length 3.  The member
loop gives the three columns the index 0 of the cluster, and no object is emitted; with a
minimum of 0.299 the same cluster is emitted. -/
theorem cluster_of_minimal_width_not_emitted :
    clusterWidth exClusterTracker.env.ops exClusterTracker.tracks.m_tracker [0, 1, 2] =
      some 300 ∧
    exClusterTracker.m_minAllowedObjectWidth = 300 ∧
    exClusterTracker.env.ops.lt 300 300 = false ∧
    (buildCloud exLib exClusterTracker).map (fun cloud => cloud.map (fun p => p.label)) =
      some [1, 1, 1, 1] ∧
    exClusterTracker.tracks.m_tracker.map List.length = [3, 3, 3, 3] ∧
    (getClusters exLib exClusterTracker).map (fun t2 => (t2.m_clusters, t2.m_objects)) =
      some ([0, 0, 0, 0], []) ∧
    (getClusters exLib { exClusterTracker with m_minAllowedObjectWidth := 299 }).map
        (fun t2 => (t2.m_clusters, t2.m_objects)) =
      some ([0, 0, 0, 0], [[0, 1, 2]]) := by
  decide

/-- Witness of C30: in `exClusterTracker` column 3 is in no cluster. -/
theorem unclustered_columns_zero_witness :
    (getClusters exLib exClusterTracker).map (fun t2 => t2.m_clusters[3]?) = some (some 0) ∧
    ∃ cloud t2, buildCloud exLib exClusterTracker = some cloud ∧
      getClusters exLib exClusterTracker = some t2 ∧
      t2.m_clusters.length = exClusterTracker.tracks.m_tracker.length ∧
      (∀ i : Nat, i < exClusterTracker.tracks.m_tracker.length →
        (∀ indices ∈ clusterIndices exLib exClusterTracker cloud, (i : Int) ∉ indices) →
        t2.m_clusters[i]? = some 0) ∧
      (∀ i : Nat, t2.m_clusters[i]? = some (-1) →
        ∃ indices ∈ clusterIndices exLib exClusterTracker cloud, (i : Int) ∈ indices) ∧
      (∀ (indices : List Int) (i : Nat) (point : PointXYZL Int),
        (clusterIndices exLib exClusterTracker cloud)[0]? = some indices → (i : Int) ∈ indices →
        cloud[i]? = some point →
        (∀ (j2 : Nat) (indices2 : List Int), 0 < j2 →
          (clusterIndices exLib exClusterTracker cloud)[j2]? = some indices2 →
          (i : Int) ∉ indices2) →
        ∃ width, clusterWidth exClusterTracker.env.ops exClusterTracker.tracks.m_tracker
            indices = some width ∧
          (Accepted exClusterTracker.env.ops exClusterTracker.m_minAllowedObjectWidth width
              point.label →
            t2.m_clusters[i]? = some 0)) :=
  ⟨by decide,
    unclustered_columns_zero exLib exClusterTracker (by decide) exClusterTracker_tracks
      exLib_clusters⟩

end ClusterTheorems

end StixelWorld
